import Mathlib

/-!
# SmartHome: device persistence model

A shallow embedding of the device classes of the Smart Home project
(`SmartDevice`, `SmartLight`, `SmartSpeaker`, `SmartPlug`, `Thermostat`,
`RadiatorValve`, `TempHumiditySensor`) and of the registry `SmartHome`.

Conventions of the embedding

* `std::string` is a list of characters (`Text`); the file `smart_home.txt` is
  the text it holds (a file that cannot be opened reads like the empty text).
* `std::stringstream` / `std::ifstream` used for reading is an `IStream`: the
  unread characters with the `eofbit` and `failbit` of the stream.
* `int` is `Int`, with the range checks of `std::stoi` and of `operator>>`
  written out (`INT_MIN`, `INT_MAX`).
* `float` energy values are rationals; what the code computes in `float` is
  rounded to the nearest value of the format (`roundFloat`). The text form of a
  float (`operator<<` on output, `std::stof` on input) belongs to the C++ library
  and is a parameter (`FloatText`).
* `time(nullptr)` is a parameter `now`.
* an exception leaving a function is `Except.error`.
-/

namespace SmartHome

/-- Contents of a `std::string`. -/
abbrev Text := List Char

/-- Exceptions thrown by `std::stoi` / `std::stof`. -/
inductive Exn where
  | invalid_argument
  | out_of_range
deriving DecidableEq, Repr

deriving instance DecidableEq for Except

/-- Largest value of a C++ `int`. -/
def INT_MAX : Int := 2147483647

/-- Smallest value of a C++ `int`. -/
def INT_MIN : Int := -2147483648

/-! ## Input streams -/

/-- An input stream: the characters not yet read and the two state bits that
the code depends on. -/
structure IStream where
  buf : Text
  eofbit : Bool
  failbit : Bool
deriving DecidableEq, Repr

/-- A stream freshly opened on a text (`stringstream ss(data)`). -/
def IStream.ofText (t : Text) : IStream := ⟨t, false, false⟩

/-- The member `good()`: neither `eofbit` nor `failbit` is set. -/
def IStream.good (s : IStream) : Bool := !s.eofbit && !s.failbit

/-- The library function `std::getline(is, str, delim)`. When the stream is not
good on entry only `failbit` is set and `str` keeps its content. Otherwise `str`
is erased and receives the characters up to the delimiter (which is removed from
the stream and dropped) or up to the end of the input (`eofbit`); `failbit` is
set when nothing at all was extracted. -/
def getline (s : IStream) (str : Text) (delim : Char) : IStream × Text :=
  if s.good then
    let pre := s.buf.takeWhile (fun c => c != delim)
    match s.buf.dropWhile (fun c => c != delim) with
    | [] => (⟨[], true, pre.isEmpty⟩, pre)
    | _ :: rest => (⟨rest, false, false⟩, pre)
  else
    (⟨s.buf, s.eofbit, true⟩, str)

/-- The value held by an `int` after reading a decimal number `v`: `v` itself
inside the range of `int`, the nearest bound outside. -/
def saturate (v : Int) : Int := max INT_MIN (min INT_MAX v)

/-- The C function `isspace` in the default locale. -/
def isSpace (c : Char) : Bool :=
  c == ' ' || c == '\t' || c == '\n' || c == '\x0b' || c == '\x0c' || c == '\r'

/-- Value of a run of decimal digits, most significant first. -/
def digitsVal (ds : Text) : Nat :=
  ds.foldl (fun acc c => 10 * acc + (c.toNat - 48)) 0

/-- Splits an optional sign off the front: `(isNegative, rest)`. -/
def takeSign : Text → Bool × Text
  | '-' :: r => (true, r)
  | '+' :: r => (false, r)
  | s => (false, s)

/-- The library function `std::stoi(str)` (base 10): leading white space is
skipped, then an optional sign and the longest run of digits are converted.
No digit: `invalid_argument`; a value outside `int`: `out_of_range`. -/
def stoi (str : Text) : Except Exn Int :=
  let (neg, r) := takeSign (str.dropWhile isSpace)
  let ds := r.takeWhile Char.isDigit
  if ds.isEmpty then .error .invalid_argument
  else
    let v : Int := if neg then -(digitsVal ds : Int) else (digitsVal ds : Int)
    if INT_MIN ≤ v ∧ v ≤ INT_MAX then .ok v else .error .out_of_range

/-- Decimal digits of `n`, most significant first (`fuel` bounds the number of
digits produced). -/
def natDigits : Nat → Nat → Text
  | 0, _ => []
  | fuel + 1, n =>
    if n < 10 then [Char.ofNat (48 + n)]
    else natDigits fuel (n / 10) ++ [Char.ofNat (48 + n % 10)]

/-- A character that is one of the ten decimal digits. -/
def IsDigitChar (c : Char) : Prop := ∃ d, d < 10 ∧ c = Char.ofNat (48 + d)

/-- Decimal text of a natural number. -/
def showNat (n : Nat) : Text := natDigits (n + 1) n

/-- Text written by `operator<<` for an `int`. -/
def showInt : Int → Text
  | .ofNat n => showNat n
  | .negSucc n => '-' :: showNat (n + 1)

/-- Text written by `operator<<` for a `bool` (no `boolalpha`). -/
def showBool (b : Bool) : Text := if b then ['1'] else ['0']

/-- The extraction `is >> value` for an `int` (decimal). When the stream is not
good on entry, or holds only white space, `failbit` is set and `value` is kept.
Otherwise an optional sign and a run of digits are read: without a digit the
value becomes `0` with `failbit`; a value outside `int` is replaced by the
nearest bound with `failbit`. `eofbit` is set when the scan reaches the end of
the input. -/
def extractInt (s : IStream) (value : Int) : IStream × Int :=
  if s.good then
    match s.buf.dropWhile isSpace with
    | [] => (⟨[], true, true⟩, value)
    | c :: cs =>
      let (neg, r) := takeSign (c :: cs)
      let ds := r.takeWhile Char.isDigit
      let rest := r.dropWhile Char.isDigit
      if ds.isEmpty then (⟨rest, rest.isEmpty, true⟩, 0)
      else
        let v : Int := if neg then -(digitsVal ds : Int) else (digitsVal ds : Int)
        if INT_MAX < v then (⟨rest, rest.isEmpty, true⟩, INT_MAX)
        else if v < INT_MIN then (⟨rest, rest.isEmpty, true⟩, INT_MIN)
        else (⟨rest, rest.isEmpty, false⟩, v)
  else
    (⟨s.buf, s.eofbit, true⟩, value)

/-- The member `ignore()`: removes one character from a good stream (`eofbit`
when there is none); a stream that is not good only gets `failbit`. -/
def IStream.ignore (s : IStream) : IStream :=
  if s.good then
    match s.buf with
    | [] => ⟨[], true, false⟩
    | _ :: rest => ⟨rest, false, false⟩
  else
    ⟨s.buf, s.eofbit, true⟩

/-- The lines delivered by the loop `while (getline(file, line))`, in order (a
successful `getline` erases `line` first, so what `line` held before does not
matter). Every round extracts at least one character, so `fuel` above the number
of unread characters is never exhausted. -/
def readLines : Nat → IStream → List Text
  | 0, _ => []
  | fuel + 1, file =>
    let r := getline file [] '\n'
    if r.1.failbit then [] else r.2 :: readLines fuel r.1

/-- The lines of the file as the loading loops see them. -/
def fileLines (file : Text) : List Text :=
  readLines (file.length + 1) (IStream.ofText file)

/-- Text form of `float` values: what `operator<<` writes for a `float` and what
`std::stof` returns (or throws) for a text. Both belong to the C++ library. -/
structure FloatText where
  put : ℚ → Text
  stof : Text → Except Exn ℚ

/-! ### A model of the library's float text

`cxxFloatText` writes a value the way `operator<<` does with the default
format (six significant digits, fixed or scientific form by the size of the
exponent, trailing zeros removed) and reads decimal floating literals the way
`std::stof` does. Values are rationals: the binary rounding of `float`, the
hexadecimal form and the texts for infinity and NaN are outside this model. -/

/-- Largest `k ≤ fuel` with `d * 10 ^ k ≤ n` (for `d ≤ n`). -/
def expUp : Nat → Nat → Nat → Nat
  | 0, _, _ => 0
  | fuel + 1, n, d => if 10 * d ≤ n then expUp fuel n (10 * d) + 1 else 0

/-- Least `k ≤ fuel` with `d ≤ n * 10 ^ k` (for `0 < n`). -/
def expDown : Nat → Nat → Nat → Nat
  | 0, _, _ => 0
  | fuel + 1, n, d => if n < d then expDown fuel (10 * n) d + 1 else 0

/-- The quotient `n / d` rounded to the nearest natural number, ties to even. -/
def roundHalfEven (n d : Nat) : Nat :=
  let q := n / d
  let r := n % d
  if 2 * r < d then q
  else if d < 2 * r then q + 1
  else if q % 2 = 0 then q else q + 1

/-- The positive rational `n / d` as six significant decimal digits `m` and a
decimal exponent `x`: `n / d` is about `m * 10 ^ (x - 5)`, `10 ^ 5 ≤ m < 10 ^ 6`. -/
def sixDigits (n d : Nat) : Nat × Int :=
  let x : Int := if d ≤ n then (expUp n n d : Int) else -(expDown d n d : Int)
  let m := if x ≤ 5 then roundHalfEven (n * 10 ^ (5 - x).toNat) d
           else roundHalfEven n (d * 10 ^ (x - 5).toNat)
  if 1000000 ≤ m then (m / 10, x + 1) else (m, x)

/-- Removes the zeros at the end of a run of digits. -/
def stripZeros (ds : Text) : Text :=
  (ds.reverse.dropWhile (fun c => c == '0')).reverse

/-- A fractional part for printing: nothing when all its digits are zero. -/
def fracText (ds : Text) : Text :=
  match stripZeros ds with
  | [] => []
  | f => '.' :: f

/-- Text of a positive rational in the default float format (`%g`, precision 6). -/
def putPos (n d : Nat) : Text :=
  let r := sixDigits n d
  let ds := natDigits 7 r.1
  if -4 ≤ r.2 ∧ r.2 < 6 then
    if 0 ≤ r.2 then
      ds.take (r.2.toNat + 1) ++ fracText (ds.drop (r.2.toNat + 1))
    else
      '0' :: fracText (List.replicate ((-r.2).toNat - 1) '0' ++ ds)
  else
    let e := r.2.natAbs
    ds.take 1 ++ fracText (ds.drop 1) ++ 'e' :: (if r.2 < 0 then '-' else '+')
      :: (if e < 10 then '0' :: showNat e else showNat e)

/-- Text written by `operator<<` for a `float` in the default format. -/
def putFloat (q : ℚ) : Text :=
  if q.num = 0 then ['0']
  else if q.num < 0 then '-' :: putPos q.num.natAbs q.den
  else putPos q.num.natAbs q.den

/-- Largest finite `float` (an integer). -/
def FLT_MAX : Nat := (2 ^ 24 - 1) * 2 ^ 104

/-- Inverse of the smallest positive normal `float`, `2 ^ (-126)`. -/
def FLT_MIN_INV : Nat := 2 ^ 126

/-- The exponent part of a floating literal: `e` or `E`, an optional sign and
at least one digit; `0` when the text does not start with such a part. -/
def expPart : Text → Int
  | c :: r =>
    if c = 'e' ∨ c = 'E' then
      let sr := takeSign r
      let ds := sr.2.takeWhile Char.isDigit
      if ds.isEmpty then 0
      else if sr.1 then -(digitsVal ds : Int) else (digitsVal ds : Int)
    else 0
  | [] => 0

/-- The library function `std::stof(str)` on decimal literals: white space, an
optional sign, digits with an optional point, an optional exponent. No digit:
`invalid_argument`; a value that a `float` cannot hold without overflow or
underflow: `out_of_range`. The value is `num / den`. -/
def stofDec (str : Text) : Except Exn ℚ :=
  let sr := takeSign (str.dropWhile isSpace)
  let ip := sr.2.takeWhile Char.isDigit
  let r1 := sr.2.dropWhile Char.isDigit
  let fp := match r1 with
    | '.' :: r => r.takeWhile Char.isDigit
    | _ => []
  let r2 := match r1 with
    | '.' :: r => r.dropWhile Char.isDigit
    | _ => r1
  if ip.isEmpty ∧ fp.isEmpty then .error .invalid_argument
  else
    let e := expPart r2
    let num : Nat := digitsVal (ip ++ fp) * 10 ^ e.toNat
    let den : Nat := 10 ^ (fp.length + (-e).toNat)
    if FLT_MAX * den < num ∨ (0 < num ∧ num * FLT_MIN_INV < den) then .error .out_of_range
    else .ok (mkRat (if sr.1 then -(num : Int) else (num : Int)) den)

/-- The float text of the C++ library, on rationals. -/
def cxxFloatText : FloatText := ⟨putFloat, stofDec⟩

/-! ### Arithmetic in `float`

A `float` is an IEEE binary32 number: 24 significant bits, exponents from
`-126` to `127`, smaller values in steps of `2 ^ (-149)`. The result of an
operation is the exact result rounded to the nearest such number, ties to the
one with an even last bit. Results beyond the largest finite `float` (infinity)
are outside this model; the sums of the energy accounting stay finite
(`roundFloat_add_finite`). -/

/-- The integer nearest to `x`; of two integers at the same distance the even
one. -/
def roundTiesEven (x : ℚ) : Int :=
  if x - ⌊x⌋ < 1 / 2 then ⌊x⌋
  else if 1 / 2 < x - ⌊x⌋ then ⌊x⌋ + 1
  else if ⌊x⌋ % 2 = 0 then ⌊x⌋ else ⌊x⌋ + 1

/-- The binary exponent at which `x` is rounded to a `float`: the exponent of the
leading bit of `|x|`, and `-126`, the smallest exponent of the format, for
smaller values. -/
def floatExponent (x : ℚ) : Int := max (Int.log 2 |x|) (-126)

/-- The multiple of `2 ^ (e - 23)` nearest to `x`, ties to the even multiple:
`x` rounded to 24 significant bits at the binary exponent `e`. -/
def roundAt (e : Int) (x : ℚ) : ℚ :=
  (roundTiesEven (x / 2 ^ (e - 23)) : ℚ) * 2 ^ (e - 23)

/-- The value of type `float` nearest to `x`: what a `float` variable holds after
`x` was computed and stored in it. -/
def roundFloat (x : ℚ) : ℚ := roundAt (floatExponent x) x

/-- The number `v` is a value of type `float`. -/
def IsFloatValue (v : ℚ) : Prop := roundFloat v = v

instance (v : ℚ) : Decidable (IsFloatValue v) :=
  inferInstanceAs (Decidable (roundFloat v = v))

/-! ## Device state -/

/-- The nested `struct Schedule` of `SmartPlug`, `Thermostat`, `RadiatorValve`. -/
structure Schedule where
  hour : Int
  minute : Int
  state : Text
deriving DecidableEq, Repr

/-- The structs `SmartPlug::PowerReading` and `TempHumiditySensor::EnergyReading`. -/
structure PowerReading where
  energyUsed : ℚ
  timestamp : Int
deriving DecidableEq, Repr

/-- The struct `TempHumiditySensor::Reading`. -/
structure Reading where
  temperature : ℚ
  humidity : ℚ
  timestamp : Int
deriving DecidableEq, Repr

/-- Data members of the base class `SmartDevice`. Of the member `timerThread`
the state keeps whether it holds a started thread (`joinable()`). -/
structure SmartDevice where
  name : Text
  isOn : Bool
  timer : Int
  timerRunning : Bool
  timerThread : Bool
deriving DecidableEq, Repr

/-- The constructor `SmartDevice::SmartDevice(name)`. -/
def SmartDevice.new (name : Text) : SmartDevice := ⟨name, false, 0, false, false⟩

/-- The member `SmartDevice::stopTimer`. -/
def SmartDevice.stopTimer (d : SmartDevice) : SmartDevice :=
  { d with timerRunning := false }

/-- The member `SmartDevice::startTimer(seconds)` up to its return (the countdown
itself runs in the started thread). Assigning the new thread to a `timerThread`
that is still joinable calls `std::terminate`: the result is then `none`. -/
def SmartDevice.startTimer (d : SmartDevice) (seconds : Int) : Option SmartDevice :=
  if !d.isOn then some d
  else if d.timerThread then none
  else some { d with timer := seconds, timerRunning := true, timerThread := true }

/-- The member `SmartDevice::editName`: the new name is the next line of `cin`
(the local `newName` starts empty). -/
def SmartDevice.editName (d : SmartDevice) (cin : IStream) : SmartDevice × IStream :=
  let r := getline cin [] '\n'
  ({ d with name := r.2 }, r.1)

/-- What a call of `handleMenuChoice` leaves behind: the device, the input
stream `cin`, and the name passed to `SmartHome::getInstance().removeDevice`
when that call is made. -/
structure MenuResult (α : Type) where
  device : α
  cin : IStream
  removeRequest : Option Text
deriving DecidableEq, Repr

/-- The class `SmartLight`. -/
structure SmartLight extends SmartDevice where
  brightness : Int
deriving DecidableEq, Repr

/-- The class `SmartSpeaker`. -/
structure SmartSpeaker extends SmartDevice where
  volume : Int
  isPlaying : Bool
deriving DecidableEq, Repr

/-- The class `SmartPlug`. -/
structure SmartPlug extends SmartDevice where
  sleepTimer : Int
  historicUsage : List PowerReading
  schedules : List Schedule
  totalEnergy : ℚ
  lastUpdateTime : Int
deriving DecidableEq, Repr

/-- The class `Thermostat`. -/
structure Thermostat extends SmartDevice where
  schedules : List Schedule
deriving DecidableEq, Repr

/-- The class `RadiatorValve`. -/
structure RadiatorValve extends SmartDevice where
  schedules : List Schedule
deriving DecidableEq, Repr

/-- The class `TempHumiditySensor`. -/
structure TempHumiditySensor extends SmartDevice where
  historicData : List Reading
  historicUsage : List PowerReading
  totalEnergy : ℚ
  lastUpdateTime : Int
deriving DecidableEq, Repr

/-! ## Schedules in the file -/

/-- Values of the locals `hour`, `minute`, `state` of `loadScheduleFromFile`,
which live across the rounds of its loop. -/
structure SchedLocals where
  hour : Int
  minute : Int
  state : Text
deriving DecidableEq, Repr

/-- Body of the loop of `loadScheduleFromFile` for one line whose first field
equals the device name; `ss` is the line's stream after that field. -/
def readSchedule (ss : IStream) (v : SchedLocals) : SchedLocals :=
  let r1 := extractInt ss v.hour
  let s1 := r1.1.ignore
  let r2 := extractInt s1 v.minute
  let s2 := r2.1.ignore
  let r3 := getline s2 v.state '\n'
  ⟨r1.2, r2.2, r3.2⟩

/-- The loop of `loadScheduleFromFile` over the lines of the file. The stream
`ss` of a line is new and good, so `getline(ss, deviceName, '|')` always replaces
`deviceName`; the locals `hour`, `minute` and `state` keep their values from one
round to the next. -/
def scheduleLoop (name : Text) : List Text → SchedLocals → List Schedule → List Schedule
  | [], _, schedules => schedules
  | line :: rest, v, schedules =>
    let r := getline (IStream.ofText line) [] '|'
    if r.2 = name then
      let v1 := readSchedule r.1 v
      scheduleLoop name rest v1 (schedules ++ [⟨v1.hour, v1.minute, v1.state⟩])
    else
      scheduleLoop name rest v schedules

/-- The member `loadScheduleFromFile` (the same code in `SmartPlug`, `Thermostat`
and `RadiatorValve`): the schedule list rebuilt from the lines of the file whose
first field equals `name`. The locals `hour` and `minute` are not initialised in
the source; `hour0` and `minute0` stand for what they hold on entry. -/
def loadScheduleFromFile (file : Text) (name : Text) (hour0 minute0 : Int) : List Schedule :=
  scheduleLoop name (fileLines file) ⟨hour0, minute0, []⟩ []

/-- One line written by `saveScheduleToFile`, with its line end. -/
def scheduleLine (name : Text) (s : Schedule) : Text :=
  name ++ '|' :: showInt s.hour ++ '|' :: showInt s.minute ++ '|' :: s.state ++ ['\n']

/-- The member `saveScheduleToFile` (the same code in the three classes): the
file after the schedule list was appended to it. -/
def saveScheduleToFile (file : Text) (name : Text) (schedules : List Schedule) : Text :=
  file ++ (schedules.map (scheduleLine name)).flatten

/-! ## SmartLight -/

/-- The constructor `SmartLight::SmartLight(name)`. -/
def SmartLight.new (name : Text) : SmartLight :=
  { SmartDevice.new name with brightness := 100 }

/-- The member `SmartLight::oneClickAction`. -/
def SmartLight.oneClickAction (d : SmartLight) : SmartLight :=
  let d1 : SmartLight := { d with isOn := !d.isOn }
  if !d1.isOn then { d1 with toSmartDevice := d1.toSmartDevice.stopTimer } else d1

/-- The member `SmartLight::serialize`. -/
def SmartLight.serialize (d : SmartLight) : Text :=
  "LIGHT|".toList ++ d.name ++ '|' :: showBool d.isOn ++ '|' :: showInt d.brightness

/-- The member `SmartLight::deserialize`; `tmp` is the local of that name. -/
def SmartLight.deserialize (d : SmartLight) (data : Text) : Except Exn SmartLight :=
  let ss := IStream.ofText data
  let r1 := getline ss [] '|'
  let r2 := getline r1.1 d.name '|'
  let r3 := getline r2.1 r1.2 '|'
  let r4 := getline r3.1 r3.2 '|'
  match stoi r4.2 with
  | .error e => .error e
  | .ok b => .ok { d with name := r2.2, isOn := decide (r3.2 = ['1']), brightness := b }

/-- The member `SmartLight::handleMenuChoice(choice)`, reading from `cin`.
`uninit` is what the locals `seconds` and `confirmChoice`, declared without an
initial value, hold before the extraction. `none`: `std::terminate` was called. -/
def SmartLight.handleMenuChoice (d : SmartLight) (choice : Int) (cin : IStream) (uninit : Int) :
    Option (MenuResult SmartLight) :=
  if choice = 1 then some ⟨d.oneClickAction, cin, none⟩
  else if choice = 2 then
    let r := extractInt cin d.brightness
    some ⟨{ d with brightness := max 0 (min 100 r.2) }, r.1, none⟩
  else if choice = 3 then
    if !d.isOn then some ⟨d, cin, none⟩
    else
      let r := extractInt cin uninit
      match d.toSmartDevice.startTimer r.2 with
      | none => none
      | some b => some ⟨{ d with toSmartDevice := b }, r.1, none⟩
  else if choice = 5 then
    let r := d.toSmartDevice.editName cin
    some ⟨{ d with toSmartDevice := r.1 }, r.2, none⟩
  else if choice = 6 then
    let r := extractInt cin uninit
    if r.2 = 1 then some ⟨d, r.1, some d.name⟩ else some ⟨d, r.1, none⟩
  else some ⟨d, cin, none⟩

/-! ## SmartSpeaker -/

/-- The constructor `SmartSpeaker::SmartSpeaker(name)`. -/
def SmartSpeaker.new (name : Text) : SmartSpeaker :=
  { SmartDevice.new name with volume := 50, isPlaying := false }

/-- The member `SmartSpeaker::oneClickAction`. -/
def SmartSpeaker.oneClickAction (d : SmartSpeaker) : SmartSpeaker :=
  { d with isPlaying := !d.isPlaying }

/-- The member `SmartSpeaker::serialize`. -/
def SmartSpeaker.serialize (d : SmartSpeaker) : Text :=
  "SPEAKER|".toList ++ d.name ++ '|' :: showBool d.isOn ++ '|' :: showInt d.volume
    ++ '|' :: showBool d.isPlaying

/-- The member `SmartSpeaker::deserialize`. -/
def SmartSpeaker.deserialize (d : SmartSpeaker) (data : Text) : Except Exn SmartSpeaker :=
  let ss := IStream.ofText data
  let r1 := getline ss [] '|'
  let r2 := getline r1.1 d.name '|'
  let r3 := getline r2.1 r1.2 '|'
  let r4 := getline r3.1 r3.2 '|'
  match stoi r4.2 with
  | .error e => .error e
  | .ok v =>
    let r5 := getline r4.1 r4.2 '|'
    .ok { d with name := r2.2, isOn := decide (r3.2 = ['1']), volume := v,
                 isPlaying := decide (r5.2 = ['1']) }

/-- The member `SmartSpeaker::handleMenuChoice(choice)`, reading from `cin`.
`uninit` is what the local `confirmChoice` holds before the extraction. -/
def SmartSpeaker.handleMenuChoice (d : SmartSpeaker) (choice : Int) (cin : IStream)
    (uninit : Int) : Option (MenuResult SmartSpeaker) :=
  if choice = 1 then some ⟨d.oneClickAction, cin, none⟩
  else if choice = 2 then
    let r := extractInt cin d.volume
    some ⟨{ d with volume := max 0 (min 100 r.2) }, r.1, none⟩
  else if choice = 3 then
    let r := extractInt cin uninit
    if r.2 = 1 then some ⟨d, r.1, some d.name⟩ else some ⟨d, r.1, none⟩
  else if choice = 5 then
    let r := d.toSmartDevice.editName cin
    some ⟨{ d with toSmartDevice := r.1 }, r.2, none⟩
  else some ⟨d, cin, none⟩

/-! ## SmartPlug -/

/-- The constructor `SmartPlug::SmartPlug(name)`: it reads the clock and loads
the schedule list from the file. -/
def SmartPlug.new (file : Text) (now hour0 minute0 : Int) (name : Text) : SmartPlug :=
  { SmartDevice.new name with
    sleepTimer := 0, historicUsage := [],
    schedules := loadScheduleFromFile file name hour0 minute0,
    totalEnergy := 0, lastUpdateTime := now }

/-- The member `SmartPlug::updateHistoricData`, the clock reading `now`. The
local `energyUsed` and the member `totalEnergy` are of type `float`: the product
`0.5 * secondsElapsed` (a `double`, exact for less than `2 ^ 53` seconds) is
rounded when it is stored in `energyUsed`, and the sum `totalEnergy + energyUsed`
is rounded. -/
def SmartPlug.updateHistoricData (d : SmartPlug) (now : Int) : SmartPlug :=
  let secondsElapsed : ℚ := ((now - d.lastUpdateTime : Int) : ℚ)
  if d.isOn ∧ secondsElapsed > 0 then
    let energyUsed : ℚ := roundFloat ((1 / 2) * secondsElapsed)
    { d with totalEnergy := roundFloat (d.totalEnergy + energyUsed),
             historicUsage := d.historicUsage ++ [⟨energyUsed, now⟩],
             lastUpdateTime := now }
  else d

/-- The member `SmartPlug::oneClickAction`, the clock reading `now`. -/
def SmartPlug.oneClickAction (d : SmartPlug) (now : Int) : SmartPlug :=
  let d1 : SmartPlug := { d with isOn := !d.isOn }
  if !d1.isOn then
    let d2 : SmartPlug := { d1 with toSmartDevice := d1.toSmartDevice.stopTimer }
    d2.updateHistoricData now
  else
    { d1 with lastUpdateTime := now }

/-- The member `SmartPlug::serialize`. -/
def SmartPlug.serialize (ft : FloatText) (d : SmartPlug) : Text :=
  "PLUG|".toList ++ d.name ++ '|' :: showBool d.isOn ++ '|' :: ft.put d.totalEnergy

/-- The member `SmartPlug::deserialize`. -/
def SmartPlug.deserialize (ft : FloatText) (d : SmartPlug) (data : Text) : Except Exn SmartPlug :=
  let ss := IStream.ofText data
  let r1 := getline ss [] '|'
  let r2 := getline r1.1 d.name '|'
  let r3 := getline r2.1 r1.2 '|'
  let r4 := getline r3.1 r3.2 '|'
  match ft.stof r4.2 with
  | .error e => .error e
  | .ok x => .ok { d with name := r2.2, isOn := decide (r3.2 = ['1']), totalEnergy := x }

/-! ## TempHumiditySensor -/

/-- The constructor `TempHumiditySensor::TempHumiditySensor(name)`. -/
def TempHumiditySensor.new (now : Int) (name : Text) : TempHumiditySensor :=
  { SmartDevice.new name with
    historicData := [], historicUsage := [], totalEnergy := 0, lastUpdateTime := now }

/-- The member `TempHumiditySensor::updateEnergyUsage`, the clock reading `now`.
The local `energyUsed` and the member `totalEnergy` are of type `float`: the
product and the sum are rounded as in `SmartPlug::updateHistoricData`. -/
def TempHumiditySensor.updateEnergyUsage (d : TempHumiditySensor) (now : Int) :
    TempHumiditySensor :=
  let secondsElapsed : ℚ := ((now - d.lastUpdateTime : Int) : ℚ)
  if d.isOn ∧ secondsElapsed ≥ 1 then
    let energyUsed : ℚ := roundFloat ((1 / 2) * secondsElapsed)
    { d with totalEnergy := roundFloat (d.totalEnergy + energyUsed),
             historicUsage := d.historicUsage ++ [⟨energyUsed, now⟩],
             lastUpdateTime := now }
  else d

/-- The member `TempHumiditySensor::oneClickAction`, the clock reading `now`. -/
def TempHumiditySensor.oneClickAction (d : TempHumiditySensor) (now : Int) :
    TempHumiditySensor :=
  let d1 : TempHumiditySensor := { d with isOn := !d.isOn }
  if !d1.isOn then d1.updateEnergyUsage now
  else { d1 with lastUpdateTime := now }

/-- The member `TempHumiditySensor::serialize`. -/
def TempHumiditySensor.serialize (ft : FloatText) (d : TempHumiditySensor) : Text :=
  "TEMPHUMIDITY|".toList ++ d.name ++ '|' :: showBool d.isOn ++ '|' :: ft.put d.totalEnergy

/-- The member `TempHumiditySensor::deserialize`. -/
def TempHumiditySensor.deserialize (ft : FloatText) (d : TempHumiditySensor) (data : Text) :
    Except Exn TempHumiditySensor :=
  let ss := IStream.ofText data
  let r1 := getline ss [] '|'
  let r2 := getline r1.1 d.name '|'
  let r3 := getline r2.1 r1.2 '|'
  let r4 := getline r3.1 r3.2 '|'
  match ft.stof r4.2 with
  | .error e => .error e
  | .ok x => .ok { d with name := r2.2, isOn := decide (r3.2 = ['1']), totalEnergy := x }

/-! ## Thermostat and RadiatorValve -/

/-- The constructor `Thermostat::Thermostat(name)`: loads the schedule list. -/
def Thermostat.new (file : Text) (hour0 minute0 : Int) (name : Text) : Thermostat :=
  { SmartDevice.new name with schedules := loadScheduleFromFile file name hour0 minute0 }

/-- The member `Thermostat::oneClickAction`. -/
def Thermostat.oneClickAction (d : Thermostat) : Thermostat :=
  { d with isOn := !d.isOn }

/-- The member `Thermostat::serialize`. -/
def Thermostat.serialize (d : Thermostat) : Text :=
  "THERMOSTAT|".toList ++ d.name ++ '|' :: showBool d.isOn

/-- The member `Thermostat::deserialize`. -/
def Thermostat.deserialize (d : Thermostat) (data : Text) : Except Exn Thermostat :=
  let ss := IStream.ofText data
  let r1 := getline ss [] '|'
  let r2 := getline r1.1 d.name '|'
  let r3 := getline r2.1 r1.2 '|'
  .ok { d with name := r2.2, isOn := decide (r3.2 = ['1']) }

/-- The constructor `RadiatorValve::RadiatorValve(name)`: loads the schedule list. -/
def RadiatorValve.new (file : Text) (hour0 minute0 : Int) (name : Text) : RadiatorValve :=
  { SmartDevice.new name with schedules := loadScheduleFromFile file name hour0 minute0 }

/-- The member `RadiatorValve::oneClickAction`. -/
def RadiatorValve.oneClickAction (d : RadiatorValve) : RadiatorValve :=
  { d with isOn := !d.isOn }

/-- The member `RadiatorValve::serialize`. -/
def RadiatorValve.serialize (d : RadiatorValve) : Text :=
  "RADIATOR|".toList ++ d.name ++ '|' :: showBool d.isOn

/-- The member `RadiatorValve::deserialize`. -/
def RadiatorValve.deserialize (d : RadiatorValve) (data : Text) : Except Exn RadiatorValve :=
  let ss := IStream.ofText data
  let r1 := getline ss [] '|'
  let r2 := getline r1.1 d.name '|'
  let r3 := getline r2.1 r1.2 '|'
  .ok { d with name := r2.2, isOn := decide (r3.2 = ['1']) }

/-! ## The registry -/

/-- An element of `SmartHome::devices`: a device of one of the six classes. -/
inductive Device where
  | light (d : SmartLight)
  | sensor (d : TempHumiditySensor)
  | speaker (d : SmartSpeaker)
  | thermostat (d : Thermostat)
  | plug (d : SmartPlug)
  | radiator (d : RadiatorValve)
deriving DecidableEq, Repr

/-- The base-class part of a device. -/
def Device.base : Device → SmartDevice
  | .light d => d.toSmartDevice
  | .sensor d => d.toSmartDevice
  | .speaker d => d.toSmartDevice
  | .thermostat d => d.toSmartDevice
  | .plug d => d.toSmartDevice
  | .radiator d => d.toSmartDevice

/-- The member `SmartDevice::getName`. -/
def Device.getName (d : Device) : Text := d.base.name

/-- The member `SmartDevice::getIsOn`. -/
def Device.getIsOn (d : Device) : Bool := d.base.isOn

/-- The virtual member `getDeviceType`. -/
def Device.getDeviceType : Device → Text
  | .light _ => "Smart Light".toList
  | .sensor _ => "TempHumidity Sensor".toList
  | .speaker _ => "Speaker".toList
  | .thermostat _ => "Thermostat".toList
  | .plug _ => "Smart Plug".toList
  | .radiator _ => "Radiator Valve".toList

/-- The virtual member `serialize`. -/
def Device.serialize (ft : FloatText) : Device → Text
  | .light d => d.serialize
  | .sensor d => d.serialize ft
  | .speaker d => d.serialize
  | .thermostat d => d.serialize
  | .plug d => d.serialize ft
  | .radiator d => d.serialize

/-- The virtual member `deserialize`. -/
def Device.deserialize (ft : FloatText) (dev : Device) (data : Text) : Except Exn Device :=
  match dev with
  | .light d => (d.deserialize data).map Device.light
  | .sensor d => (d.deserialize ft data).map Device.sensor
  | .speaker d => (d.deserialize data).map Device.speaker
  | .thermostat d => (d.deserialize data).map Device.thermostat
  | .plug d => (d.deserialize ft data).map Device.plug
  | .radiator d => (d.deserialize data).map Device.radiator

/-- The local `type` of `loadDevices`: the first field of the line. -/
def recordType (line : Text) : Text := (getline (IStream.ofText line) [] '|').2

/-- The device that `loadDevices` creates for the first field `type` of a line:
an object of the class selected by the tag, constructed with the empty name, or
no object for any other text. -/
def makeDevice (file : Text) (now hour0 minute0 : Int) (type : Text) : Option Device :=
  if type = "LIGHT".toList then some (.light (SmartLight.new []))
  else if type = "TEMP_HUMIDITY".toList then some (.sensor (TempHumiditySensor.new now []))
  else if type = "SPEAKER".toList then some (.speaker (SmartSpeaker.new []))
  else if type = "THERMOSTAT".toList then some (.thermostat (Thermostat.new file hour0 minute0 []))
  else if type = "PLUG".toList then some (.plug (SmartPlug.new file now hour0 minute0 []))
  else if type = "RADIATOR".toList then some (.radiator (RadiatorValve.new file hour0 minute0 []))
  else none

/-- The loop of `SmartHome::loadDevices` over the lines of the file, appending
to `devices`. An exception thrown by `deserialize` leaves the loop. -/
def loadLoop (ft : FloatText) (file : Text) (now hour0 minute0 : Int) :
    List Text → List Device → Except Exn (List Device)
  | [], devices => .ok devices
  | line :: rest, devices =>
    match makeDevice file now hour0 minute0 (recordType line) with
    | none => loadLoop ft file now hour0 minute0 rest devices
    | some device =>
      match device.deserialize ft line with
      | .error e => .error e
      | .ok d => loadLoop ft file now hour0 minute0 rest (devices ++ [d])

/-- The member `SmartHome::loadDevices` on the file `smart_home.txt` holding
`file`: the registry afterwards, or the exception that left the function. The
constructors called by it read the same file and the clock. -/
def loadDevices (ft : FloatText) (file : Text) (now hour0 minute0 : Int)
    (devices : List Device) : Except Exn (List Device) :=
  loadLoop ft file now hour0 minute0 (fileLines file) devices

/-- The member `SmartHome::saveDevices`: the text of the file it writes. -/
def saveDevices (ft : FloatText) (devices : List Device) : Text :=
  (devices.map (fun d => d.serialize ft ++ ['\n'])).flatten

/-! ## Properties of devices used in the statements -/

/-- The two devices are objects of the same class. -/
def Device.sameKind : Device → Device → Bool
  | .light _, .light _ => true
  | .sensor _, .sensor _ => true
  | .speaker _, .speaker _ => true
  | .thermostat _, .thermostat _ => true
  | .plug _, .plug _ => true
  | .radiator _, .radiator _ => true
  | _, _ => false

/-- The two devices are of the same class and agree on every field that
`serialize` writes: `name`, `isOn` and `brightness` (light), `volume` and
`isPlaying` (speaker), `totalEnergy` (plug, sensor). -/
def Device.persistedEq : Device → Device → Prop
  | .light a, .light b => a.name = b.name ∧ a.isOn = b.isOn ∧ a.brightness = b.brightness
  | .sensor a, .sensor b => a.name = b.name ∧ a.isOn = b.isOn ∧ a.totalEnergy = b.totalEnergy
  | .speaker a, .speaker b =>
    a.name = b.name ∧ a.isOn = b.isOn ∧ a.volume = b.volume ∧ a.isPlaying = b.isPlaying
  | .thermostat a, .thermostat b => a.name = b.name ∧ a.isOn = b.isOn
  | .plug a, .plug b => a.name = b.name ∧ a.isOn = b.isOn ∧ a.totalEnergy = b.totalEnergy
  | .radiator a, .radiator b => a.name = b.name ∧ a.isOn = b.isOn
  | _, _ => False

/-- The members declared `int` that `serialize` writes (`brightness`, `volume`)
hold values of type `int`. -/
def Device.intsInRange : Device → Prop
  | .light d => INT_MIN ≤ d.brightness ∧ d.brightness ≤ INT_MAX
  | .speaker d => INT_MIN ≤ d.volume ∧ d.volume ≤ INT_MAX
  | _ => True

/-- The text written for `x` has no `|` and `stof` reads it back as `x`. -/
def FloatText.readsBack (ft : FloatText) (x : ℚ) : Prop :=
  '|' ∉ ft.put x ∧ ft.stof (ft.put x) = .ok x

/-- The `totalEnergy` of a plug or sensor is a value that its text reads back to. -/
def Device.energyReadsBack (ft : FloatText) : Device → Prop
  | .sensor d => ft.readsBack d.totalEnergy
  | .plug d => ft.readsBack d.totalEnergy
  | _ => True

/-- The tags for which `loadDevices` creates a device. -/
def knownTags : List Text :=
  ["LIGHT".toList, "TEMP_HUMIDITY".toList, "SPEAKER".toList, "THERMOSTAT".toList,
   "PLUG".toList, "RADIATOR".toList]

/-- A text that is empty or ends with a line end. -/
def Terminated (t : Text) : Prop := t = [] ∨ t.getLast? = some '\n'

/-! ## Sequences of energy recomputations -/

/-- States of a light reached from construction by toggles, menu choices (any
choice, any input) and `deserialize` of records whose brightness field converts
to a value in [0, 100]. -/
inductive SmartLight.Reachable : SmartLight → Prop where
  | new (name : Text) : SmartLight.Reachable (SmartLight.new name)
  | toggle {d : SmartLight} : SmartLight.Reachable d → SmartLight.Reachable d.oneClickAction
  | menu {d : SmartLight} (choice : Int) (cin : IStream) (uninit : Int)
      {r : MenuResult SmartLight} : SmartLight.Reachable d →
      d.handleMenuChoice choice cin uninit = some r → SmartLight.Reachable r.device
  | load {d d' : SmartLight} (data : Text) : SmartLight.Reachable d →
      d.deserialize data = .ok d' → 0 ≤ d'.brightness → d'.brightness ≤ 100 →
      SmartLight.Reachable d'

/-- States of a speaker reached from construction by play/stop toggles, menu
choices (any choice, any input) and `deserialize` of records whose volume field
converts to a value in [0, 100]. -/
inductive SmartSpeaker.Reachable : SmartSpeaker → Prop where
  | new (name : Text) : SmartSpeaker.Reachable (SmartSpeaker.new name)
  | toggle {d : SmartSpeaker} : SmartSpeaker.Reachable d →
      SmartSpeaker.Reachable d.oneClickAction
  | menu {d : SmartSpeaker} (choice : Int) (cin : IStream) (uninit : Int)
      {r : MenuResult SmartSpeaker} : SmartSpeaker.Reachable d →
      d.handleMenuChoice choice cin uninit = some r → SmartSpeaker.Reachable r.device
  | load {d d' : SmartSpeaker} (data : Text) : SmartSpeaker.Reachable d →
      d.deserialize data = .ok d' → 0 ≤ d'.volume → d'.volume ≤ 100 →
      SmartSpeaker.Reachable d'

/-- The device is a `TempHumiditySensor`. -/
def Device.isSensor : Device → Bool
  | .sensor _ => true
  | _ => false

/-- The two devices are of the same class and agree on `name`, `isOn` and the
integer and boolean extra fields (`brightness`, `volume`, `isPlaying`). -/
def Device.restoredEq : Device → Device → Prop
  | .light a, .light b => a.name = b.name ∧ a.isOn = b.isOn ∧ a.brightness = b.brightness
  | .sensor a, .sensor b => a.name = b.name ∧ a.isOn = b.isOn
  | .speaker a, .speaker b =>
    a.name = b.name ∧ a.isOn = b.isOn ∧ a.volume = b.volume ∧ a.isPlaying = b.isPlaying
  | .thermostat a, .thermostat b => a.name = b.name ∧ a.isOn = b.isOn
  | .plug a, .plug b => a.name = b.name ∧ a.isOn = b.isOn
  | .radiator a, .radiator b => a.name = b.name ∧ a.isOn = b.isOn
  | _, _ => False

/-- The text written for `x` has no `|` and no line end, and `stof` converts it
(to some value). -/
def FloatText.parses (ft : FloatText) (x : ℚ) : Prop :=
  '|' ∉ ft.put x ∧ '\n' ∉ ft.put x ∧ ∃ y, ft.stof (ft.put x) = .ok y

/-- A device that `saveDevices` writes as one line which `loadDevices` reads
back: no `|` and no line end in the name, `int` members in range, and for a plug
an energy whose text `stof` converts. -/
def Device.storable (ft : FloatText) (d : Device) : Prop :=
  '|' ∉ d.getName ∧ '\n' ∉ d.getName ∧ d.intsInRange ∧
  match d with
  | .plug p => ft.parses p.totalEnergy
  | _ => True

/-- The schedule list of a device of a class that has one. -/
def Device.schedules : Device → Option (List Schedule)
  | .thermostat d => some d.schedules
  | .plug d => some d.schedules
  | .radiator d => some d.schedules
  | _ => none

/-! ## Sample devices and files -/

/-- A light named `a|b`, on, brightness 100. -/
def pipeLamp : Device := .light ⟨⟨"a|b".toList, true, 0, false, false⟩, 100⟩

/-- A plug whose energy `1000000.5` has seven significant digits. -/
def meteredPlug : Device :=
  .plug ⟨⟨"Boiler".toList, true, 0, false, false⟩, 0, [], [], mkRat 2000001 2, 0⟩

/-- The light of the scenario: "Lamp", on, brightness 80. -/
def lamp : Device := .light ⟨⟨"Lamp".toList, true, 0, false, false⟩, 80⟩

/-- The plug of the scenario: "Fridge", off, energy 12.5. -/
def fridge : Device :=
  .plug ⟨⟨"Fridge".toList, false, 0, false, false⟩, 0, [], [], mkRat 25 2, 0⟩

/-- A sensor "Hall", off, no energy used. -/
def hallSensor : Device :=
  .sensor ⟨⟨"Hall".toList, false, 0, false, false⟩, [], [], 0, 0⟩

/-- A file with a thermostat "Hall" and one schedule record for it. -/
def hallFile : Text := "THERMOSTAT|Hall|1\nHall|7|30|ON\n".toList

/-- A plug "Kettle" that is on, last accounted at time 0, with no energy yet. -/
def kettle : SmartPlug := ⟨⟨"Kettle".toList, true, 0, false, false⟩, 0, [], [], 0, 0⟩

/-- A sensor "Attic" that is on, last accounted at time 0, with no energy yet. -/
def attic : TempHumiditySensor := ⟨⟨"Attic".toList, true, 0, false, false⟩, [], [], 0, 0⟩

/-- What a schedule operation leaves behind: the device (or its schedule list),
the input stream `cin` and the text of the file `smart_home.txt`. -/
structure ScheduleResult (α : Type) where
  device : α
  cin : IStream
  file : Text
deriving DecidableEq, Repr

/-- The value of `static_cast<int>(n)` for a container size `n` (reduction
modulo `2 ^ 32` into the range of `int`). -/
def castInt (n : Nat) : Int := ((n : Int) + 2147483648) % 4294967296 - 2147483648

/-- The body of `manageSchedule` (the same code in `SmartPlug`, `Thermostat` and
`RadiatorValve`, up to the messages) on the members `name` and `schedules`:
`choice`, `hour` and `minute` are read from `cin`; `choice0`, `hour0` and
`minute0` stand for what these locals, declared without an initial value, hold
before the extraction. -/
def manageScheduleBody (name : Text) (schedules : List Schedule) (cin : IStream) (file : Text)
    (choice0 hour0 minute0 : Int) : ScheduleResult (List Schedule) :=
  let r0 := extractInt cin choice0
  if r0.2 = 1 ∨ r0.2 = 2 then
    let r1 := extractInt r0.1 hour0
    let r2 := extractInt r1.1 minute0
    if r1.2 ≥ 0 ∧ r1.2 < 24 ∧ r2.2 ≥ 0 ∧ r2.2 < 60 then
      let schedules1 := schedules ++
        [⟨r1.2, r2.2, if r0.2 = 1 then "ON".toList else "OFF".toList⟩]
      ⟨schedules1, r2.1, saveScheduleToFile file name schedules1⟩
    else ⟨schedules, r2.1, file⟩
  else ⟨schedules, r0.1, file⟩

/-- The member `SmartPlug::manageSchedule`. -/
def SmartPlug.manageSchedule (d : SmartPlug) (cin : IStream) (file : Text)
    (choice0 hour0 minute0 : Int) : ScheduleResult SmartPlug :=
  let r := manageScheduleBody d.name d.schedules cin file choice0 hour0 minute0
  ⟨{ d with schedules := r.device }, r.cin, r.file⟩

/-- The member `Thermostat::manageSchedule`. -/
def Thermostat.manageSchedule (d : Thermostat) (cin : IStream) (file : Text)
    (choice0 hour0 minute0 : Int) : ScheduleResult Thermostat :=
  let r := manageScheduleBody d.name d.schedules cin file choice0 hour0 minute0
  ⟨{ d with schedules := r.device }, r.cin, r.file⟩

/-- The member `RadiatorValve::manageSchedule`. -/
def RadiatorValve.manageSchedule (d : RadiatorValve) (cin : IStream) (file : Text)
    (choice0 hour0 minute0 : Int) : ScheduleResult RadiatorValve :=
  let r := manageScheduleBody d.name d.schedules cin file choice0 hour0 minute0
  ⟨{ d with schedules := r.device }, r.cin, r.file⟩

/-- The member `SmartPlug::deleteSchedule` on the members `name` and
`schedules`: the index is read from `cin` also when the list is empty; `index0`
stands for what the local `index` holds before the extraction. -/
def plugDeleteScheduleBody (name : Text) (schedules : List Schedule) (cin : IStream) (file : Text)
    (index0 : Int) : ScheduleResult (List Schedule) :=
  let r := extractInt cin index0
  if r.2 > 0 ∧ r.2 ≤ castInt schedules.length then
    let schedules1 := schedules.eraseIdx (r.2 - 1).toNat
    ⟨schedules1, r.1, saveScheduleToFile file name schedules1⟩
  else ⟨schedules, r.1, file⟩

/-- The body of `deleteSchedule` of `Thermostat` and `RadiatorValve` (the same
code) on the members `name` and `schedules`: with an empty list it returns
before anything is read. -/
def deleteScheduleBody (name : Text) (schedules : List Schedule) (cin : IStream) (file : Text)
    (index0 : Int) : ScheduleResult (List Schedule) :=
  if schedules.isEmpty then ⟨schedules, cin, file⟩
  else
    let r := extractInt cin index0
    if r.2 ≥ 1 ∧ r.2 ≤ castInt schedules.length then
      let schedules1 := schedules.eraseIdx (r.2 - 1).toNat
      ⟨schedules1, r.1, saveScheduleToFile file name schedules1⟩
    else ⟨schedules, r.1, file⟩

/-- The member `SmartPlug::deleteSchedule`. -/
def SmartPlug.deleteSchedule (d : SmartPlug) (cin : IStream) (file : Text) (index0 : Int) :
    ScheduleResult SmartPlug :=
  let r := plugDeleteScheduleBody d.name d.schedules cin file index0
  ⟨{ d with schedules := r.device }, r.cin, r.file⟩

/-- The member `Thermostat::deleteSchedule`. -/
def Thermostat.deleteSchedule (d : Thermostat) (cin : IStream) (file : Text) (index0 : Int) :
    ScheduleResult Thermostat :=
  let r := deleteScheduleBody d.name d.schedules cin file index0
  ⟨{ d with schedules := r.device }, r.cin, r.file⟩

/-- The member `RadiatorValve::deleteSchedule`. -/
def RadiatorValve.deleteSchedule (d : RadiatorValve) (cin : IStream) (file : Text)
    (index0 : Int) : ScheduleResult RadiatorValve :=
  let r := deleteScheduleBody d.name d.schedules cin file index0
  ⟨{ d with schedules := r.device }, r.cin, r.file⟩

/-- The text typed for `manageSchedule`: the choice (1 for ON, 2 for OFF), the
hour and the minute as decimal numbers, separated by white space. -/
def scheduleInput (stOn : Bool) (hour minute : Int) (ws0 ws1 ws2 rest : Text) : IStream :=
  ⟨ws0 ++ (showInt (if stOn then 1 else 2) ++ (ws1 ++ (showInt hour ++ (ws2 ++
    (showInt minute ++ rest))))), false, false⟩

/-- The state text of a schedule entry added with choice 1 (`ON`) or 2 (`OFF`). -/
def stateText (stOn : Bool) : Text := if stOn then "ON".toList else "OFF".toList

/-- A time of day accepted by `manageSchedule`. -/
def ValidTime (hour minute : Int) : Prop := 0 ≤ hour ∧ hour ≤ 23 ∧ 0 ≤ minute ∧ minute ≤ 59

instance (hour minute : Int) : Decidable (ValidTime hour minute) :=
  inferInstanceAs (Decidable (0 ≤ hour ∧ hour ≤ 23 ∧ 0 ≤ minute ∧ minute ≤ 59))

/-- A thermostat "Hall" without schedule entries. -/
def hall : Thermostat := ⟨⟨"Hall".toList, false, 0, false, false⟩, []⟩

/-- A thermostat "Hall" with three schedule entries. -/
def hallThree : Thermostat :=
  ⟨⟨"Hall".toList, false, 0, false, false⟩,
   [⟨6, 0, "ON".toList⟩, ⟨8, 30, "OFF".toList⟩, ⟨17, 45, "ON".toList⟩]⟩

/-- A schedule entry whose record is read back as written: `hour` and `minute`
are values of type `int` and the state text has no line end. -/
def Schedule.storable (s : Schedule) : Prop :=
  INT_MIN ≤ s.hour ∧ s.hour ≤ INT_MAX ∧ INT_MIN ≤ s.minute ∧ s.minute ≤ INT_MAX ∧
  '\n' ∉ s.state

/-- A device name under which schedule records can be found again: no `|` and no
line end in it. -/
def PlainName (name : Text) : Prop := '|' ∉ name ∧ '\n' ∉ name

/-- The thermostat "Hall" after the input `1 7 30` to `manageSchedule`, with the
file, starting from an empty file. -/
def hallOnce : ScheduleResult Thermostat :=
  hall.manageSchedule (IStream.ofText "1 7 30\n".toList) [] 0 0 0

/-- The thermostat "Hall" after the further input `2 8 0` to `manageSchedule`. -/
def hallTwice : ScheduleResult Thermostat :=
  hallOnce.device.manageSchedule (IStream.ofText "2 8 0\n".toList) hallOnce.file 0 0 0

/-! ## Looking up, removing and ordering devices -/

/-- The C function `tolower` in the default locale: the letters `A` to `Z` are
mapped to `a` to `z`, every other character to itself. -/
def tolower (c : Char) : Char :=
  if 65 ≤ c.toNat ∧ c.toNat ≤ 90 then Char.ofNat (c.toNat + 32) else c

/-- The lower-case copy of a string made by `transform(..., ::tolower)`. -/
def lowerText (a : Text) : Text := a.map tolower

/-- The loop of `caseInsensitiveCompare` over the characters of two strings of
the same size. -/
def compareLoop : Text → Text → Bool
  | x :: xs, y :: ys => if tolower x != tolower y then false else compareLoop xs ys
  | _, _ => true

/-- The helper `caseInsensitiveCompare(a, b)` of `SmartHome.cpp`. -/
def caseInsensitiveCompare (a b : Text) : Bool :=
  if a.length ≠ b.length then false else compareLoop a b

/-- The comparison `a < b` of two `std::string`s: lexicographic, by character
code, a proper prefix being smaller. -/
def stringLt : Text → Text → Bool
  | [], [] => false
  | [], _ :: _ => true
  | _ :: _, [] => false
  | x :: xs, y :: ys =>
    if x.toNat < y.toNat then true
    else if y.toNat < x.toNat then false
    else stringLt xs ys

/-- The helper `caseInsensitiveSortCompare(a, b)` of `SmartHome.cpp`. -/
def caseInsensitiveSortCompare (a b : Text) : Bool :=
  stringLt (lowerText a) (lowerText b)

/-- The library function `std::find_if` on the registry: the position of the
first device that satisfies `p`, or `none` for the end iterator. -/
def find_if (p : Device → Bool) : List Device → Option Nat
  | [] => none
  | d :: ds => if p d then some 0 else (find_if p ds).map (fun i => i + 1)

/-- The call of `find_if` made by `handleOneClickAction`, `interactWithDevice`
and `removeDevice`: the first device whose name compares equal to `name` with
`caseInsensitiveCompare`. -/
def findDevice (devices : List Device) (name : Text) : Option Nat :=
  find_if (fun device => caseInsensitiveCompare device.getName name) devices

/-- The virtual member `oneClickAction`, the clock reading `now`. -/
def Device.oneClickAction (now : Int) : Device → Device
  | .light d => .light d.oneClickAction
  | .sensor d => .sensor (d.oneClickAction now)
  | .speaker d => .speaker d.oneClickAction
  | .thermostat d => .thermostat d.oneClickAction
  | .plug d => .plug (d.oneClickAction now)
  | .radiator d => .radiator d.oneClickAction

/-- The member `SmartHome::handleOneClickAction(name)`: the registry afterwards. -/
def handleOneClickAction (devices : List Device) (name : Text) (now : Int) : List Device :=
  match findDevice devices name with
  | some i =>
    match devices.get? i with
    | some d => devices.set i (d.oneClickAction now)
    | none => devices
  | none => devices

/-- What the destructor of a device does to the file: `~SmartPlug`, `~Thermostat`
and `~RadiatorValve` call `saveScheduleToFile`. -/
def Device.destroy (file : Text) : Device → Text
  | .plug d => saveScheduleToFile file d.name d.schedules
  | .thermostat d => saveScheduleToFile file d.name d.schedules
  | .radiator d => saveScheduleToFile file d.name d.schedules
  | _ => file

/-- The member `SmartHome::removeDevice(deviceName)`: the registry afterwards
and the file (erasing the element destroys the device). -/
def removeDevice (devices : List Device) (file : Text) (deviceName : Text) :
    List Device × Text :=
  match findDevice devices deviceName with
  | some i =>
    match devices.get? i with
    | some d => (devices.eraseIdx i, d.destroy file)
    | none => (devices, file)
  | none => (devices, file)

/-- The lookup as the specification words it: the two names have the same length
and are equal character by character after lowercasing. -/
def NameMatch (a b : Text) : Prop := a.length = b.length ∧ lowerText a = lowerText b

instance (a b : Text) : Decidable (NameMatch a b) :=
  inferInstanceAs (Decidable (a.length = b.length ∧ lowerText a = lowerText b))

/-- A comparison `comp` is a strict weak ordering, as `std::sort` requires:
irreflexive, transitive, and with a transitive incomparability relation. -/
structure StrictWeakOrder (comp : Device → Device → Bool) : Prop where
  irrefl : ∀ a, comp a a = false
  trans : ∀ a b c, comp a b = true → comp b c = true → comp a c = true
  incomp : ∀ a b c, comp a b = false → comp b a = false → comp b c = false →
    comp c b = false → comp a c = false ∧ comp c a = false

/-- The contract of the library function `std::sort(first, last, comp)`: for a
strict weak ordering `comp` the range afterwards is a permutation of the range
before and is sorted with respect to `comp`, that is, no element compares less
than one that stands before it. The algorithm itself is left open. -/
def StdSort (sort : (Device → Device → Bool) → List Device → List Device) : Prop :=
  ∀ comp, StrictWeakOrder comp → ∀ l,
    (sort comp l).Perm l ∧ (sort comp l).Pairwise (fun a b => comp b a = false)

/-- The comparison passed to `std::sort` by `sortByName`. -/
def nameCompare (a b : Device) : Bool := caseInsensitiveSortCompare a.getName b.getName

/-- The comparison passed to `std::sort` by `sortByType`. -/
def typeCompare (a b : Device) : Bool :=
  if caseInsensitiveSortCompare a.getDeviceType b.getDeviceType then true
  else if caseInsensitiveSortCompare b.getDeviceType a.getDeviceType then false
  else caseInsensitiveSortCompare a.getName b.getName

/-- The member `SmartHome::sortByName`, with the library's `std::sort`. -/
def sortByName (sort : (Device → Device → Bool) → List Device → List Device)
    (devices : List Device) : List Device :=
  sort nameCompare devices

/-- The member `SmartHome::sortByType`, with the library's `std::sort`. -/
def sortByType (sort : (Device → Device → Bool) → List Device → List Device)
    (devices : List Device) : List Device :=
  sort typeCompare devices

/-- One sorting function that meets the contract of `std::sort`: insertion
sort. It serves to run `sortByName` and `sortByType` on examples. -/
def insertionSortBy (comp : Device → Device → Bool) (l : List Device) : List Device :=
  l.insertionSort (fun a b => comp b a = false)

/-- The position of a class in the order of the lower-case display labels:
"radiator valve", "smart light", "smart plug", "speaker", "temphumidity sensor",
"thermostat". -/
def labelRank : Device → Nat
  | .radiator _ => 0
  | .light _ => 1
  | .plug _ => 2
  | .speaker _ => 3
  | .sensor _ => 4
  | .thermostat _ => 5

/-- Lexicographic `a ≤ b` on strings: `a < b` or `a = b`. -/
def stringLe (a b : Text) : Prop := stringLt a b = true ∨ a = b

/-- A speaker "Living Room", on, at volume 40. -/
def livingRoom : Device := .speaker ⟨⟨"Living Room".toList, true, 0, false, false⟩, 40, false⟩

/-- A light that is also called "living room", in lower case. -/
def livingRoomLight : Device := .light ⟨⟨"living room".toList, false, 0, false, false⟩, 100⟩

/-- A registry of four devices, the speaker "Living Room" in the second place and
a second device of that name, up to case, in the last. -/
def house : List Device := [lamp, livingRoom, fridge, livingRoomLight]

/-! ## The timer task -/

/-- A device together with the thread started by `startTimer`: `sleeping` says
that the thread function is inside its loop, in `sleep_for`. -/
structure Timed where
  dev : SmartDevice
  sleeping : Bool
deriving DecidableEq, Repr

/-- The thread function of `startTimer` from the test of its loop condition to
its next `sleep_for` or to its end: the loop is entered while
`timer > 0 && timerRunning && isOn`; otherwise the completion block runs. -/
def SmartDevice.timerTask (d : SmartDevice) : Timed :=
  if d.timer > 0 ∧ d.timerRunning = true ∧ d.isOn = true then ⟨d, true⟩
  else if d.timer = 0 ∧ d.timerRunning = true ∧ d.isOn = true then
    ⟨{ d with isOn := false, timerRunning := false }, false⟩
  else if !d.isOn then ⟨{ d with timerRunning := false }, false⟩
  else ⟨d, false⟩

/-- One tick of the timer: the sleeping thread wakes up, decrements `timer` and
runs on to its next sleep or to its end. Without a sleeping thread a tick does
nothing. -/
def Timed.tick (s : Timed) : Timed :=
  if s.sleeping then SmartDevice.timerTask { s.dev with timer := s.dev.timer - 1 } else s

/-- The member `startTimer(seconds)` in the tick model: the call itself and, when
it starts a thread, the thread run up to its first sleep or to its end. `none`:
`std::terminate` was called. -/
def Timed.startTimer (s : Timed) (seconds : Int) : Option Timed :=
  match s.dev.startTimer seconds with
  | none => none
  | some d => if s.dev.isOn then some d.timerTask else some ⟨d, s.sleeping⟩

/-- States of a device and its timer thread reached from construction by
changes of name and on/off state (toggles, `editName`, `deserialize`),
`stopTimer`, ticks of the timer, and calls of `startTimer` with durations that
are not negative. -/
inductive Timed.Reachable : Timed → Prop where
  | new (name : Text) : Timed.Reachable ⟨SmartDevice.new name, false⟩
  | set {s : Timed} (name : Text) (isOn : Bool) : Timed.Reachable s →
      Timed.Reachable ⟨{ s.dev with name := name, isOn := isOn }, s.sleeping⟩
  | stop {s : Timed} : Timed.Reachable s → Timed.Reachable ⟨s.dev.stopTimer, s.sleeping⟩
  | start {s s' : Timed} (seconds : Int) : Timed.Reachable s → 0 ≤ seconds →
      s.startTimer seconds = some s' → Timed.Reachable s'
  | tick {s : Timed} : Timed.Reachable s → Timed.Reachable s.tick

/-- A light "Lamp" that was constructed and switched on. -/
def lampOn : SmartLight := (SmartLight.new "Lamp".toList).oneClickAction

/-! ## Foreground operations and the timer task -/

/-- What `oneClickAction` of `SmartLight` and of `SmartPlug`, the two classes
whose menus call `startTimer`, does to the members of the base class: `isOn` is
negated, and `stopTimer` is called when the device is off afterwards. -/
def SmartDevice.toggle (d : SmartDevice) : SmartDevice :=
  let d1 : SmartDevice := { d with isOn := !d.isOn }
  if !d1.isOn then d1.stopTimer else d1

/-- The operations that are interleaved while a timer thread exists: the two
foreground operations and the tick of the thread. -/
inductive TimerOp where
  | toggle
  | stopTimer
  | tick
deriving DecidableEq, Repr

/-- One operation on a device with its timer thread. -/
def Timed.step (s : Timed) : TimerOp → Timed
  | .toggle => ⟨s.dev.toggle, s.sleeping⟩
  | .stopTimer => ⟨s.dev.stopTimer, s.sleeping⟩
  | .tick => s.tick

/-- An interleaving: the operations of `ops` one after the other. -/
def Timed.run (s : Timed) (ops : List TimerOp) : Timed := ops.foldl Timed.step s

/-! ## The menus of the other classes -/

/-- What a call of `handleMenuChoice` of a class with schedules leaves behind:
the device, the input stream `cin`, the text of the file, and the name passed to
`SmartHome::getInstance().removeDevice` when that call is made. -/
structure MenuOutcome (α : Type) where
  device : α
  cin : IStream
  file : Text
  removeRequest : Option Text
deriving DecidableEq, Repr

/-- The member `SmartPlug::handleMenuChoice(choice)`, the clock reading `now`.
`uninit` is what the locals `seconds` and `confirmChoice` hold before the
extraction, `index0` the local of `deleteSchedule`, `choice0`, `hour0` and
`minute0` those of `manageSchedule`. `none`: `std::terminate` was called. -/
def SmartPlug.handleMenuChoice (d : SmartPlug) (choice : Int) (cin : IStream) (file : Text)
    (now uninit index0 choice0 hour0 minute0 : Int) : Option (MenuOutcome SmartPlug) :=
  if choice = 1 then some ⟨d.oneClickAction now, cin, file, none⟩
  else if choice = 2 then
    if !d.isOn then some ⟨d, cin, file, none⟩
    else
      let r := extractInt cin uninit
      let d1 : SmartPlug := { d with sleepTimer := r.2 }
      match d1.toSmartDevice.startTimer r.2 with
      | none => none
      | some b => some ⟨{ d1 with toSmartDevice := b }, r.1, file, none⟩
  else if choice = 3 then some ⟨d.updateHistoricData now, cin, file, none⟩
  else if choice = 4 then some ⟨d, cin, file, none⟩
  else if choice = 5 then
    let r := d.toSmartDevice.editName cin
    some ⟨{ d with toSmartDevice := r.1 }, r.2, file, none⟩
  else if choice = 6 then some ⟨d, cin, file, none⟩
  else if choice = 7 then
    let r := d.deleteSchedule cin file index0
    some ⟨r.device, r.cin, r.file, none⟩
  else if choice = 8 then
    let r := d.manageSchedule cin file choice0 hour0 minute0
    some ⟨r.device, r.cin, r.file, none⟩
  else if choice = 0 then
    let r := extractInt cin uninit
    if r.2 = 1 then some ⟨d, r.1, file, some d.name⟩ else some ⟨d, r.1, file, none⟩
  else some ⟨d, cin, file, none⟩

/-- The member `Thermostat::handleMenuChoice(choice)`; the integer parameters
after `file` are what the locals without an initial value hold before the
extraction (`confirmChoice`, `index`, and `choice`, `hour`, `minute` of
`manageSchedule`). -/
def Thermostat.handleMenuChoice (d : Thermostat) (choice : Int) (cin : IStream) (file : Text)
    (uninit index0 choice0 hour0 minute0 : Int) : MenuOutcome Thermostat :=
  if choice = 1 then ⟨d.oneClickAction, cin, file, none⟩
  else if choice = 2 then
    let r := d.manageSchedule cin file choice0 hour0 minute0
    ⟨r.device, r.cin, r.file, none⟩
  else if choice = 3 then ⟨d, cin, file, none⟩
  else if choice = 4 then
    let r := d.deleteSchedule cin file index0
    ⟨r.device, r.cin, r.file, none⟩
  else if choice = 5 then
    let r := d.toSmartDevice.editName cin
    ⟨{ d with toSmartDevice := r.1 }, r.2, file, none⟩
  else if choice = 6 then
    let r := extractInt cin uninit
    if r.2 = 1 then ⟨d, r.1, file, some d.name⟩ else ⟨d, r.1, file, none⟩
  else ⟨d, cin, file, none⟩

/-- The member `RadiatorValve::handleMenuChoice(choice)`. Choice 2 reads a
`float` from `cin` and only prints it: `extractFloat` is what the library's
`operator>>` for `float` leaves of the stream. -/
def RadiatorValve.handleMenuChoice (extractFloat : IStream → IStream) (d : RadiatorValve)
    (choice : Int) (cin : IStream) (file : Text) (uninit index0 choice0 hour0 minute0 : Int) :
    MenuOutcome RadiatorValve :=
  if choice = 1 then ⟨d.oneClickAction, cin, file, none⟩
  else if choice = 2 then ⟨d, extractFloat cin, file, none⟩
  else if choice = 3 then
    let r := d.manageSchedule cin file choice0 hour0 minute0
    ⟨r.device, r.cin, r.file, none⟩
  else if choice = 4 then ⟨d, cin, file, none⟩
  else if choice = 5 then
    let r := d.toSmartDevice.editName cin
    ⟨{ d with toSmartDevice := r.1 }, r.2, file, none⟩
  else if choice = 6 then
    let r := d.deleteSchedule cin file index0
    ⟨r.device, r.cin, r.file, none⟩
  else if choice = 7 then
    let r := extractInt cin uninit
    if r.2 = 1 then ⟨d, r.1, file, some d.name⟩ else ⟨d, r.1, file, none⟩
  else ⟨d, cin, file, none⟩

/-- The member `TempHumiditySensor::updateSensorReadings`: `temperature` and
`humidity` are the values drawn from the random generator, `stamp` and `now` the
two clock readings (for the reading and inside `updateEnergyUsage`). -/
def TempHumiditySensor.updateSensorReadings (d : TempHumiditySensor) (temperature humidity : ℚ)
    (stamp now : Int) : TempHumiditySensor :=
  let d1 : TempHumiditySensor :=
    { d with historicData := d.historicData ++ [⟨temperature, humidity, stamp⟩] }
  d1.updateEnergyUsage now

/-- The member `TempHumiditySensor::handleMenuChoice(choice)`; `uninit` is what
the local `confirmChoice` holds before the extraction. -/
def TempHumiditySensor.handleMenuChoice (d : TempHumiditySensor) (choice : Int) (cin : IStream)
    (temperature humidity : ℚ) (stamp now uninit : Int) : MenuResult TempHumiditySensor :=
  if choice = 1 then ⟨d.oneClickAction now, cin, none⟩
  else if choice = 2 then ⟨d.updateSensorReadings temperature humidity stamp now, cin, none⟩
  else if choice = 3 then ⟨d, cin, none⟩
  else if choice = 4 then ⟨d, cin, none⟩
  else if choice = 5 then
    let r := d.toSmartDevice.editName cin
    ⟨{ d with toSmartDevice := r.1 }, r.2, none⟩
  else if choice = 6 then
    let r := extractInt cin uninit
    if r.2 = 1 then ⟨d, r.1, some d.name⟩ else ⟨d, r.1, none⟩
  else ⟨d, cin, none⟩

/-! ## Records as fields -/

/-- The fields of a record: the pieces of the text between its `|` characters. -/
def splitFields : Text → List Text
  | [] => [[]]
  | c :: cs =>
    if c = '|' then [] :: splitFields cs
    else
      match splitFields cs with
      | f :: fs => (c :: f) :: fs
      | [] => [[c]]

/-! ## Adding and renaming devices -/

/-- The member `SmartDevice::setName`. -/
def SmartDevice.setName (d : SmartDevice) (newName : Text) : SmartDevice :=
  { d with name := newName }

/-- The member `SmartHome::addDevice`: the registry afterwards and the input
stream `cin`. `choice0` is what the local `choice` holds before the extraction;
the constructors read the file and the clock. -/
def addDevice (devices : List Device) (cin : IStream) (file : Text)
    (now hour0 minute0 choice0 : Int) : List Device × IStream :=
  let r := extractInt cin choice0
  let g := getline r.1.ignore [] '\n'
  if r.2 = 1 then (devices ++ [.light (SmartLight.new g.2)], g.1)
  else if r.2 = 2 then (devices ++ [.sensor (TempHumiditySensor.new now g.2)], g.1)
  else if r.2 = 3 then (devices ++ [.speaker (SmartSpeaker.new g.2)], g.1)
  else if r.2 = 4 then (devices ++ [.thermostat (Thermostat.new file hour0 minute0 g.2)], g.1)
  else if r.2 = 5 then (devices ++ [.plug (SmartPlug.new file now hour0 minute0 g.2)], g.1)
  else if r.2 = 6 then (devices ++ [.radiator (RadiatorValve.new file hour0 minute0 g.2)], g.1)
  else (devices, g.1)

/-- The text typed for `addDevice`: the number of the device type, the line end
that `cin.ignore()` removes, and the line with the name. -/
def addInput (choice : Int) (name rest : Text) : IStream :=
  ⟨showInt choice ++ '\n' :: (name ++ '\n' :: rest), false, false⟩

/-! ## Repeated schedule adds -/

/-- The entries written to the file by `n` successive adds that end with the
list `entries`, in the order of the file: after the `j`-th add the first `j`
entries. -/
def writtenEntries (entries : List Schedule) (n : Nat) : List Schedule :=
  ((List.range n).map (fun j => entries.take (j + 1))).flatten

/-- The thermostat "Hall" after `n` inputs `1 7 30` to `manageSchedule`,
starting without entries and with an empty file. -/
def hallRun : Nat → ScheduleResult Thermostat
  | 0 => ⟨hall, IStream.ofText [], []⟩
  | n + 1 => (hallRun n).device.manageSchedule (IStream.ofText "1 7 30\n".toList)
      (hallRun n).file 0 0 0

/-- A plug "Kettle" that is off, with a stopped timer of 7 seconds left. -/
def kettleOff : SmartPlug := ⟨⟨"Kettle".toList, false, 7, false, true⟩, 7, [], [], 3, 0⟩

/-- A speaker "Radio", on, at volume 30, not playing. -/
def radio : SmartSpeaker := ⟨⟨"Radio".toList, true, 0, false, false⟩, 30, false⟩

/-- The light "Lamp" (on, brightness 80) with a timer running, 12 seconds left. -/
def lampTimed : Device := .light ⟨⟨"Lamp".toList, true, 12, true, true⟩, 80⟩

/-- The plug "Fridge" (off, energy 12.5) with a log entry, a schedule entry and
another `lastUpdateTime`. -/
def fridgeUsed : Device :=
  .plug ⟨⟨"Fridge".toList, false, 3, false, true⟩, 30, [⟨mkRat 25 2, 25⟩],
    [⟨7, 30, "ON".toList⟩], mkRat 25 2, 25⟩

/-- The positions (from 0) in the final schedule list of the entries written to
the file by `n` successive adds, in the order of the file: after the `j`-th add
the positions `0` to `j - 1`. -/
def writtenIndices (n : Nat) : List Nat :=
  ((List.range n).map (fun j => List.range (j + 1))).flatten

/-! ## Characters, digits and numbers in text -/

theorem digitChar_props (d : Nat) (h : d < 10) :
    (Char.ofNat (48 + d)).isDigit = true ∧ (Char.ofNat (48 + d)).toNat - 48 = d ∧
    Char.ofNat (48 + d) ≠ '|' ∧ Char.ofNat (48 + d) ≠ '\n' ∧
    isSpace (Char.ofNat (48 + d)) = false ∧ Char.ofNat (48 + d) ≠ '-' ∧
    Char.ofNat (48 + d) ≠ '+' := by
  interval_cases d <;> decide

theorem IsDigitChar.isDigit {c : Char} (h : IsDigitChar c) : c.isDigit = true := by
  obtain ⟨d, hd, rfl⟩ := h
  exact (digitChar_props d hd).1

theorem IsDigitChar.ne_pipe {c : Char} (h : IsDigitChar c) : c ≠ '|' := by
  obtain ⟨d, hd, rfl⟩ := h
  exact (digitChar_props d hd).2.2.1

theorem IsDigitChar.ne_newline {c : Char} (h : IsDigitChar c) : c ≠ '\n' := by
  obtain ⟨d, hd, rfl⟩ := h
  exact (digitChar_props d hd).2.2.2.1

theorem IsDigitChar.not_space {c : Char} (h : IsDigitChar c) : isSpace c = false := by
  obtain ⟨d, hd, rfl⟩ := h
  exact (digitChar_props d hd).2.2.2.2.1

theorem IsDigitChar.ne_minus {c : Char} (h : IsDigitChar c) : c ≠ '-' := by
  obtain ⟨d, hd, rfl⟩ := h
  exact (digitChar_props d hd).2.2.2.2.2.1

theorem IsDigitChar.ne_plus {c : Char} (h : IsDigitChar c) : c ≠ '+' := by
  obtain ⟨d, hd, rfl⟩ := h
  exact (digitChar_props d hd).2.2.2.2.2.2

theorem natDigits_isDigitChar (fuel n : Nat) :
    ∀ c ∈ natDigits fuel n, IsDigitChar c := by
  induction fuel generalizing n with
  | zero => intro c hc; simp [natDigits] at hc
  | succ k ih =>
    intro c hc
    unfold natDigits at hc
    split at hc
    · rename_i hlt
      simp only [List.mem_singleton] at hc
      exact ⟨n, hlt, hc⟩
    · rcases List.mem_append.mp hc with h | h
      · exact ih _ c h
      · simp only [List.mem_singleton] at h
        exact ⟨n % 10, Nat.mod_lt _ (by decide), h⟩

theorem natDigits_ne_nil (fuel n : Nat) : natDigits (fuel + 1) n ≠ [] := by
  unfold natDigits
  split <;> simp

theorem digitsVal_append_single (ds : Text) (c : Char) :
    digitsVal (ds ++ [c]) = 10 * digitsVal ds + (c.toNat - 48) := by
  simp [digitsVal, List.foldl_append]

theorem digitsVal_natDigits (fuel n : Nat) (h : n < 10 ^ fuel) :
    digitsVal (natDigits fuel n) = n := by
  induction fuel generalizing n with
  | zero => simp at h; subst h; rfl
  | succ k ih =>
    unfold natDigits
    split
    · rename_i hlt
      have := (digitChar_props n hlt).2.1
      simp [digitsVal, this]
    · have hq : n / 10 < 10 ^ k := by
        rw [Nat.div_lt_iff_lt_mul (by decide)]
        calc n < 10 ^ (k + 1) := h
          _ = 10 ^ k * 10 := by ring
      rw [digitsVal_append_single, ih _ hq, (digitChar_props (n % 10) (Nat.mod_lt _ (by decide))).2.1]
      omega

theorem showNat_isDigitChar (n : Nat) : ∀ c ∈ showNat n, IsDigitChar c :=
  natDigits_isDigitChar _ _

theorem showNat_ne_nil (n : Nat) : showNat n ≠ [] := natDigits_ne_nil _ _

theorem digitsVal_showNat (n : Nat) : digitsVal (showNat n) = n := by
  apply digitsVal_natDigits
  calc n < 10 ^ n := Nat.lt_pow_self (by decide) n
    _ ≤ 10 ^ (n + 1) := Nat.pow_le_pow_right (by decide) (Nat.le_succ n)

theorem takeWhile_all {p : Char → Bool} (l r : Text) (hl : ∀ c ∈ l, p c = true)
    (hr : ∀ c ∈ r.head?, p c = false) : (l ++ r).takeWhile p = l := by
  induction l with
  | nil =>
    cases r with
    | nil => rfl
    | cons c cs => simp [List.takeWhile, hr c (by simp)]
  | cons x xs ih =>
    have hx : p x = true := hl x (by simp)
    simp only [List.cons_append, List.takeWhile_cons, hx, if_true]
    rw [ih (fun c hc => hl c (List.mem_cons_of_mem _ hc))]

theorem dropWhile_all {p : Char → Bool} (l r : Text) (hl : ∀ c ∈ l, p c = true)
    (hr : ∀ c ∈ r.head?, p c = false) : (l ++ r).dropWhile p = r := by
  induction l with
  | nil =>
    cases r with
    | nil => rfl
    | cons c cs => simp [List.dropWhile, hr c (by simp)]
  | cons x xs ih =>
    have hx : p x = true := hl x (by simp)
    simp only [List.cons_append, List.dropWhile_cons, hx, if_true]
    rw [ih (fun c hc => hl c (List.mem_cons_of_mem _ hc))]

theorem takeSign_of_digit (c : Char) (r : Text) (hc : IsDigitChar c) :
    takeSign (c :: r) = (false, c :: r) := by
  have h1 := hc.ne_minus
  have h2 := hc.ne_plus
  unfold takeSign
  split
  · rename_i heq
    simp only [List.cons.injEq] at heq
    exact absurd heq.1 h1
  · rename_i heq
    simp only [List.cons.injEq] at heq
    exact absurd heq.1 h2
  · rfl

/-- What `stoi` and `operator>>` do after the white space: sign, digits, value. -/
theorem scan_showInt (v : Int) (rest : Text) (hr : ∀ c ∈ rest.head?, c.isDigit = false) :
    ∃ neg r, takeSign (showInt v ++ rest) = (neg, r) ∧
      r.takeWhile Char.isDigit ≠ [] ∧ r.dropWhile Char.isDigit = rest ∧
      (if neg then -(digitsVal (r.takeWhile Char.isDigit) : Int)
        else (digitsVal (r.takeWhile Char.isDigit) : Int)) = v := by
  cases v with
  | ofNat n =>
    have hne := showNat_ne_nil n
    have hdig := showNat_isDigitChar n
    have htw : (showNat n ++ rest).takeWhile Char.isDigit = showNat n :=
      takeWhile_all _ _ (fun c hc => (hdig c hc).isDigit) hr
    have hdw : (showNat n ++ rest).dropWhile Char.isDigit = rest :=
      dropWhile_all _ _ (fun c hc => (hdig c hc).isDigit) hr
    refine ⟨false, showNat n ++ rest, ?_, ?_, ?_, ?_⟩
    · show takeSign (showNat n ++ rest) = _
      cases hs : showNat n with
      | nil => exact absurd hs hne
      | cons c cs =>
        exact takeSign_of_digit c _ (hdig c (by rw [hs]; simp))
    · rw [htw]; exact hne
    · exact hdw
    · rw [htw, digitsVal_showNat]; rfl
  | negSucc n =>
    have hne := showNat_ne_nil (n + 1)
    have hdig := showNat_isDigitChar (n + 1)
    have htw : (showNat (n + 1) ++ rest).takeWhile Char.isDigit = showNat (n + 1) :=
      takeWhile_all _ _ (fun c hc => (hdig c hc).isDigit) hr
    have hdw : (showNat (n + 1) ++ rest).dropWhile Char.isDigit = rest :=
      dropWhile_all _ _ (fun c hc => (hdig c hc).isDigit) hr
    refine ⟨true, showNat (n + 1) ++ rest, rfl, ?_, ?_, ?_⟩
    · rw [htw]; exact hne
    · exact hdw
    · rw [htw, digitsVal_showNat]
      simp [Int.negSucc_eq]

theorem showInt_ne_nil (v : Int) : showInt v ≠ [] := by
  cases v with
  | ofNat n => exact showNat_ne_nil n
  | negSucc n => simp [showInt]

theorem showInt_head_not_space (v : Int) (rest : Text) :
    ∀ c ∈ (showInt v ++ rest).head?, isSpace c = false := by
  cases v with
  | ofNat n =>
    intro c hc
    cases hs : showNat n with
    | nil => exact absurd hs (showNat_ne_nil n)
    | cons x xs =>
      have hx := showNat_isDigitChar n x (by rw [hs]; simp)
      simp only [showInt, hs, List.cons_append, List.head?_cons, Option.mem_def,
        Option.some.injEq] at hc
      subst hc
      exact hx.not_space
  | negSucc n =>
    intro c hc
    simp only [showInt, List.cons_append, List.head?_cons, Option.mem_def,
      Option.some.injEq] at hc
    subst hc
    decide

theorem dropWhile_head_false {p : Char → Bool} (l : Text) (h : ∀ c ∈ l.head?, p c = false) :
    l.dropWhile p = l := by
  cases l with
  | nil => rfl
  | cons c cs => simp [List.dropWhile, h c (by simp)]

theorem stoi_showInt_append (v : Int) (rest : Text) (hr : ∀ c ∈ rest.head?, c.isDigit = false) :
    stoi (showInt v ++ rest) =
      if INT_MIN ≤ v ∧ v ≤ INT_MAX then .ok v else .error .out_of_range := by
  obtain ⟨neg, r, h1, h2, _, h4⟩ := scan_showInt v rest hr
  unfold stoi
  rw [dropWhile_head_false _ (showInt_head_not_space v rest), h1]
  simp only [List.isEmpty_iff, h2, if_false, h4]

theorem stoi_showInt (v : Int) (h1 : INT_MIN ≤ v) (h2 : v ≤ INT_MAX) :
    stoi (showInt v) = .ok v := by
  have := stoi_showInt_append v [] (by simp)
  rw [List.append_nil] at this
  rw [this, if_pos ⟨h1, h2⟩]

theorem showInt_no_pipe (v : Int) : '|' ∉ showInt v := by
  cases v with
  | ofNat n =>
    intro h
    exact (showNat_isDigitChar n _ h).ne_pipe rfl
  | negSucc n =>
    intro h
    simp only [showInt, List.mem_cons] at h
    rcases h with h | h
    · exact absurd h (by decide)
    · exact (showNat_isDigitChar _ _ h).ne_pipe rfl

theorem showInt_no_newline (v : Int) : '\n' ∉ showInt v := by
  cases v with
  | ofNat n =>
    intro h
    exact (showNat_isDigitChar n _ h).ne_newline rfl
  | negSucc n =>
    intro h
    simp only [showInt, List.mem_cons] at h
    rcases h with h | h
    · exact absurd h (by decide)
    · exact (showNat_isDigitChar _ _ h).ne_newline rfl

theorem showBool_no_pipe (b : Bool) : '|' ∉ showBool b := by
  cases b <;> decide

theorem showBool_eq_one (b : Bool) : decide (showBool b = ['1']) = b := by
  cases b <;> decide

/-! ## Reading fields with `getline` -/

theorem getline_split (pre rest str : Text) (delim : Char) (h : delim ∉ pre) :
    getline ⟨pre ++ delim :: rest, false, false⟩ str delim = (⟨rest, false, false⟩, pre) := by
  have hl : ∀ c ∈ pre, (fun c => c != delim) c = true := by
    intro c hc
    have : c ≠ delim := fun e => h (e ▸ hc)
    simpa using this
  have hr : ∀ c ∈ (delim :: rest).head?, (fun c => c != delim) c = false := by
    intro c hc
    simp only [List.head?_cons, Option.mem_def, Option.some.injEq] at hc
    subst hc
    simp
  simp only [getline, IStream.good, Bool.not_false, Bool.and_self, if_true]
  rw [takeWhile_all pre _ hl hr, dropWhile_all pre _ hl hr]

theorem getline_last (buf str : Text) (delim : Char) (h : delim ∉ buf) :
    getline ⟨buf, false, false⟩ str delim = (⟨[], true, buf.isEmpty⟩, buf) := by
  have hl : ∀ c ∈ buf, (fun c => c != delim) c = true := by
    intro c hc
    have : c ≠ delim := fun e => h (e ▸ hc)
    simpa using this
  have h1 := takeWhile_all buf [] hl (by simp)
  have h2 := dropWhile_all buf [] hl (by simp)
  rw [List.append_nil] at h1 h2
  simp only [getline, IStream.good, Bool.not_false, Bool.and_self, if_true]
  rw [h1, h2]

theorem getline_eof (buf str : Text) (f : Bool) (delim : Char) :
    getline ⟨buf, true, f⟩ str delim = (⟨buf, true, true⟩, str) := by
  simp [getline, IStream.good]

/-- A record of four fields read by `SmartLight::deserialize`. -/
theorem light_deserialize_four (d : SmartLight) (t n f g : Text)
    (ht : '|' ∉ t) (hn : '|' ∉ n) (hf : '|' ∉ f) (hg : '|' ∉ g) :
    d.deserialize (t ++ '|' :: (n ++ '|' :: (f ++ '|' :: g))) =
      match stoi g with
      | .error e => .error e
      | .ok b => .ok { d with name := n, isOn := decide (f = ['1']), brightness := b } := by
  simp only [SmartLight.deserialize, IStream.ofText, getline_split _ _ _ _ ht,
    getline_split _ _ _ _ hn, getline_split _ _ _ _ hf, getline_last _ _ _ hg]

/-- A record of three fields read by `SmartLight::deserialize`: the text of the
third field is still in `tmp` when the brightness is converted. -/
theorem light_deserialize_three (d : SmartLight) (t n f : Text)
    (ht : '|' ∉ t) (hn : '|' ∉ n) (hf : '|' ∉ f) :
    d.deserialize (t ++ '|' :: (n ++ '|' :: f)) =
      match stoi f with
      | .error e => .error e
      | .ok b => .ok { d with name := n, isOn := decide (f = ['1']), brightness := b } := by
  simp only [SmartLight.deserialize, IStream.ofText, getline_split _ _ _ _ ht,
    getline_split _ _ _ _ hn, getline_last _ _ _ hf, getline_eof]

/-- A record of five fields read by `SmartSpeaker::deserialize`. -/
theorem speaker_deserialize_five (d : SmartSpeaker) (t n f g k : Text)
    (ht : '|' ∉ t) (hn : '|' ∉ n) (hf : '|' ∉ f) (hg : '|' ∉ g) (hk : '|' ∉ k) :
    d.deserialize (t ++ '|' :: (n ++ '|' :: (f ++ '|' :: (g ++ '|' :: k)))) =
      match stoi g with
      | .error e => .error e
      | .ok v => .ok { d with name := n, isOn := decide (f = ['1']), volume := v,
                              isPlaying := decide (k = ['1']) } := by
  simp only [SmartSpeaker.deserialize, IStream.ofText, getline_split _ _ _ _ ht,
    getline_split _ _ _ _ hn, getline_split _ _ _ _ hf, getline_split _ _ _ _ hg,
    getline_last _ _ _ hk]

/-- A record of four fields read by `SmartSpeaker::deserialize`: the text of the
volume field is still in `tmp` when `isPlaying` is decided. -/
theorem speaker_deserialize_four (d : SmartSpeaker) (t n f g : Text)
    (ht : '|' ∉ t) (hn : '|' ∉ n) (hf : '|' ∉ f) (hg : '|' ∉ g) :
    d.deserialize (t ++ '|' :: (n ++ '|' :: (f ++ '|' :: g))) =
      match stoi g with
      | .error e => .error e
      | .ok v => .ok { d with name := n, isOn := decide (f = ['1']), volume := v,
                              isPlaying := decide (g = ['1']) } := by
  simp only [SmartSpeaker.deserialize, IStream.ofText, getline_split _ _ _ _ ht,
    getline_split _ _ _ _ hn, getline_split _ _ _ _ hf, getline_last _ _ _ hg, getline_eof]

/-- A record of four fields read by `SmartPlug::deserialize`. -/
theorem plug_deserialize_four (ft : FloatText) (d : SmartPlug) (t n f g : Text)
    (ht : '|' ∉ t) (hn : '|' ∉ n) (hf : '|' ∉ f) (hg : '|' ∉ g) :
    d.deserialize ft (t ++ '|' :: (n ++ '|' :: (f ++ '|' :: g))) =
      match ft.stof g with
      | .error e => .error e
      | .ok x => .ok { d with name := n, isOn := decide (f = ['1']), totalEnergy := x } := by
  simp only [SmartPlug.deserialize, IStream.ofText, getline_split _ _ _ _ ht,
    getline_split _ _ _ _ hn, getline_split _ _ _ _ hf, getline_last _ _ _ hg]

/-- A record of four fields read by `TempHumiditySensor::deserialize`. -/
theorem sensor_deserialize_four (ft : FloatText) (d : TempHumiditySensor)
    (t n f g : Text) (ht : '|' ∉ t) (hn : '|' ∉ n) (hf : '|' ∉ f) (hg : '|' ∉ g) :
    d.deserialize ft (t ++ '|' :: (n ++ '|' :: (f ++ '|' :: g))) =
      match ft.stof g with
      | .error e => .error e
      | .ok x => .ok { d with name := n, isOn := decide (f = ['1']), totalEnergy := x } := by
  simp only [TempHumiditySensor.deserialize, IStream.ofText, getline_split _ _ _ _ ht,
    getline_split _ _ _ _ hn, getline_split _ _ _ _ hf, getline_last _ _ _ hg]

/-- A record of three fields read by `Thermostat::deserialize`. -/
theorem thermostat_deserialize_three (d : Thermostat) (t n f : Text)
    (ht : '|' ∉ t) (hn : '|' ∉ n) (hf : '|' ∉ f) :
    d.deserialize (t ++ '|' :: (n ++ '|' :: f)) =
      .ok { d with name := n, isOn := decide (f = ['1']) } := by
  simp only [Thermostat.deserialize, IStream.ofText, getline_split _ _ _ _ ht,
    getline_split _ _ _ _ hn, getline_last _ _ _ hf]

/-- A record of three fields read by `RadiatorValve::deserialize`. -/
theorem radiator_deserialize_three (d : RadiatorValve) (t n f : Text)
    (ht : '|' ∉ t) (hn : '|' ∉ n) (hf : '|' ∉ f) :
    d.deserialize (t ++ '|' :: (n ++ '|' :: f)) =
      .ok { d with name := n, isOn := decide (f = ['1']) } := by
  simp only [RadiatorValve.deserialize, IStream.ofText, getline_split _ _ _ _ ht,
    getline_split _ _ _ _ hn, getline_last _ _ _ hf]

/-! ## C1: serialize followed by deserialize -/

theorem light_serialize_eq (d : SmartLight) :
    d.serialize = "LIGHT".toList ++ '|' :: (d.name ++ '|' :: (showBool d.isOn ++ '|' ::
      showInt d.brightness)) := by
  simp [SmartLight.serialize]

theorem speaker_serialize_eq (d : SmartSpeaker) :
    d.serialize = "SPEAKER".toList ++ '|' :: (d.name ++ '|' :: (showBool d.isOn ++ '|' ::
      (showInt d.volume ++ '|' :: showBool d.isPlaying))) := by
  simp [SmartSpeaker.serialize]

theorem plug_serialize_eq (ft : FloatText) (d : SmartPlug) :
    d.serialize ft = "PLUG".toList ++ '|' :: (d.name ++ '|' :: (showBool d.isOn ++ '|' ::
      ft.put d.totalEnergy)) := by
  simp [SmartPlug.serialize]

theorem sensor_serialize_eq (ft : FloatText) (d : TempHumiditySensor) :
    d.serialize ft = "TEMPHUMIDITY".toList ++ '|' :: (d.name ++ '|' :: (showBool d.isOn ++
      '|' :: ft.put d.totalEnergy)) := by
  simp [TempHumiditySensor.serialize]

theorem thermostat_serialize_eq (d : Thermostat) :
    d.serialize = "THERMOSTAT".toList ++ '|' :: (d.name ++ '|' :: showBool d.isOn) := by
  simp [Thermostat.serialize]

theorem radiator_serialize_eq (d : RadiatorValve) :
    d.serialize = "RADIATOR".toList ++ '|' :: (d.name ++ '|' :: showBool d.isOn) := by
  simp [RadiatorValve.serialize]

theorem light_deserialize_serialize (x d : SmartLight) (hn : '|' ∉ d.name)
    (h1 : INT_MIN ≤ d.brightness) (h2 : d.brightness ≤ INT_MAX) :
    x.deserialize d.serialize =
      .ok { x with name := d.name, isOn := d.isOn, brightness := d.brightness } := by
  rw [light_serialize_eq, light_deserialize_four x _ _ _ _ (by decide) hn
    (showBool_no_pipe _) (showInt_no_pipe _), stoi_showInt _ h1 h2]
  simp only [showBool_eq_one]

theorem speaker_deserialize_serialize (x d : SmartSpeaker) (hn : '|' ∉ d.name)
    (h1 : INT_MIN ≤ d.volume) (h2 : d.volume ≤ INT_MAX) :
    x.deserialize d.serialize =
      .ok { x with name := d.name, isOn := d.isOn, volume := d.volume,
                   isPlaying := d.isPlaying } := by
  rw [speaker_serialize_eq, speaker_deserialize_five x _ _ _ _ _ (by decide) hn
    (showBool_no_pipe _) (showInt_no_pipe _) (showBool_no_pipe _), stoi_showInt _ h1 h2]
  simp only [showBool_eq_one]

theorem plug_deserialize_serialize (ft : FloatText) (x d : SmartPlug) (hn : '|' ∉ d.name)
    (he : ft.readsBack d.totalEnergy) :
    x.deserialize ft (d.serialize ft) =
      .ok { x with name := d.name, isOn := d.isOn, totalEnergy := d.totalEnergy } := by
  rw [plug_serialize_eq, plug_deserialize_four ft x _ _ _ _ (by decide) hn
    (showBool_no_pipe _) he.1, he.2]
  simp only [showBool_eq_one]

theorem sensor_deserialize_serialize (ft : FloatText) (x d : TempHumiditySensor)
    (hn : '|' ∉ d.name) (he : ft.readsBack d.totalEnergy) :
    x.deserialize ft (d.serialize ft) =
      .ok { x with name := d.name, isOn := d.isOn, totalEnergy := d.totalEnergy } := by
  rw [sensor_serialize_eq, sensor_deserialize_four ft x _ _ _ _
    (by decide) hn (showBool_no_pipe _) he.1, he.2]
  simp only [showBool_eq_one]

theorem thermostat_deserialize_serialize (x d : Thermostat) (hn : '|' ∉ d.name) :
    x.deserialize d.serialize = .ok { x with name := d.name, isOn := d.isOn } := by
  rw [thermostat_serialize_eq, thermostat_deserialize_three x _ _ _ (by decide) hn
    (showBool_no_pipe _)]
  simp only [showBool_eq_one]

theorem radiator_deserialize_serialize (x d : RadiatorValve) (hn : '|' ∉ d.name) :
    x.deserialize d.serialize = .ok { x with name := d.name, isOn := d.isOn } := by
  rw [radiator_serialize_eq, radiator_deserialize_three x _ _ _ (by decide) hn
    (showBool_no_pipe _)]
  simp only [showBool_eq_one]

/-- C1 (as amended): for each of the six classes and every device `d` of that
class whose name has no `|`, whose `int` members hold `int` values and whose
`totalEnergy` (plug, sensor) is a value that its written text reads back to,
`deserialize` on any device `fresh` of the same class with the text
`serialize(d)` succeeds and the result agrees with `d` on every persisted field:
`name`, `isOn`, `brightness`, `volume`, `isPlaying`, `totalEnergy`. -/
theorem deserialize_serialize_persisted (ft : FloatText) (d fresh : Device)
    (hkind : fresh.sameKind d = true) (hname : '|' ∉ d.getName)
    (hint : d.intsInRange) (hen : d.energyReadsBack ft) :
    ∃ d', fresh.deserialize ft (d.serialize ft) = .ok d' ∧ d'.persistedEq d := by
  cases d <;> cases fresh <;> simp only [Device.sameKind] at hkind <;>
    try (exact absurd hkind (by decide))
  · rename_i d x
    refine ⟨.light { x with name := d.name, isOn := d.isOn, brightness := d.brightness },
      ?_, ⟨rfl, rfl, rfl⟩⟩
    simp only [Device.deserialize, Device.serialize,
      light_deserialize_serialize x d hname hint.1 hint.2, Except.map]
  · rename_i d x
    refine ⟨.sensor { x with name := d.name, isOn := d.isOn, totalEnergy := d.totalEnergy },
      ?_, ⟨rfl, rfl, rfl⟩⟩
    simp only [Device.deserialize, Device.serialize,
      sensor_deserialize_serialize ft x d hname hen, Except.map]
  · rename_i d x
    refine ⟨.speaker
      { x with name := d.name, isOn := d.isOn, volume := d.volume, isPlaying := d.isPlaying },
      ?_, ⟨rfl, rfl, rfl, rfl⟩⟩
    simp only [Device.deserialize, Device.serialize,
      speaker_deserialize_serialize x d hname hint.1 hint.2, Except.map]
  · rename_i d x
    refine ⟨.thermostat { x with name := d.name, isOn := d.isOn }, ?_, ⟨rfl, rfl⟩⟩
    simp only [Device.deserialize, Device.serialize,
      thermostat_deserialize_serialize x d hname, Except.map]
  · rename_i d x
    refine ⟨.plug { x with name := d.name, isOn := d.isOn, totalEnergy := d.totalEnergy },
      ?_, ⟨rfl, rfl, rfl⟩⟩
    simp only [Device.deserialize, Device.serialize,
      plug_deserialize_serialize ft x d hname hen, Except.map]
  · rename_i d x
    refine ⟨.radiator { x with name := d.name, isOn := d.isOn }, ?_, ⟨rfl, rfl⟩⟩
    simp only [Device.deserialize, Device.serialize,
      radiator_deserialize_serialize x d hname, Except.map]

/-- C1 (counterexample): a light named `a|b` (on, brightness 100) is written as
`LIGHT|a|b|1|100` and read back as a light named `a`, off, brightness 1; a plug
with energy 1000000.5 is written as `PLUG|Boiler|1|1e+06` and read back with
energy 1000000. Neither result agrees with the device on its persisted fields. -/
theorem deserialize_serialize_not_persisted :
    (Device.deserialize cxxFloatText (.light (SmartLight.new []))
        (Device.serialize cxxFloatText pipeLamp)
      = .ok (.light ⟨⟨"a".toList, false, 0, false, false⟩, 1⟩)
      ∧ ¬ Device.persistedEq (.light ⟨⟨"a".toList, false, 0, false, false⟩, 1⟩) pipeLamp)
    ∧ (Device.deserialize cxxFloatText (.plug (SmartPlug.new [] 0 0 0 []))
        (Device.serialize cxxFloatText meteredPlug)
      = .ok (.plug ⟨⟨"Boiler".toList, true, 0, false, false⟩, 0, [], [], 1000000, 0⟩)
      ∧ ¬ Device.persistedEq
          (.plug ⟨⟨"Boiler".toList, true, 0, false, false⟩, 0, [], [], 1000000, 0⟩)
          meteredPlug) := by
  refine ⟨⟨by decide, ?_⟩, ⟨by decide, ?_⟩⟩
  · intro h
    exact absurd h.1 (by decide)
  · intro h
    exact absurd h.2.2 (by decide)

/-- C1 (witness): the plug "Fridge" (off, energy 12.5), written and read back
into a newly constructed plug. -/
theorem deserialize_serialize_persisted_witness :
    '|' ∉ fridge.getName ∧ fridge.energyReadsBack cxxFloatText ∧
    ∃ d', Device.deserialize cxxFloatText (.plug (SmartPlug.new [] 0 0 0 []))
        (Device.serialize cxxFloatText fridge) = .ok d' ∧ d'.persistedEq fridge :=
  ⟨by decide, ⟨by decide, by decide⟩,
    deserialize_serialize_persisted cxxFloatText fridge (.plug (SmartPlug.new [] 0 0 0 []))
      (by decide) (by decide) trivial ⟨by decide, by decide⟩⟩

/-! ## C2: saving and loading the registry -/

/-- C2 (the failing input): a registry with the light "Lamp", the sensor "Hall"
and the plug "Fridge" is saved as three lines, the sensor under the tag
`TEMPHUMIDITY`; loading that file into an empty registry gives back two devices,
the light and the plug: `loadDevices` knows the sensor as `TEMP_HUMIDITY` only. -/
theorem saveDevices_loadDevices_loses_sensor :
    saveDevices cxxFloatText [lamp, hallSensor, fridge]
      = "LIGHT|Lamp|1|80\nTEMPHUMIDITY|Hall|0|0\nPLUG|Fridge|0|12.5\n".toList
    ∧ loadDevices cxxFloatText (saveDevices cxxFloatText [lamp, hallSensor, fridge]) 0 0 0 []
      = .ok [lamp, fridge] := by
  decide

/-! ## C3: exceptions while loading -/

theorem loadLoop_ok_iff (ft : FloatText) (file : Text) (now hour0 minute0 : Int)
    (lines : List Text) (devices : List Device) :
    (∃ ds, loadLoop ft file now hour0 minute0 lines devices = .ok ds) ↔
      ∀ line ∈ lines, ∀ dev, makeDevice file now hour0 minute0 (recordType line) = some dev →
        ∃ d, dev.deserialize ft line = .ok d := by
  induction lines generalizing devices with
  | nil => simp [loadLoop]
  | cons line rest ih =>
    rw [List.forall_mem_cons]
    unfold loadLoop
    cases hm : makeDevice file now hour0 minute0 (recordType line) with
    | none =>
      show (∃ ds, loadLoop ft file now hour0 minute0 rest devices = .ok ds) ↔ _
      rw [ih]
      constructor
      · intro h
        exact ⟨fun dev hd => (by cases hd), h⟩
      · intro h
        exact h.2
    | some device =>
      dsimp only
      cases hd : device.deserialize ft line with
      | error e =>
        show (∃ ds, (Except.error e : Except Exn (List Device)) = .ok ds) ↔ _
        constructor
        · rintro ⟨ds, h⟩
          cases h
        · intro h
          obtain ⟨d, hd'⟩ := h.1 device rfl
          rw [hd] at hd'
          cases hd'
      | ok d =>
        show (∃ ds, loadLoop ft file now hour0 minute0 rest (devices ++ [d]) = .ok ds) ↔ _
        rw [ih]
        constructor
        · intro h
          refine ⟨fun dev hdev => ?_, h⟩
          cases hdev
          exact ⟨d, hd⟩
        · intro h
          exact h.2

/-- C3 (as amended): `deserialize` of `Thermostat` and of `RadiatorValve`
returns normally on every input text, and `loadDevices` completes without an
exception exactly when `deserialize` returns normally on every line of the file
whose first field is a tag known to `loadDevices` (lines with any other first
field create no device and never raise). -/
theorem loadDevices_completes_iff (ft : FloatText) (file : Text) (now hour0 minute0 : Int)
    (devices : List Device) :
    (∀ (d : Thermostat) (data : Text), ∃ d', d.deserialize data = .ok d') ∧
    (∀ (d : RadiatorValve) (data : Text), ∃ d', d.deserialize data = .ok d') ∧
    ((∃ ds, loadDevices ft file now hour0 minute0 devices = .ok ds) ↔
      ∀ line ∈ fileLines file, ∀ dev,
        makeDevice file now hour0 minute0 (recordType line) = some dev →
          ∃ d, dev.deserialize ft line = .ok d) :=
  ⟨fun _ _ => ⟨_, rfl⟩, fun _ _ => ⟨_, rfl⟩, loadLoop_ok_iff ft file now hour0 minute0 _ devices⟩

/-- C3 (counterexample): `deserialize` of a light throws `invalid_argument` on
`LIGHT|x`, and of a plug on `PLUG|x|1|abc`; the exception leaves `loadDevices`,
so in the file `LIGHT|x`, `LIGHT|Lamp|1|80` the second line is never loaded. -/
theorem loadDevices_raises :
    (SmartLight.new []).deserialize "LIGHT|x".toList = .error .invalid_argument
    ∧ (SmartPlug.new [] 0 0 0 []).deserialize cxxFloatText "PLUG|x|1|abc".toList
        = .error .invalid_argument
    ∧ loadDevices cxxFloatText "LIGHT|x\nLIGHT|Lamp|1|80\n".toList 0 0 0 []
        = .error .invalid_argument
    ∧ loadDevices cxxFloatText "PLUG|x|1|abc\n".toList 0 0 0 [] = .error .invalid_argument := by
  decide

/-! ## C4: records that end early -/

/-- C4 (as amended): a field missing at the end of a record is not kept from
before the call; it is converted from the text of the last field present, which
is still in the local `tmp`. For a light and a record `t|n|f` of three fields,
`isOn` becomes `f == "1"` and `brightness` becomes `stoi(f)` (an exception when
`stoi` throws); for a speaker and a record `t|n|f|g` of four fields, `volume`
becomes `stoi(g)` and `isPlaying` becomes `g == "1"`. -/
theorem deserialize_short_record (t n f g : Text)
    (ht : '|' ∉ t) (hn : '|' ∉ n) (hf : '|' ∉ f) (hg : '|' ∉ g) :
    (∀ d : SmartLight, d.deserialize (t ++ '|' :: (n ++ '|' :: f)) =
      match stoi f with
      | .error e => .error e
      | .ok b => .ok { d with name := n, isOn := decide (f = ['1']), brightness := b }) ∧
    (∀ d : SmartSpeaker, d.deserialize (t ++ '|' :: (n ++ '|' :: (f ++ '|' :: g))) =
      match stoi g with
      | .error e => .error e
      | .ok v => .ok { d with name := n, isOn := decide (f = ['1']), volume := v,
                              isPlaying := decide (g = ['1']) }) :=
  ⟨fun d => light_deserialize_three d t n f ht hn hf,
   fun d => speaker_deserialize_four d t n f g ht hn hf hg⟩

/-- C4 (witness): the records `LIGHT|name|1` for a light and `LIGHT|name|1|1` for
a speaker (`deserialize` does not look at the first field). -/
theorem deserialize_short_record_witness :
    (∀ d : SmartLight, d.deserialize ("LIGHT".toList ++ '|' :: ("name".toList ++ '|' :: ['1'])) =
      match stoi ['1'] with
      | .error e => .error e
      | .ok b => .ok { d with name := "name".toList, isOn := decide (['1'] = ['1']),
                              brightness := b }) ∧
    (∀ d : SmartSpeaker,
      d.deserialize ("LIGHT".toList ++ '|' :: ("name".toList ++ '|' :: (['1'] ++ '|' :: ['1']))) =
      match stoi ['1'] with
      | .error e => .error e
      | .ok v => .ok { d with name := "name".toList, isOn := decide (['1'] = ['1']), volume := v,
                              isPlaying := decide (['1'] = ['1']) }) :=
  deserialize_short_record "LIGHT".toList "name".toList ['1'] ['1']
    (by decide) (by decide) (by decide) (by decide)

/-- C4 (counterexample): on a newly constructed light (brightness 100) the
record `LIGHT|name|1` leaves brightness 1, and on a newly constructed speaker
(not playing) the record `SPEAKER|name|1|1` leaves `isPlaying` true. -/
theorem deserialize_short_record_overwrites :
    (SmartLight.new []).brightness = 100
    ∧ (SmartLight.new []).deserialize "LIGHT|name|1".toList
        = .ok ⟨⟨"name".toList, true, 0, false, false⟩, 1⟩
    ∧ (SmartSpeaker.new []).isPlaying = false
    ∧ (SmartSpeaker.new []).deserialize "SPEAKER|name|1|1".toList
        = .ok ⟨⟨"name".toList, true, 0, false, false⟩, 1, true⟩ := by
  decide

/-! ## C5: schedules after loading -/

/-- C5 (the failing input): the file holds the thermostat "Hall" and the
schedule record `Hall|7|30|ON`. The file has that record for the name "Hall",
but after `loadDevices` the thermostat "Hall" has an empty schedule list: the
list was loaded in the constructor, for the empty name. -/
theorem loadDevices_schedule_not_restored :
    loadScheduleFromFile hallFile "Hall".toList 0 0 = [⟨7, 30, "ON".toList⟩]
    ∧ loadDevices cxxFloatText hallFile 0 0 0 []
        = .ok [.thermostat ⟨⟨"Hall".toList, true, 0, false, false⟩, []⟩] := by
  decide

theorem deserialize_schedules (ft : FloatText) (dev d : Device) (line : Text)
    (h : dev.deserialize ft line = .ok d) : d.schedules = dev.schedules := by
  cases dev with
  | light x =>
    simp only [Device.deserialize, Except.map] at h
    split at h <;> cases h
    rfl
  | sensor x =>
    simp only [Device.deserialize, Except.map] at h
    split at h <;> cases h
    rfl
  | speaker x =>
    simp only [Device.deserialize, Except.map] at h
    split at h <;> cases h
    rfl
  | thermostat x =>
    simp only [Device.deserialize, Except.map, Thermostat.deserialize] at h
    cases h
    rfl
  | radiator x =>
    simp only [Device.deserialize, Except.map, RadiatorValve.deserialize] at h
    cases h
    rfl
  | plug x =>
    simp only [Device.deserialize, Except.map] at h
    split at h
    · cases h
    · rename_i v hv
      cases h
      simp only [SmartPlug.deserialize] at hv
      split at hv
      · cases hv
      · cases hv
        rfl

theorem makeDevice_schedules (file : Text) (now hour0 minute0 : Int) (type : Text)
    (dev : Device) (l : List Schedule)
    (h : makeDevice file now hour0 minute0 type = some dev) (hl : dev.schedules = some l) :
    l = loadScheduleFromFile file [] hour0 minute0 := by
  unfold makeDevice at h
  split_ifs at h <;> cases h <;> first | (cases hl; rfl) | cases hl

theorem loadLoop_schedules (ft : FloatText) (file : Text) (now hour0 minute0 : Int)
    (lines : List Text) (acc ds : List Device)
    (h : loadLoop ft file now hour0 minute0 lines acc = .ok ds)
    (hacc : ∀ d ∈ acc, ∀ l, d.schedules = some l →
      l = loadScheduleFromFile file [] hour0 minute0) :
    ∀ d ∈ ds, ∀ l, d.schedules = some l → l = loadScheduleFromFile file [] hour0 minute0 := by
  induction lines generalizing acc with
  | nil =>
    simp only [loadLoop] at h
    cases h
    exact hacc
  | cons line rest ih =>
    rw [loadLoop] at h
    cases hm : makeDevice file now hour0 minute0 (recordType line) with
    | none =>
      rw [hm] at h
      exact ih acc h hacc
    | some dev =>
      rw [hm] at h
      dsimp only at h
      cases hd : dev.deserialize ft line with
      | error e =>
        rw [hd] at h
        cases h
      | ok d =>
        rw [hd] at h
        dsimp only at h
        apply ih (acc ++ [d]) h
        intro x hx l hl
        rcases List.mem_append.mp hx with hx | hx
        · exact hacc x hx l hl
        · simp only [List.mem_singleton] at hx
          subst hx
          rw [deserialize_schedules ft dev x line hd] at hl
          exact makeDevice_schedules file now hour0 minute0 _ dev l hm hl

/-- What `loadDevices` does about schedules, for every file: each plug,
thermostat and radiator valve that it loads into an empty registry has the
schedule list that `loadScheduleFromFile` builds for the empty name, whatever
the name of the device. -/
theorem loadDevices_schedules_of_empty_name (ft : FloatText) (file : Text)
    (now hour0 minute0 : Int) (ds : List Device)
    (h : loadDevices ft file now hour0 minute0 [] = .ok ds) :
    ∀ d ∈ ds, ∀ l, d.schedules = some l → l = loadScheduleFromFile file [] hour0 minute0 :=
  loadLoop_schedules ft file now hour0 minute0 _ [] ds h (fun d hd => by cases hd)

/-! ## C6: lines that are not device records -/

theorem readLines_eof (fuel : Nat) (buf : Text) (f : Bool) :
    readLines fuel ⟨buf, true, f⟩ = [] := by
  cases fuel with
  | zero => rfl
  | succ k => simp [readLines, getline_eof]

theorem split_at_first (c : Char) (l : Text) (h : c ∈ l) :
    ∃ pre rest, l = pre ++ c :: rest ∧ c ∉ pre := by
  induction l with
  | nil => cases h
  | cons x xs ih =>
    by_cases hx : x = c
    · exact ⟨[], xs, by simp [hx], by simp⟩
    · have hmem : c ∈ xs := by
        rcases List.mem_cons.mp h with h1 | h1
        · exact absurd h1.symm hx
        · exact h1
      obtain ⟨pre, rest, h1, h2⟩ := ih hmem
      refine ⟨x :: pre, rest, by simp [h1], ?_⟩
      intro hc
      rcases List.mem_cons.mp hc with h3 | h3
      · exact hx h3.symm
      · exact h2 h3

theorem readLines_fuel (fuel fuel' : Nat) (buf : Text)
    (h : buf.length < fuel) (h' : buf.length < fuel') :
    readLines fuel ⟨buf, false, false⟩ = readLines fuel' ⟨buf, false, false⟩ := by
  induction fuel generalizing fuel' buf with
  | zero => omega
  | succ k ih =>
    cases fuel' with
    | zero => omega
    | succ k' =>
      by_cases hnl : '\n' ∈ buf
      · obtain ⟨pre, rest, rfl, hpre⟩ := split_at_first _ _ hnl
        simp only [readLines, getline_split _ _ _ _ hpre]
        have hlen : rest.length < (pre ++ '\n' :: rest).length := by
          simp only [List.length_append, List.length_cons]; omega
        simp only [Bool.false_eq_true, if_false]
        rw [ih k' rest (by omega) (by omega)]
      · simp only [readLines, getline_last _ _ _ hnl]
        cases buf with
        | nil => simp
        | cons x xs => simp [readLines_eof]

theorem readLines_split (k : Nat) (pre rest : Text) (h : '\n' ∉ pre) :
    readLines (k + 1) ⟨pre ++ '\n' :: rest, false, false⟩
      = pre :: readLines k ⟨rest, false, false⟩ := by
  simp only [readLines, getline_split _ _ _ _ h, Bool.false_eq_true, if_false]

theorem fileLines_cons (line rest : Text) (h : '\n' ∉ line) :
    fileLines (line ++ '\n' :: rest) = line :: fileLines rest := by
  unfold fileLines IStream.ofText
  rw [readLines_split _ _ _ h]
  rw [readLines_fuel _ (rest.length + 1) rest (by simp; omega) (by omega)]

theorem fileLines_nil : fileLines [] = [] := by decide

theorem fileLines_append (before after : Text) (hb : Terminated before) :
    fileLines (before ++ after) = fileLines before ++ fileLines after := by
  generalize hn : before.length = n
  induction n using Nat.strong_induction_on generalizing before with
  | _ n ih =>
    rcases hb with hb | hb
    · subst hb; simp [fileLines_nil]
    · have hmem : '\n' ∈ before := List.mem_of_getLast?_eq_some hb
      obtain ⟨pre, rest, rfl, hpre⟩ := split_at_first _ _ hmem
      have hrest : Terminated rest := by
        cases rest with
        | nil => exact Or.inl rfl
        | cons x xs =>
          right
          rw [← hb, List.getLast?_append_of_ne_nil _ (by simp), List.getLast?_cons_cons]
      have hlen : rest.length < n := by
        rw [← hn]; simp only [List.length_append, List.length_cons]; omega
      rw [List.append_assoc, List.cons_append, fileLines_cons _ _ hpre, fileLines_cons _ _ hpre,
        ih _ hlen rest hrest rfl, List.cons_append]

theorem makeDevice_eq_none_iff (file : Text) (now hour0 minute0 : Int) (type : Text) :
    makeDevice file now hour0 minute0 type = none ↔ type ∉ knownTags := by
  unfold makeDevice knownTags
  split_ifs <;> simp_all

theorem recordType_eq (line : Text) : recordType line = line.takeWhile (fun c => c != '|') := by
  unfold recordType getline
  simp only [IStream.ofText, IStream.good, Bool.not_false, Bool.and_self, if_true]
  split <;> rfl

theorem takeWhile_append_stop {p : Char → Bool} (a r : Text) (c : Char) (hc : p c = false) :
    (a ++ c :: r).takeWhile p = a.takeWhile p := by
  induction a with
  | nil => simp [List.takeWhile, hc]
  | cons x xs ih =>
    simp only [List.cons_append, List.takeWhile_cons, ih]

theorem recordType_append (name r : Text) : recordType (name ++ '|' :: r) = recordType name := by
  rw [recordType_eq, recordType_eq, takeWhile_append_stop _ _ _ (by simp)]

theorem loadLoop_skip (ft : FloatText) (file : Text) (now hour0 minute0 : Int)
    (front : List Text) (line : Text) (back : List Text) (devices : List Device)
    (h : makeDevice file now hour0 minute0 (recordType line) = none) :
    loadLoop ft file now hour0 minute0 (front ++ line :: back) devices
      = loadLoop ft file now hour0 minute0 (front ++ back) devices := by
  induction front generalizing devices with
  | nil =>
    simp only [List.nil_append]
    rw [loadLoop, h]
  | cons x xs ih =>
    simp only [List.cons_append]
    rw [loadLoop, loadLoop]
    cases makeDevice file now hour0 minute0 (recordType x) with
    | none => exact ih devices
    | some device =>
      dsimp only
      cases device.deserialize ft x with
      | error e => rfl
      | ok d => exact ih _

theorem loadDevices_skip_line (ft : FloatText) (now hour0 minute0 : Int) (devices : List Device)
    (before after line : Text) (hb : Terminated before) (hl : '\n' ∉ line)
    (ht : recordType line ∉ knownTags) :
    loadDevices ft (before ++ (line ++ '\n' :: after)) now hour0 minute0 devices
      = loadLoop ft (before ++ (line ++ '\n' :: after)) now hour0 minute0
          (fileLines before ++ fileLines after) devices := by
  unfold loadDevices
  rw [fileLines_append _ _ hb, fileLines_cons _ _ hl]
  exact loadLoop_skip ft _ now hour0 minute0 _ line _ devices
    ((makeDevice_eq_none_iff _ _ _ _ _).mpr ht)

theorem scheduleLine_eq (name : Text) (s : Schedule) (after : Text) :
    scheduleLine name s ++ after
      = (name ++ '|' :: (showInt s.hour ++ '|' :: (showInt s.minute ++ '|' :: s.state)))
          ++ '\n' :: after := by
  simp [scheduleLine]

/-- C6 (as amended): with the file split as `before`, one line, `after`
(`before` empty or ending with a line end), `loadDevices` gives the result of
its loop over the lines of `before` and `after` alone, that is, it creates no
device from the line, (1) for every line whose first field is not one of the tags
`LIGHT`, `TEMP_HUMIDITY`, `SPEAKER`, `THERMOSTAT`, `PLUG`, `RADIATOR`, and (2) for
every schedule record `name|hour|minute|state` written by `saveScheduleToFile`
for a device whose name, up to its first `|`, is not one of these tags. -/
theorem loadDevices_skips_non_records (ft : FloatText) (now hour0 minute0 : Int)
    (devices : List Device) (before after : Text) (hb : Terminated before) :
    (∀ line : Text, '\n' ∉ line → recordType line ∉ knownTags →
      loadDevices ft (before ++ (line ++ '\n' :: after)) now hour0 minute0 devices
        = loadLoop ft (before ++ (line ++ '\n' :: after)) now hour0 minute0
            (fileLines before ++ fileLines after) devices) ∧
    (∀ (name : Text) (s : Schedule), '\n' ∉ name → '\n' ∉ s.state →
      recordType name ∉ knownTags →
      loadDevices ft (before ++ (scheduleLine name s ++ after)) now hour0 minute0 devices
        = loadLoop ft (before ++ (scheduleLine name s ++ after)) now hour0 minute0
            (fileLines before ++ fileLines after) devices) := by
  refine ⟨fun line hl ht => loadDevices_skip_line ft now hour0 minute0 devices before after
    line hb hl ht, ?_⟩
  intro name s hn hs ht
  rw [scheduleLine_eq]
  apply loadDevices_skip_line ft now hour0 minute0 devices before after _ hb
  · simp only [List.mem_append, List.mem_cons, not_or]
    exact ⟨hn, by decide, showInt_no_newline _, by decide, showInt_no_newline _, by decide, hs⟩
  · rw [recordType_append]
    exact ht

/-- C6 (witness): the file with the thermostat "Hall" followed by its schedule
record `Hall|7|30|ON`. -/
theorem loadDevices_skips_non_records_witness :
    Terminated "THERMOSTAT|Hall|1\n".toList ∧
    loadDevices cxxFloatText
        ("THERMOSTAT|Hall|1\n".toList ++ (scheduleLine "Hall".toList ⟨7, 30, "ON".toList⟩ ++ []))
        0 0 0 []
      = loadLoop cxxFloatText
          ("THERMOSTAT|Hall|1\n".toList ++ (scheduleLine "Hall".toList ⟨7, 30, "ON".toList⟩ ++ []))
          0 0 0 (fileLines "THERMOSTAT|Hall|1\n".toList ++ fileLines []) [] :=
  ⟨Or.inr (by decide),
   (loadDevices_skips_non_records cxxFloatText 0 0 0 [] "THERMOSTAT|Hall|1\n".toList []
      (Or.inr (by decide))).2 "Hall".toList ⟨7, 30, "ON".toList⟩
      (by decide) (by decide) (by decide)⟩

/-- C6 (counterexample): a thermostat named `THERMOSTAT` with the schedule entry
(7, 30, ON) writes the schedule record `THERMOSTAT|7|30|ON`; `loadDevices`
creates a thermostat named `7` from that line. -/
theorem loadDevices_reads_schedule_record_as_device :
    saveScheduleToFile [] "THERMOSTAT".toList [⟨7, 30, "ON".toList⟩]
      = "THERMOSTAT|7|30|ON\n".toList
    ∧ loadDevices cxxFloatText "THERMOSTAT|7|30|ON\n".toList 0 0 0 []
      = .ok [.thermostat ⟨⟨"7".toList, false, 0, false, false⟩, []⟩] := by
  decide

/-! ## Saving and loading without a sensor -/

theorem showBool_no_newline (b : Bool) : '\n' ∉ showBool b := by
  cases b <;> decide

theorem serialize_no_newline (ft : FloatText) (d : Device) (hs : d.isSensor = false)
    (h : d.storable ft) : '\n' ∉ d.serialize ft := by
  obtain ⟨_, hn, _, hp⟩ := h
  cases d with
  | sensor x => cases hs
  | light x =>
    simp only [Device.serialize, light_serialize_eq, List.mem_append, List.mem_cons, not_or]
    exact ⟨by decide, by decide, hn, by decide, showBool_no_newline _, by decide,
      showInt_no_newline _⟩
  | speaker x =>
    simp only [Device.serialize, speaker_serialize_eq, List.mem_append, List.mem_cons, not_or]
    exact ⟨by decide, by decide, hn, by decide, showBool_no_newline _, by decide,
      showInt_no_newline _, by decide, showBool_no_newline _⟩
  | thermostat x =>
    simp only [Device.serialize, thermostat_serialize_eq, List.mem_append, List.mem_cons, not_or]
    exact ⟨by decide, by decide, hn, by decide, showBool_no_newline _⟩
  | plug x =>
    simp only [Device.serialize, plug_serialize_eq, List.mem_append, List.mem_cons, not_or]
    exact ⟨by decide, by decide, hn, by decide, showBool_no_newline _, by decide, hp.2.1⟩
  | radiator x =>
    simp only [Device.serialize, radiator_serialize_eq, List.mem_append, List.mem_cons, not_or]
    exact ⟨by decide, by decide, hn, by decide, showBool_no_newline _⟩

theorem recordType_tag (tag r : Text) (h : '|' ∉ tag) : recordType (tag ++ '|' :: r) = tag := by
  unfold recordType IStream.ofText
  rw [getline_split _ _ _ _ h]

/-- One line written by `saveDevices` for a device that is not a sensor: the
loop of `loadDevices` creates a device from it that agrees with the one saved. -/
theorem load_serialized_line (ft : FloatText) (file : Text) (now hour0 minute0 : Int)
    (d : Device) (hs : d.isSensor = false) (h : d.storable ft) :
    ∃ fresh d', makeDevice file now hour0 minute0 (recordType (d.serialize ft)) = some fresh ∧
      fresh.deserialize ft (d.serialize ft) = .ok d' ∧ d'.restoredEq d := by
  obtain ⟨hn, _, hi, hp⟩ := h
  cases d with
  | sensor x => cases hs
  | light x =>
    refine ⟨.light (SmartLight.new []), .light { SmartLight.new [] with
      name := x.name, isOn := x.isOn, brightness := x.brightness }, ?_, ?_, ⟨rfl, rfl, rfl⟩⟩
    · simp only [Device.serialize, light_serialize_eq]
      rw [recordType_tag _ _ (by decide)]
      rfl
    · simp only [Device.deserialize, Device.serialize,
        light_deserialize_serialize _ x hn hi.1 hi.2, Except.map]
  | speaker x =>
    refine ⟨.speaker (SmartSpeaker.new []), .speaker { SmartSpeaker.new [] with
      name := x.name, isOn := x.isOn, volume := x.volume, isPlaying := x.isPlaying },
      ?_, ?_, ⟨rfl, rfl, rfl, rfl⟩⟩
    · simp only [Device.serialize, speaker_serialize_eq]
      rw [recordType_tag _ _ (by decide)]
      rfl
    · simp only [Device.deserialize, Device.serialize,
        speaker_deserialize_serialize _ x hn hi.1 hi.2, Except.map]
  | thermostat x =>
    refine ⟨.thermostat (Thermostat.new file hour0 minute0 []),
      .thermostat { Thermostat.new file hour0 minute0 [] with name := x.name, isOn := x.isOn },
      ?_, ?_, ⟨rfl, rfl⟩⟩
    · simp only [Device.serialize, thermostat_serialize_eq]
      rw [recordType_tag _ _ (by decide)]
      rfl
    · simp only [Device.deserialize, Device.serialize,
        thermostat_deserialize_serialize _ x hn, Except.map]
  | radiator x =>
    refine ⟨.radiator (RadiatorValve.new file hour0 minute0 []),
      .radiator { RadiatorValve.new file hour0 minute0 [] with name := x.name, isOn := x.isOn },
      ?_, ?_, ⟨rfl, rfl⟩⟩
    · simp only [Device.serialize, radiator_serialize_eq]
      rw [recordType_tag _ _ (by decide)]
      rfl
    · simp only [Device.deserialize, Device.serialize,
        radiator_deserialize_serialize _ x hn, Except.map]
  | plug x =>
    obtain ⟨hp1, _, y, hy⟩ := hp
    refine ⟨.plug (SmartPlug.new file now hour0 minute0 []),
      .plug { SmartPlug.new file now hour0 minute0 [] with
        name := x.name, isOn := x.isOn, totalEnergy := y }, ?_, ?_, ⟨rfl, rfl⟩⟩
    · simp only [Device.serialize, plug_serialize_eq]
      rw [recordType_tag _ _ (by decide)]
      rfl
    · simp only [Device.deserialize, Device.serialize, plug_serialize_eq]
      have hn' : '|' ∉ x.name := hn
      rw [plug_deserialize_four ft _ "PLUG".toList x.name (showBool x.isOn) (ft.put x.totalEnergy)
        (by decide) hn' (showBool_no_pipe _) hp1, hy]
      simp only [showBool_eq_one, Except.map]

theorem loadLoop_serialized (ft : FloatText) (file : Text) (now hour0 minute0 : Int)
    (devices acc : List Device) (hs : ∀ d ∈ devices, d.isSensor = false)
    (h : ∀ d ∈ devices, d.storable ft) :
    ∃ ds, loadLoop ft file now hour0 minute0 (devices.map (Device.serialize ft)) acc
        = .ok (acc ++ ds) ∧ List.Forall₂ Device.restoredEq ds devices := by
  induction devices generalizing acc with
  | nil => exact ⟨[], by simp [loadLoop], List.Forall₂.nil⟩
  | cons d rest ih =>
    obtain ⟨fresh, d', h1, h2, h3⟩ := load_serialized_line ft file now hour0 minute0 d
      (hs d (List.mem_cons_self _ _)) (h d (List.mem_cons_self _ _))
    obtain ⟨ds, h4, h5⟩ := ih (acc ++ [d']) (fun x hx => hs x (List.mem_cons_of_mem _ hx))
      (fun x hx => h x (List.mem_cons_of_mem _ hx))
    refine ⟨d' :: ds, ?_, List.Forall₂.cons h3 h5⟩
    rw [List.map_cons, loadLoop, h1]
    dsimp only
    rw [h2]
    dsimp only
    rw [h4, List.append_assoc, List.singleton_append]

theorem fileLines_saveDevices (ft : FloatText) (devices : List Device)
    (hs : ∀ d ∈ devices, d.isSensor = false) (h : ∀ d ∈ devices, d.storable ft) :
    fileLines (saveDevices ft devices) = devices.map (Device.serialize ft) := by
  induction devices with
  | nil => exact fileLines_nil
  | cons d rest ih =>
    have hd := serialize_no_newline ft d (hs d (List.mem_cons_self _ _))
      (h d (List.mem_cons_self _ _))
    have : saveDevices ft (d :: rest) = d.serialize ft ++ '\n' :: saveDevices ft rest := by
      simp [saveDevices]
    rw [this, fileLines_cons _ _ hd, ih (fun x hx => hs x (List.mem_cons_of_mem _ hx))
      (fun x hx => h x (List.mem_cons_of_mem _ hx)), List.map_cons]

/-- Saving and loading when no sensor is involved: a registry without
`TempHumiditySensor`, all of whose devices are storable, comes back from
`saveDevices` followed by `loadDevices` (into an empty registry) with the same
number of devices, in the same order, each of the same class with the same
name, on-flag, brightness, volume and `isPlaying`. -/
theorem saveDevices_loadDevices_without_sensor (ft : FloatText) (now hour0 minute0 : Int)
    (devices : List Device) (hs : ∀ d ∈ devices, d.isSensor = false)
    (h : ∀ d ∈ devices, d.storable ft) :
    ∃ ds, loadDevices ft (saveDevices ft devices) now hour0 minute0 [] = .ok ds ∧
      List.Forall₂ Device.restoredEq ds devices := by
  unfold loadDevices
  rw [fileLines_saveDevices ft devices hs h]
  obtain ⟨ds, h1, h2⟩ := loadLoop_serialized ft (saveDevices ft devices) now hour0 minute0
    devices [] hs h
  exact ⟨ds, by rw [h1, List.nil_append], h2⟩

/-! ## Rounding to `float` -/

theorem roundTiesEven_floor_le (x : ℚ) : ⌊x⌋ ≤ roundTiesEven x := by
  unfold roundTiesEven
  split_ifs <;> omega

theorem roundTiesEven_le_floor_succ (x : ℚ) : roundTiesEven x ≤ ⌊x⌋ + 1 := by
  unfold roundTiesEven
  split_ifs <;> omega

theorem roundTiesEven_intCast (k : Int) : roundTiesEven (k : ℚ) = k := by
  unfold roundTiesEven
  simp

theorem roundTiesEven_mono {x y : ℚ} (h : x ≤ y) : roundTiesEven x ≤ roundTiesEven y := by
  have hf : ⌊x⌋ ≤ ⌊y⌋ := Int.floor_mono h
  rcases lt_or_eq_of_le hf with hlt | heq
  · calc roundTiesEven x ≤ ⌊x⌋ + 1 := roundTiesEven_le_floor_succ x
      _ ≤ ⌊y⌋ := hlt
      _ ≤ roundTiesEven y := roundTiesEven_floor_le y
  · unfold roundTiesEven
    rw [heq]
    have hxy : x - ⌊y⌋ ≤ y - ⌊y⌋ := by linarith
    split_ifs <;> first
      | omega
      | (exfalso; linarith)

theorem two_zpow_pos (z : Int) : (0 : ℚ) < 2 ^ z := zpow_pos (by norm_num) z

theorem two_zpow_grid (e : Int) (n : Nat) :
    (2 : ℚ) ^ (e - 23 + n) = (((2 : Int) ^ n : Int) : ℚ) * 2 ^ (e - 23) := by
  rw [zpow_add₀ (by norm_num), zpow_natCast]
  push_cast
  ring

theorem roundAt_mono (e : Int) {x y : ℚ} (h : x ≤ y) : roundAt e x ≤ roundAt e y := by
  unfold roundAt
  have hu := two_zpow_pos (e - 23)
  have hd : x / 2 ^ (e - 23) ≤ y / 2 ^ (e - 23) := div_le_div_of_nonneg_right h hu.le
  have hr := roundTiesEven_mono hd
  exact mul_le_mul_of_nonneg_right (by exact_mod_cast hr) hu.le

theorem roundAt_grid (e : Int) (k : Int) :
    roundAt e ((k : ℚ) * 2 ^ (e - 23)) = (k : ℚ) * 2 ^ (e - 23) := by
  unfold roundAt
  rw [mul_div_cancel_right₀ _ (two_zpow_pos (e - 23)).ne', roundTiesEven_intCast]

theorem roundAt_le_grid (e : Int) (k : Int) {x : ℚ} (h : x ≤ (k : ℚ) * 2 ^ (e - 23)) :
    roundAt e x ≤ (k : ℚ) * 2 ^ (e - 23) := by
  rw [← roundAt_grid e k]
  exact roundAt_mono e h

theorem grid_le_roundAt (e : Int) (k : Int) {x : ℚ} (h : (k : ℚ) * 2 ^ (e - 23) ≤ x) :
    (k : ℚ) * 2 ^ (e - 23) ≤ roundAt e x := by
  rw [← roundAt_grid e k]
  exact roundAt_mono e h

theorem roundFloat_zero : roundFloat 0 = 0 := by
  simp [roundFloat, roundAt, roundTiesEven]

theorem floatExponent_ge (x : ℚ) : -126 ≤ floatExponent x := le_max_right _ _

theorem abs_lt_floatExponent (x : ℚ) : |x| < 2 ^ (floatExponent x + 1) := by
  have h1 : |x| < ((2 : Nat) : ℚ) ^ (Int.log 2 |x| + 1) := Int.lt_zpow_succ_log_self (show 1 < 2 by norm_num) _
  have h2 : ((2 : Nat) : ℚ) ^ (Int.log 2 |x| + 1) ≤ (2 : ℚ) ^ (floatExponent x + 1) := by
    push_cast
    exact zpow_le_zpow_right₀ (by norm_num) (by unfold floatExponent; omega)
  exact lt_of_lt_of_le h1 h2

theorem floatExponent_le_abs (x : ℚ) (hx : x ≠ 0) (h : -126 < floatExponent x) :
    (2 : ℚ) ^ floatExponent x ≤ |x| := by
  have he : floatExponent x = Int.log 2 |x| := by
    unfold floatExponent at h ⊢
    omega
  rw [he]
  have := Int.zpow_log_le_self (show 1 < 2 by norm_num) (abs_pos.2 hx)
  exact_mod_cast this

theorem floatExponent_mono {x y : ℚ} (hx : x ≠ 0) (h : |x| ≤ |y|) :
    floatExponent x ≤ floatExponent y := by
  unfold floatExponent
  exact max_le_max (Int.log_mono_right (abs_pos.2 hx) h) (le_refl _)

theorem floatExponent_eq (x : ℚ) (e : Int) (he : -126 ≤ e) (h1 : (2 : ℚ) ^ e ≤ |x|)
    (h2 : |x| < 2 ^ (e + 1)) : floatExponent x = e := by
  have hpos : 0 < |x| := lt_of_lt_of_le (two_zpow_pos e) h1
  have hl1 : e ≤ Int.log 2 |x| :=
    (Int.zpow_le_iff_le_log (show 1 < 2 by norm_num) hpos).1 (by exact_mod_cast h1)
  have hl2 : Int.log 2 |x| < e + 1 :=
    (Int.lt_zpow_iff_log_lt (show 1 < 2 by norm_num) hpos).1 (by exact_mod_cast h2)
  unfold floatExponent
  omega

theorem roundFloat_nonneg {x : ℚ} (h : 0 ≤ x) : 0 ≤ roundFloat x := by
  have h0 : ((0 : Int) : ℚ) * 2 ^ (floatExponent x - 23) ≤ x := by simpa using h
  have := grid_le_roundAt _ _ h0
  simpa [roundFloat] using this

theorem roundFloat_nonpos {x : ℚ} (h : x ≤ 0) : roundFloat x ≤ 0 := by
  have h0 : x ≤ ((0 : Int) : ℚ) * 2 ^ (floatExponent x - 23) := by simpa using h
  have := roundAt_le_grid _ _ h0
  simpa [roundFloat] using this

theorem roundFloat_le_pow (x : ℚ) : roundFloat x ≤ 2 ^ (floatExponent x + 1) := by
  have h := (le_abs_self x).trans (abs_lt_floatExponent x).le
  have e : floatExponent x + 1 = floatExponent x - 23 + (24 : Nat) := by push_cast; ring
  rw [e, two_zpow_grid] at h ⊢
  exact roundAt_le_grid _ _ h

theorem neg_pow_le_roundFloat (x : ℚ) : -(2 ^ (floatExponent x + 1) : ℚ) ≤ roundFloat x := by
  have h : -(2 ^ (floatExponent x + 1) : ℚ) ≤ x :=
    (neg_le_neg (abs_lt_floatExponent x).le).trans (neg_abs_le x)
  have e : floatExponent x + 1 = floatExponent x - 23 + (24 : Nat) := by push_cast; ring
  rw [e, two_zpow_grid, ← neg_mul, ← Int.cast_neg] at h ⊢
  exact grid_le_roundAt _ _ h

theorem pow_le_roundFloat {x : ℚ} (hx : 0 < x) (h : -126 < floatExponent x) :
    (2 : ℚ) ^ floatExponent x ≤ roundFloat x := by
  have h1 := floatExponent_le_abs x hx.ne' h
  rw [abs_of_pos hx] at h1
  have e : floatExponent x = floatExponent x - 23 + (23 : Nat) := by push_cast; ring
  rw [e, two_zpow_grid] at h1
  have h2 := grid_le_roundAt _ _ h1
  rw [← two_zpow_grid, ← e] at h2
  exact h2

theorem roundFloat_le_neg_pow {x : ℚ} (hx : x < 0) (h : -126 < floatExponent x) :
    roundFloat x ≤ -(2 : ℚ) ^ floatExponent x := by
  have h1 := floatExponent_le_abs x hx.ne h
  rw [abs_of_neg hx] at h1
  have h1' : x ≤ -(2 : ℚ) ^ floatExponent x := by linarith
  have e : floatExponent x = floatExponent x - 23 + (23 : Nat) := by push_cast; ring
  rw [e, two_zpow_grid, ← neg_mul, ← Int.cast_neg] at h1'
  have h2 := roundAt_le_grid _ _ h1'
  rw [Int.cast_neg, neg_mul, ← two_zpow_grid, ← e] at h2
  exact h2

/-- Rounding to `float` is monotone. -/
theorem roundFloat_mono {x y : ℚ} (h : x ≤ y) : roundFloat x ≤ roundFloat y := by
  rcases lt_trichotomy 0 x with hx | hx | hx
  · -- both positive
    have hy : 0 < y := lt_of_lt_of_le hx h
    have hexp : floatExponent x ≤ floatExponent y :=
      floatExponent_mono hx.ne' (by rw [abs_of_pos hx, abs_of_pos hy]; exact h)
    rcases lt_or_eq_of_le hexp with hlt | heq
    · calc roundFloat x ≤ 2 ^ (floatExponent x + 1) := roundFloat_le_pow x
        _ ≤ 2 ^ floatExponent y := zpow_le_zpow_right₀ (by norm_num) (by omega)
        _ ≤ roundFloat y := pow_le_roundFloat hy (by have := floatExponent_ge x; omega)
    · unfold roundFloat
      rw [heq]
      exact roundAt_mono _ h
  · subst hx
    rw [roundFloat_zero]
    exact roundFloat_nonneg h
  · rcases lt_or_le y 0 with hy | hy
    · -- both negative
      have hexp : floatExponent y ≤ floatExponent x :=
        floatExponent_mono hy.ne (by rw [abs_of_neg hx, abs_of_neg hy]; linarith)
      rcases lt_or_eq_of_le hexp with hlt | heq
      · calc roundFloat x ≤ -(2 : ℚ) ^ floatExponent x :=
              roundFloat_le_neg_pow hx (by have := floatExponent_ge y; omega)
          _ ≤ -(2 ^ (floatExponent y + 1) : ℚ) :=
              neg_le_neg (zpow_le_zpow_right₀ (by norm_num) (by omega))
          _ ≤ roundFloat y := neg_pow_le_roundFloat y
      · unfold roundFloat
        rw [heq]
        exact roundAt_mono _ h
    · exact (roundFloat_nonpos hx.le).trans (roundFloat_nonneg hy)

/-- A number with a mantissa of at most 24 bits and an exponent that the format
has is a value of type `float`. -/
theorem roundFloat_of_mantissa (m s : Int) (hm : |m| ≤ 2 ^ 24) (hs : -149 ≤ s) :
    roundFloat ((m : ℚ) * 2 ^ s) = (m : ℚ) * 2 ^ s := by
  by_cases hm0 : m = 0
  · subst hm0
    simp [roundFloat_zero]
  have hx0 : (m : ℚ) * 2 ^ s ≠ 0 :=
    mul_ne_zero (by exact_mod_cast hm0) (two_zpow_pos s).ne'
  have key : ∃ k : Int, (m : ℚ) * 2 ^ s = (k : ℚ) * 2 ^ (floatExponent ((m : ℚ) * 2 ^ s) - 23) := by
    generalize he : floatExponent ((m : ℚ) * 2 ^ s) = e
    by_cases hle : e - 23 ≤ s
    · refine ⟨m * 2 ^ (s - (e - 23)).toNat, ?_⟩
      have hs' : s = e - 23 + ((s - (e - 23)).toNat : Int) := by
        rw [Int.toNat_of_nonneg (by omega)]; ring
      conv_lhs => rw [hs', two_zpow_grid]
      push_cast
      ring
    · have hgt : -126 < floatExponent ((m : ℚ) * 2 ^ s) := by rw [he]; omega
      have h1 := floatExponent_le_abs _ hx0 hgt
      rw [he, abs_mul, abs_of_pos (two_zpow_pos s)] at h1
      have hmq : (|(m : ℚ)|) ≤ 2 ^ 24 := by exact_mod_cast hm
      have h2 : (2 : ℚ) ^ e ≤ 2 ^ (s + 24) := by
        calc (2 : ℚ) ^ e ≤ |(m : ℚ)| * 2 ^ s := h1
          _ ≤ 2 ^ 24 * 2 ^ s := mul_le_mul_of_nonneg_right hmq (two_zpow_pos s).le
          _ = 2 ^ (s + 24) := by
            rw [zpow_add₀ (by norm_num : (2 : ℚ) ≠ 0)]
            norm_num
            ring
      have h3 : e ≤ s + 24 := (zpow_le_zpow_iff_right₀ (by norm_num : (1 : ℚ) < 2)).1 h2
      have he' : e = s + 24 := by omega
      subst he'
      have h4 : (2 : ℚ) ^ 24 ≤ |(m : ℚ)| := by
        have h5 : (2 : ℚ) ^ (s + 24) = 2 ^ 24 * 2 ^ s := by
          rw [zpow_add₀ (by norm_num : (2 : ℚ) ≠ 0)]
          norm_num
          ring
        rw [h5] at h1
        exact le_of_mul_le_mul_right h1 (two_zpow_pos s)
      have h6 : (2 : Int) ^ 24 ≤ |m| := by exact_mod_cast h4
      have h7 : |m| = 2 ^ 24 := le_antisymm hm h6
      have h8 : (2 : ℚ) ^ (s + 24 - 23) = 2 * 2 ^ s := by
        rw [show s + 24 - 23 = s + 1 by ring, zpow_add₀ (by norm_num : (2 : ℚ) ≠ 0)]
        norm_num
        ring
      rcases abs_eq (by norm_num : (0 : Int) ≤ 2 ^ 24) |>.1 h7 with h | h
      · refine ⟨2 ^ 23, ?_⟩
        rw [h, h8]
        push_cast
        ring
      · refine ⟨-2 ^ 23, ?_⟩
        rw [h, h8]
        push_cast
        ring
  obtain ⟨k, hk⟩ := key
  unfold roundFloat
  have h := roundAt_grid (floatExponent ((m : ℚ) * 2 ^ s)) k
  rw [← hk] at h
  exact h

theorem isFloatValue_int (k : Int) (h : |k| ≤ 2 ^ 24) : IsFloatValue (k : ℚ) := by
  have := roundFloat_of_mantissa k 0 h (by norm_num)
  simpa [IsFloatValue] using this

theorem roundTiesEven_of_lt_half (k : Int) (x : ℚ) (h1 : (k : ℚ) ≤ x) (h2 : x - k < 1 / 2) :
    roundTiesEven x = k := by
  have hf : ⌊x⌋ = k := Int.floor_eq_iff.2 ⟨h1, by linarith⟩
  unfold roundTiesEven
  rw [hf, if_pos h2]

/-- The largest finite `float` plus `2 ^ 63` is rounded to the largest finite
`float`. -/
theorem roundFloat_flt_max_add : roundFloat ((FLT_MAX : ℚ) + 2 ^ 63) = (FLT_MAX : ℚ) := by
  have hv : (FLT_MAX : ℚ) = (2 ^ 24 - 1) * 2 ^ 104 := by
    unfold FLT_MAX
    norm_num
  have he : floatExponent ((FLT_MAX : ℚ) + 2 ^ 63) = 127 := by
    apply floatExponent_eq _ 127 (by norm_num)
    · rw [hv, abs_of_pos (by norm_num)]; norm_num
    · rw [hv, abs_of_pos (by norm_num)]; norm_num
  unfold roundFloat roundAt
  rw [he, roundTiesEven_of_lt_half (2 ^ 24 - 1) _ (by rw [hv]; norm_num) (by rw [hv]; norm_num),
    hv]
  norm_num

/-- No overflow: the sum of a finite `float` and an amount between `0` and
`2 ^ 63` (half of a clock difference of 64 bits) is rounded to a finite
`float`. -/
theorem roundFloat_add_finite (total inc : ℚ) (ht : |total| ≤ (FLT_MAX : ℚ)) (h0 : 0 ≤ inc)
    (h1 : inc ≤ 2 ^ 63) : |roundFloat (total + inc)| ≤ (FLT_MAX : ℚ) := by
  rw [abs_le] at ht ⊢
  constructor
  · have hm : roundFloat (-(FLT_MAX : ℚ)) = -(FLT_MAX : ℚ) := by
      have := roundFloat_of_mantissa (-(2 ^ 24 - 1)) 104 (by norm_num) (by norm_num)
      have hv : ((-(2 ^ 24 - 1) : Int) : ℚ) * 2 ^ (104 : Int) = -(FLT_MAX : ℚ) := by
        unfold FLT_MAX
        norm_num
      rw [hv] at this
      exact this
    rw [← hm]
    exact roundFloat_mono (by linarith)
  · rw [← roundFloat_flt_max_add]
    exact roundFloat_mono (by linarith)

/-! ## C7: toggling off -/

/-- C7 (the failing input): the plug "Kettle" and the sensor "Attic" are on, last
accounted at time 0; toggled off at time 10 they are off with `totalEnergy` still
0 and an empty energy log, while a recomputation at time 10 before the toggle
would have added 5 and logged the entry (5, 10): `oneClickAction` clears `isOn`
before it calls the recomputation, which does nothing for a device that is off. -/
theorem toggle_off_records_no_energy :
    ((kettle.oneClickAction 10).isOn = false ∧ (kettle.oneClickAction 10).totalEnergy = 0
      ∧ (kettle.oneClickAction 10).historicUsage = [])
    ∧ ((attic.oneClickAction 10).isOn = false ∧ (attic.oneClickAction 10).totalEnergy = 0
      ∧ (attic.oneClickAction 10).historicUsage = [])
    ∧ ((kettle.updateHistoricData 10).totalEnergy = 5
      ∧ (kettle.updateHistoricData 10).historicUsage = [⟨5, 10⟩])
    ∧ ((attic.updateEnergyUsage 10).totalEnergy = 5
      ∧ (attic.updateEnergyUsage 10).historicUsage = [⟨5, 10⟩]) := by
  have h5 : roundFloat 5 = 5 := isFloatValue_int 5 (by norm_num)
  refine ⟨by decide, by decide, ?_, ?_⟩
  · norm_num [SmartPlug.updateHistoricData, kettle, h5]
  · norm_num [TempHumiditySensor.updateEnergyUsage, attic, h5]

/-! ## C8: recomputations while the device stays on -/

theorem energy_amount_bounds (t last : Int) (hle : last ≤ t) (h64 : t - last ≤ 2 ^ 64) :
    0 ≤ roundFloat ((1 / 2) * ((t - last : Int) : ℚ)) ∧
    roundFloat ((1 / 2) * ((t - last : Int) : ℚ)) ≤ 2 ^ 63 := by
  have h0 : (0 : ℚ) ≤ ((t - last : Int) : ℚ) := Int.cast_nonneg.mpr (by omega)
  have h1 : ((t - last : Int) : ℚ) ≤ 2 ^ 64 := by exact_mod_cast h64
  refine ⟨roundFloat_nonneg (by positivity), ?_⟩
  have hp : roundFloat ((2 : ℚ) ^ 63) = 2 ^ 63 := by
    have := roundFloat_of_mantissa 1 63 (by norm_num) (by norm_num)
    norm_num at this
    exact this
  rw [← hp]
  exact roundFloat_mono (by linarith)

/-- With clock readings of 64 bits no recomputation of a plug leaves the finite
values of type `float`. -/
theorem plug_update_finite (d : SmartPlug) (t : Int) (hfin : |d.totalEnergy| ≤ (FLT_MAX : ℚ))
    (hle : d.lastUpdateTime ≤ t) (h64 : t - d.lastUpdateTime ≤ 2 ^ 64) :
    |(d.updateHistoricData t).totalEnergy| ≤ (FLT_MAX : ℚ) := by
  obtain ⟨b0, b1⟩ := energy_amount_bounds t d.lastUpdateTime hle h64
  unfold SmartPlug.updateHistoricData
  simp only
  split
  · exact roundFloat_add_finite _ _ hfin b0 b1
  · exact hfin

/-- With clock readings of 64 bits no recomputation of a sensor leaves the finite
values of type `float`. -/
theorem sensor_update_finite (d : TempHumiditySensor) (t : Int)
    (hfin : |d.totalEnergy| ≤ (FLT_MAX : ℚ)) (hle : d.lastUpdateTime ≤ t)
    (h64 : t - d.lastUpdateTime ≤ 2 ^ 64) :
    |(d.updateEnergyUsage t).totalEnergy| ≤ (FLT_MAX : ℚ) := by
  obtain ⟨b0, b1⟩ := energy_amount_bounds t d.lastUpdateTime hle h64
  unfold TempHumiditySensor.updateEnergyUsage
  simp only
  split
  · exact roundFloat_add_finite _ _ hfin b0 b1
  · exact hfin

theorem light_menu_brightness (d : SmartLight) (choice : Int) (cin : IStream) (uninit : Int)
    (r : MenuResult SmartLight) (h : d.handleMenuChoice choice cin uninit = some r) :
    r.device.brightness = d.brightness ∨
      (0 ≤ r.device.brightness ∧ r.device.brightness ≤ 100) := by
  simp only [SmartLight.handleMenuChoice] at h
  split_ifs at h <;> (try split at h) <;> (try cases h) <;>
    first
    | (left; rfl)
    | (left; simp only [SmartLight.oneClickAction]; split <;> rfl)
    | (right; exact ⟨le_max_left _ _, max_le (by decide) (min_le_left _ _)⟩)

theorem speaker_menu_volume (d : SmartSpeaker) (choice : Int) (cin : IStream) (uninit : Int)
    (r : MenuResult SmartSpeaker) (h : d.handleMenuChoice choice cin uninit = some r) :
    r.device.volume = d.volume ∨ (0 ≤ r.device.volume ∧ r.device.volume ≤ 100) := by
  simp only [SmartSpeaker.handleMenuChoice] at h
  split_ifs at h <;> (try cases h) <;>
    first
    | (left; rfl)
    | (right; exact ⟨le_max_left _ _, max_le (by decide) (min_le_left _ _)⟩)

/-- C9 (as amended): in every state of a light or speaker reached from
construction by toggles, menu choices with any input (among them the brightness
and volume assignment) and `deserialize` of records whose brightness or volume
field converts to a value in [0, 100], brightness and volume lie in [0, 100].
Every record that `serialize` wrote for a device in that range whose name has
no `|` is such a record: `deserialize` reads the same brightness or volume. -/
theorem brightness_volume_in_range :
    (∀ d : SmartLight, SmartLight.Reachable d → 0 ≤ d.brightness ∧ d.brightness ≤ 100) ∧
    (∀ d : SmartSpeaker, SmartSpeaker.Reachable d → 0 ≤ d.volume ∧ d.volume ≤ 100) ∧
    (∀ x d : SmartLight, '|' ∉ d.name → 0 ≤ d.brightness → d.brightness ≤ 100 →
      ∃ d', x.deserialize d.serialize = .ok d' ∧ d'.brightness = d.brightness) ∧
    (∀ x d : SmartSpeaker, '|' ∉ d.name → 0 ≤ d.volume → d.volume ≤ 100 →
      ∃ d', x.deserialize d.serialize = .ok d' ∧ d'.volume = d.volume) := by
  refine ⟨?_, ?_, ?_, ?_⟩
  · intro d hd
    induction hd with
    | new name =>
      show (0 : Int) ≤ 100 ∧ (100 : Int) ≤ 100
      decide
    | toggle _ ih =>
      simp only [SmartLight.oneClickAction]
      split <;> exact ih
    | menu choice cin uninit _ hm ih =>
      rcases light_menu_brightness _ choice cin uninit _ hm with h | h
      · rw [h]; exact ih
      · exact h
    | load data _ _ h1 h2 _ => exact ⟨h1, h2⟩
  · intro d hd
    induction hd with
    | new name =>
      show (0 : Int) ≤ 50 ∧ (50 : Int) ≤ 100
      decide
    | toggle _ ih => exact ih
    | menu choice cin uninit _ hm ih =>
      rcases speaker_menu_volume _ choice cin uninit _ hm with h | h
      · rw [h]; exact ih
      · exact h
    | load data _ _ h1 h2 _ => exact ⟨h1, h2⟩
  · intro x d hn h0 h100
    have h1 : INT_MIN ≤ d.brightness := le_trans (by decide) h0
    have h2 : d.brightness ≤ INT_MAX := le_trans h100 (by decide)
    exact ⟨_, light_deserialize_serialize x d hn h1 h2, rfl⟩
  · intro x d hn h0 h100
    have h1 : INT_MIN ≤ d.volume := le_trans (by decide) h0
    have h2 : d.volume ≤ INT_MAX := le_trans h100 (by decide)
    exact ⟨_, speaker_deserialize_serialize x d hn h1 h2, rfl⟩

/-- C9 (counterexample): `deserialize` stores the converted field as it is: the
record `LIGHT|x|1|500` leaves a newly constructed light with brightness 500 and
the record `SPEAKER|x|1|-5|0` a newly constructed speaker with volume -5. -/
theorem deserialize_stores_out_of_range :
    (SmartLight.new []).deserialize "LIGHT|x|1|500".toList
      = .ok ⟨⟨"x".toList, true, 0, false, false⟩, 500⟩
    ∧ ¬ ((500 : Int) ≤ 100)
    ∧ (SmartSpeaker.new []).deserialize "SPEAKER|x|1|-5|0".toList
      = .ok ⟨⟨"x".toList, true, 0, false, false⟩, -5, false⟩
    ∧ ¬ ((0 : Int) ≤ -5) := by
  decide

/-- C9 (witness): a light "Lamp" after the menu choice 2 with the input `150`
(brightness 100), and a speaker after `deserialize` of `SPEAKER|Radio|1|30|1`
(volume 30). -/
theorem brightness_volume_in_range_witness :
    (0 ≤ (⟨⟨"Lamp".toList, false, 0, false, false⟩, 100⟩ : SmartLight).brightness ∧
      (⟨⟨"Lamp".toList, false, 0, false, false⟩, 100⟩ : SmartLight).brightness ≤ 100) ∧
    (0 ≤ (⟨⟨"Radio".toList, true, 0, false, false⟩, 30, true⟩ : SmartSpeaker).volume ∧
      (⟨⟨"Radio".toList, true, 0, false, false⟩, 30, true⟩ : SmartSpeaker).volume ≤ 100) :=
  ⟨brightness_volume_in_range.1 _
      (SmartLight.Reachable.menu 2 (IStream.ofText "150\n".toList) 0
        (SmartLight.Reachable.new "Lamp".toList) rfl),
   brightness_volume_in_range.2.1 _
      (SmartSpeaker.Reachable.load "SPEAKER|Radio|1|30|1".toList
        (SmartSpeaker.Reachable.new []) (by decide) (by decide) (by decide))⟩

theorem extractInt_showInt (v : Int) (ws rest : Text) (x : Int)
    (hws : ∀ c ∈ ws, isSpace c = true) (hr : ∀ c ∈ rest.head?, c.isDigit = false) :
    ∃ f, extractInt ⟨ws ++ (showInt v ++ rest), false, false⟩ x
      = (⟨rest, rest.isEmpty, f⟩, saturate v) := by
  have hdrop : (ws ++ (showInt v ++ rest)).dropWhile isSpace = showInt v ++ rest :=
    dropWhile_all ws _ hws (showInt_head_not_space v rest)
  obtain ⟨c, cs, hcs⟩ : ∃ c cs, showInt v ++ rest = c :: cs := by
    cases h : showInt v ++ rest with
    | nil =>
      have := showInt_ne_nil v
      simp only [List.append_eq_nil] at h
      exact absurd h.1 this
    | cons c cs => exact ⟨c, cs, rfl⟩
  obtain ⟨neg, r, h1, h2, h3, h4⟩ := scan_showInt v rest hr
  rw [hcs] at h1 hdrop
  have h2' : (r.takeWhile Char.isDigit).isEmpty = false := by
    cases h : r.takeWhile Char.isDigit with
    | nil => exact absurd h h2
    | cons _ _ => rfl
  rw [hcs]
  simp only [extractInt, IStream.good, Bool.not_false, Bool.and_self, if_true, hdrop, h1, h2',
    h3, h4, Bool.false_eq_true, if_false]
  unfold saturate
  by_cases hmax : INT_MAX < v
  · refine ⟨true, ?_⟩
    rw [if_pos hmax, min_eq_left (le_of_lt hmax), max_eq_right (by decide)]
  · by_cases hmin : v < INT_MIN
    · refine ⟨true, ?_⟩
      rw [if_neg hmax, if_pos hmin, min_eq_right (not_lt.mp hmax), max_eq_left (le_of_lt hmin)]
    · refine ⟨false, ?_⟩
      rw [if_neg hmax, if_neg hmin, min_eq_right (not_lt.mp hmax), max_eq_right (not_lt.mp hmin)]

theorem clamp_saturate (v : Int) : max 0 (min 100 (saturate v)) = max 0 (min 100 v) := by
  unfold saturate INT_MIN INT_MAX
  omega

/-- C10: when the decimal text of an integer `v` is entered on `cin` (after any
white space, followed by something that is not a digit, such as the line end),
menu choice 2 of a light stores `max(0, min(100, v))` as brightness and menu
choice 2 of a speaker stores it as volume, and changes no other field of the
device; the value stored is 0 for `v < 0`, 100 for `v > 100` and `v` otherwise. -/
theorem menu_assignment_clamps (v : Int) (ws rest : Text) (uninit : Int)
    (hws : ∀ c ∈ ws, isSpace c = true) (hr : ∀ c ∈ rest.head?, c.isDigit = false) :
    (∀ d : SmartLight, ∃ cin,
      d.handleMenuChoice 2 ⟨ws ++ (showInt v ++ rest), false, false⟩ uninit
        = some ⟨{ d with brightness := max 0 (min 100 v) }, cin, none⟩) ∧
    (∀ d : SmartSpeaker, ∃ cin,
      d.handleMenuChoice 2 ⟨ws ++ (showInt v ++ rest), false, false⟩ uninit
        = some ⟨{ d with volume := max 0 (min 100 v) }, cin, none⟩) ∧
    (v < 0 → max 0 (min 100 v) = 0) ∧ (100 < v → max 0 (min 100 v) = 100) ∧
    (0 ≤ v → v ≤ 100 → max 0 (min 100 v) = v) := by
  refine ⟨fun d => ?_, fun d => ?_, fun h => by omega, fun h => by omega, fun h1 h2 => by omega⟩
  · obtain ⟨f, hf⟩ := extractInt_showInt v ws rest d.brightness hws hr
    refine ⟨⟨rest, rest.isEmpty, f⟩, ?_⟩
    simp only [SmartLight.handleMenuChoice, hf, clamp_saturate]
    rfl
  · obtain ⟨f, hf⟩ := extractInt_showInt v ws rest d.volume hws hr
    refine ⟨⟨rest, rest.isEmpty, f⟩, ?_⟩
    simp only [SmartSpeaker.handleMenuChoice, hf, clamp_saturate]
    rfl

/-- C10 (witness): the input `150` followed by the line end. -/
theorem menu_assignment_clamps_witness :
    (∀ d : SmartLight, ∃ cin,
      d.handleMenuChoice 2 ⟨[] ++ (showInt 150 ++ ['\n']), false, false⟩ 0
        = some ⟨{ d with brightness := max 0 (min 100 150) }, cin, none⟩) ∧
    (∀ d : SmartSpeaker, ∃ cin,
      d.handleMenuChoice 2 ⟨[] ++ (showInt 150 ++ ['\n']), false, false⟩ 0
        = some ⟨{ d with volume := max 0 (min 100 150) }, cin, none⟩) :=
  have h := menu_assignment_clamps 150 [] ['\n'] 0 (by decide) (by decide)
  ⟨h.1, h.2.1⟩

/-! ## C11: adding a schedule entry -/

theorem isSpace_not_digit (c : Char) (h : isSpace c = true) : c.isDigit = false := by
  unfold isSpace at h
  simp only [Bool.or_eq_true, beq_iff_eq] at h
  rcases h with ((((h | h) | h) | h) | h) | h <;> subst h <;> decide

theorem head_space_not_digit (ws rest : Text) (hws : ∀ c ∈ ws, isSpace c = true)
    (hne : ws ≠ []) : ∀ c ∈ (ws ++ rest).head?, c.isDigit = false := by
  cases ws with
  | nil => exact absurd rfl hne
  | cons x xs =>
    intro c hc
    simp only [List.cons_append, List.head?_cons, Option.mem_def, Option.some.injEq] at hc
    subst hc
    exact isSpace_not_digit _ (hws _ (List.mem_cons_self _ _))

/-- The extraction `cin >> value` when the decimal text of `v` is next on the
stream: the value read, and the state bits afterwards. -/
theorem extractInt_text (v : Int) (ws rest : Text) (x : Int)
    (hws : ∀ c ∈ ws, isSpace c = true) (hr : ∀ c ∈ rest.head?, c.isDigit = false) :
    extractInt ⟨ws ++ (showInt v ++ rest), false, false⟩ x
      = (⟨rest, rest.isEmpty, decide (v < INT_MIN ∨ INT_MAX < v)⟩, saturate v) := by
  have hdrop : (ws ++ (showInt v ++ rest)).dropWhile isSpace = showInt v ++ rest :=
    dropWhile_all ws _ hws (showInt_head_not_space v rest)
  obtain ⟨c, cs, hcs⟩ : ∃ c cs, showInt v ++ rest = c :: cs := by
    cases h : showInt v ++ rest with
    | nil =>
      have := showInt_ne_nil v
      simp only [List.append_eq_nil] at h
      exact absurd h.1 this
    | cons c cs => exact ⟨c, cs, rfl⟩
  obtain ⟨neg, r, h1, h2, h3, h4⟩ := scan_showInt v rest hr
  rw [hcs] at h1 hdrop
  have h2' : (r.takeWhile Char.isDigit).isEmpty = false := by
    cases h : r.takeWhile Char.isDigit with
    | nil => exact absurd h h2
    | cons _ _ => rfl
  rw [hcs]
  simp only [extractInt, IStream.good, Bool.not_false, Bool.and_self, if_true, hdrop, h1, h2',
    h3, h4, Bool.false_eq_true, if_false]
  unfold saturate
  by_cases hmax : INT_MAX < v
  · rw [if_pos hmax, min_eq_left (le_of_lt hmax), max_eq_right (by decide)]
    simp [hmax]
  · by_cases hmin : v < INT_MIN
    · rw [if_neg hmax, if_pos hmin, min_eq_right (not_lt.mp hmax), max_eq_left (le_of_lt hmin)]
      simp [hmin]
    · rw [if_neg hmax, if_neg hmin, min_eq_right (not_lt.mp hmax), max_eq_right (not_lt.mp hmin)]
      simp [hmax, hmin]

/-- The extraction of a value of type `int` that is followed by more input: the
stream stays good. -/
theorem extractInt_text_good (v : Int) (ws rest : Text) (x : Int)
    (hws : ∀ c ∈ ws, isSpace c = true) (hr : ∀ c ∈ rest.head?, c.isDigit = false)
    (hne : rest ≠ []) (h1 : INT_MIN ≤ v) (h2 : v ≤ INT_MAX) :
    extractInt ⟨ws ++ (showInt v ++ rest), false, false⟩ x = (⟨rest, false, false⟩, v) := by
  rw [extractInt_text v ws rest x hws hr]
  have hs : saturate v = v := by
    unfold saturate
    rw [min_eq_right h2, max_eq_right h1]
  have he : rest.isEmpty = false := by
    cases rest with
    | nil => exact absurd rfl hne
    | cons _ _ => rfl
  have hd : decide (v < INT_MIN ∨ INT_MAX < v) = false := by
    simp only [decide_eq_false_iff_not, not_or, not_lt]
    exact ⟨h1, h2⟩
  rw [hs, he, hd]

theorem manageScheduleBody_text (name : Text) (schedules : List Schedule) (file : Text)
    (choice0 hour0 minute0 : Int) (stOn : Bool) (hour minute : Int) (ws0 ws1 ws2 rest : Text)
    (h0 : ∀ c ∈ ws0, isSpace c = true)
    (h1 : ∀ c ∈ ws1, isSpace c = true) (n1 : ws1 ≠ [])
    (h2 : ∀ c ∈ ws2, isSpace c = true) (n2 : ws2 ≠ [])
    (hr : ∀ c ∈ rest.head?, c.isDigit = false) :
    ((manageScheduleBody name schedules (scheduleInput stOn hour minute ws0 ws1 ws2 rest) file
        choice0 hour0 minute0).device,
     (manageScheduleBody name schedules (scheduleInput stOn hour minute ws0 ws1 ws2 rest) file
        choice0 hour0 minute0).file)
      = if 0 ≤ hour ∧ hour ≤ 23 ∧ 0 ≤ minute ∧ minute ≤ 59 then
          (schedules ++ [⟨hour, minute, if stOn then "ON".toList else "OFF".toList⟩],
           saveScheduleToFile file name
             (schedules ++ [⟨hour, minute, if stOn then "ON".toList else "OFF".toList⟩]))
        else (schedules, file) := by
  have hc1 : INT_MIN ≤ (if stOn then (1 : Int) else 2) := by cases stOn <;> decide
  have hc2 : (if stOn then (1 : Int) else 2) ≤ INT_MAX := by cases stOn <;> decide
  have hchoice : ((if stOn then (1 : Int) else 2) = 1 ∨ (if stOn then (1 : Int) else 2) = 2) := by
    cases stOn <;> simp
  have hon : ((if stOn then (1 : Int) else 2) = 1) ↔ stOn = true := by
    cases stOn <;> simp
  unfold manageScheduleBody scheduleInput
  rw [extractInt_text_good _ ws0 _ choice0 h0 (head_space_not_digit ws1 _ h1 n1)
    (by simp [n1]) hc1 hc2]
  simp only [hchoice, if_true]
  rw [extractInt_text hour ws1 _ hour0 h1 (head_space_not_digit ws2 _ h2 n2)]
  by_cases hin : INT_MIN ≤ hour ∧ hour ≤ INT_MAX
  · have hd : decide (hour < INT_MIN ∨ INT_MAX < hour) = false := by
      simp only [decide_eq_false_iff_not, not_or, not_lt]
      exact hin
    have he : (ws2 ++ (showInt minute ++ rest)).isEmpty = false := by
      cases ws2 with
      | nil => exact absurd rfl n2
      | cons _ _ => rfl
    have hs : saturate hour = hour := by
      unfold saturate
      rw [min_eq_right hin.2, max_eq_right hin.1]
    simp only [hd, he, hs]
    rw [extractInt_text minute ws2 rest minute0 h2 hr]
    have hv : (saturate minute ≥ 0 ∧ saturate minute < 60) ↔ (0 ≤ minute ∧ minute ≤ 59) := by
      unfold saturate INT_MIN INT_MAX
      omega
    by_cases hvalid : 0 ≤ hour ∧ hour ≤ 23 ∧ 0 ≤ minute ∧ minute ≤ 59
    · have hm : saturate minute = minute := by
        unfold saturate INT_MIN INT_MAX
        omega
      have hcond : hour ≥ 0 ∧ hour < 24 ∧ saturate minute ≥ 0 ∧ saturate minute < 60 := by
        rw [hm]; omega
      rw [if_pos hcond, if_pos hvalid, hm]
      cases stOn <;> rfl
    · have hcond : ¬ (hour ≥ 0 ∧ hour < 24 ∧ saturate minute ≥ 0 ∧ saturate minute < 60) := by
        intro hc
        exact hvalid ⟨hc.1, by omega, (hv.mp hc.2.2).1, (hv.mp hc.2.2).2⟩
      rw [if_neg hcond, if_neg hvalid]
  · have hcond : ∀ m : Int, ¬ (saturate hour ≥ 0 ∧ saturate hour < 24 ∧ m ≥ 0 ∧ m < 60) := by
      intro m hc
      apply hin
      have := hc.1
      have := hc.2.1
      unfold saturate INT_MIN INT_MAX at *
      omega
    have hvalid : ¬ (0 ≤ hour ∧ hour ≤ 23 ∧ 0 ≤ minute ∧ minute ≤ 59) := by
      intro hc
      apply hin
      unfold INT_MIN INT_MAX
      omega
    rw [if_neg (hcond _), if_neg hvalid]

/-- C11: for `SmartPlug`, `Thermostat` and `RadiatorValve`, when the menu of
`manageSchedule` is given the choice for ON or OFF and the decimal texts of any
integers `hour` and `minute`, the entry `(hour, minute, state)` is appended as
the last entry, the earlier entries staying as they are, if `0 ≤ hour ≤ 23` and
`0 ≤ minute ≤ 59`, and the device is left unchanged otherwise; so the list
becomes the old list followed by the entry if and only if the time is valid. -/
theorem manageSchedule_appends_iff_valid (stOn : Bool) (hour minute : Int)
    (ws0 ws1 ws2 rest file : Text) (choice0 hour0 minute0 : Int)
    (h0 : ∀ c ∈ ws0, isSpace c = true)
    (h1 : ∀ c ∈ ws1, isSpace c = true) (n1 : ws1 ≠ [])
    (h2 : ∀ c ∈ ws2, isSpace c = true) (n2 : ws2 ≠ [])
    (hr : ∀ c ∈ rest.head?, c.isDigit = false) :
    (∀ d : SmartPlug,
      (d.manageSchedule (scheduleInput stOn hour minute ws0 ws1 ws2 rest) file
          choice0 hour0 minute0).device
        = (if ValidTime hour minute then
            { d with schedules := d.schedules ++ [⟨hour, minute, stateText stOn⟩] } else d) ∧
      ((d.manageSchedule (scheduleInput stOn hour minute ws0 ws1 ws2 rest) file
          choice0 hour0 minute0).device.schedules
        = d.schedules ++ [⟨hour, minute, stateText stOn⟩] ↔ ValidTime hour minute)) ∧
    (∀ d : Thermostat,
      (d.manageSchedule (scheduleInput stOn hour minute ws0 ws1 ws2 rest) file
          choice0 hour0 minute0).device
        = (if ValidTime hour minute then
            { d with schedules := d.schedules ++ [⟨hour, minute, stateText stOn⟩] } else d) ∧
      ((d.manageSchedule (scheduleInput stOn hour minute ws0 ws1 ws2 rest) file
          choice0 hour0 minute0).device.schedules
        = d.schedules ++ [⟨hour, minute, stateText stOn⟩] ↔ ValidTime hour minute)) ∧
    (∀ d : RadiatorValve,
      (d.manageSchedule (scheduleInput stOn hour minute ws0 ws1 ws2 rest) file
          choice0 hour0 minute0).device
        = (if ValidTime hour minute then
            { d with schedules := d.schedules ++ [⟨hour, minute, stateText stOn⟩] } else d) ∧
      ((d.manageSchedule (scheduleInput stOn hour minute ws0 ws1 ws2 rest) file
          choice0 hour0 minute0).device.schedules
        = d.schedules ++ [⟨hour, minute, stateText stOn⟩] ↔ ValidTime hour minute)) := by
  have key : ∀ (name : Text) (schedules : List Schedule),
      (manageScheduleBody name schedules (scheduleInput stOn hour minute ws0 ws1 ws2 rest) file
        choice0 hour0 minute0).device
      = if ValidTime hour minute then schedules ++ [⟨hour, minute, stateText stOn⟩]
        else schedules := by
    intro name schedules
    have h := congrArg Prod.fst (manageScheduleBody_text name schedules file choice0 hour0
      minute0 stOn hour minute ws0 ws1 ws2 rest h0 h1 n1 h2 n2 hr)
    simp only at h
    rw [h]
    unfold ValidTime stateText
    split <;> rfl
  have fix : ∀ (l : List Schedule) (e : Schedule), l ≠ l ++ [e] := by
    intro l e h
    have := congrArg List.length h
    simp at this
  refine ⟨fun d => ?_, fun d => ?_, fun d => ?_⟩
  · have hk := key d.name d.schedules
    by_cases hv : ValidTime hour minute
    · rw [if_pos hv] at hk
      refine ⟨?_, ⟨fun _ => hv, fun _ => ?_⟩⟩
      · simp only [SmartPlug.manageSchedule, hk, if_pos hv]
      · simp only [SmartPlug.manageSchedule, hk]
    · rw [if_neg hv] at hk
      refine ⟨?_, ⟨fun h => ?_, fun h => absurd h hv⟩⟩
      · simp only [SmartPlug.manageSchedule, hk, if_neg hv]
      · simp only [SmartPlug.manageSchedule, hk] at h
        exact absurd h (fix _ _)
  · have hk := key d.name d.schedules
    by_cases hv : ValidTime hour minute
    · rw [if_pos hv] at hk
      refine ⟨?_, ⟨fun _ => hv, fun _ => ?_⟩⟩
      · simp only [Thermostat.manageSchedule, hk, if_pos hv]
      · simp only [Thermostat.manageSchedule, hk]
    · rw [if_neg hv] at hk
      refine ⟨?_, ⟨fun h => ?_, fun h => absurd h hv⟩⟩
      · simp only [Thermostat.manageSchedule, hk, if_neg hv]
      · simp only [Thermostat.manageSchedule, hk] at h
        exact absurd h (fix _ _)
  · have hk := key d.name d.schedules
    by_cases hv : ValidTime hour minute
    · rw [if_pos hv] at hk
      refine ⟨?_, ⟨fun _ => hv, fun _ => ?_⟩⟩
      · simp only [RadiatorValve.manageSchedule, hk, if_pos hv]
      · simp only [RadiatorValve.manageSchedule, hk]
    · rw [if_neg hv] at hk
      refine ⟨?_, ⟨fun h => ?_, fun h => absurd h hv⟩⟩
      · simp only [RadiatorValve.manageSchedule, hk, if_neg hv]
      · simp only [RadiatorValve.manageSchedule, hk] at h
        exact absurd h (fix _ _)

/-- C11 (witness): on the thermostat "Hall" the inputs `1 25 0` and `2 10 61`
leave the schedule list unchanged, the input `1 23 59` makes (23, 59, ON) its
last entry. -/
theorem manageSchedule_appends_iff_valid_witness :
    (hall.manageSchedule (scheduleInput true 25 0 [] [' '] [' '] ['\n']) [] 0 0 0).device = hall
    ∧ (hall.manageSchedule (scheduleInput false 10 61 [] [' '] [' '] ['\n']) [] 0 0 0).device
      = hall
    ∧ (hall.manageSchedule (scheduleInput true 23 59 [] [' '] [' '] ['\n']) [] 0 0 0).device
      = { hall with schedules := hall.schedules ++ [⟨23, 59, stateText true⟩] } :=
  ⟨((manageSchedule_appends_iff_valid true 25 0 [] [' '] [' '] ['\n'] [] 0 0 0
      (by decide) (by decide) (by decide) (by decide) (by decide) (by decide)).2.1 hall).1.trans
      (if_neg (by decide)),
   ((manageSchedule_appends_iff_valid false 10 61 [] [' '] [' '] ['\n'] [] 0 0 0
      (by decide) (by decide) (by decide) (by decide) (by decide) (by decide)).2.1 hall).1.trans
      (if_neg (by decide)),
   ((manageSchedule_appends_iff_valid true 23 59 [] [' '] [' '] ['\n'] [] 0 0 0
      (by decide) (by decide) (by decide) (by decide) (by decide) (by decide)).2.1 hall).1.trans
      (if_pos (by decide))⟩

/-! ## C12: deleting a schedule entry -/

theorem castInt_of_lt (n : Nat) (h : (n : Int) < INT_MAX) : castInt n = n := by
  unfold castInt
  unfold INT_MAX at h
  omega

theorem saturate_index (i : Int) (n : Nat) (h : (n : Int) < INT_MAX) :
    (1 ≤ saturate i ∧ saturate i ≤ n) ↔ (1 ≤ i ∧ i ≤ n) := by
  unfold saturate INT_MIN
  unfold INT_MAX at *
  omega

theorem saturate_of_index (i : Int) (n : Nat) (h : (n : Int) < INT_MAX) (h1 : 1 ≤ i)
    (h2 : i ≤ n) : saturate i = i := by
  unfold saturate INT_MIN
  unfold INT_MAX at *
  omega

theorem deleteScheduleBody_text (name : Text) (schedules : List Schedule) (file : Text)
    (index0 i : Int) (ws rest : Text) (hws : ∀ c ∈ ws, isSpace c = true)
    (hr : ∀ c ∈ rest.head?, c.isDigit = false) (hlen : (schedules.length : Int) < INT_MAX) :
    ((deleteScheduleBody name schedules ⟨ws ++ (showInt i ++ rest), false, false⟩ file
        index0).device,
     (deleteScheduleBody name schedules ⟨ws ++ (showInt i ++ rest), false, false⟩ file
        index0).file)
      = if 1 ≤ i ∧ i ≤ schedules.length then
          (schedules.eraseIdx (i - 1).toNat,
           saveScheduleToFile file name (schedules.eraseIdx (i - 1).toNat))
        else (schedules, file) := by
  unfold deleteScheduleBody
  cases hs : schedules with
  | nil =>
    have : ¬ (1 ≤ i ∧ i ≤ (([] : List Schedule).length : Int)) := by
      simp only [List.length_nil, Nat.cast_zero]
      omega
    rw [if_neg this]
    rfl
  | cons x xs =>
    rw [← hs]
    have hne : schedules.isEmpty = false := by rw [hs]; rfl
    simp only [hne, Bool.false_eq_true, if_false]
    rw [extractInt_text i ws rest index0 hws hr, castInt_of_lt _ hlen]
    by_cases hv : 1 ≤ i ∧ i ≤ schedules.length
    · have hc : saturate i ≥ 1 ∧ saturate i ≤ schedules.length :=
        (saturate_index i _ hlen).mpr hv
      rw [if_pos hc, if_pos hv, saturate_of_index i _ hlen hv.1 hv.2]
    · have hc : ¬ (saturate i ≥ 1 ∧ saturate i ≤ schedules.length) :=
        fun h => hv ((saturate_index i _ hlen).mp h)
      rw [if_neg hc, if_neg hv]

theorem plugDeleteScheduleBody_text (name : Text) (schedules : List Schedule) (file : Text)
    (index0 i : Int) (ws rest : Text) (hws : ∀ c ∈ ws, isSpace c = true)
    (hr : ∀ c ∈ rest.head?, c.isDigit = false) (hlen : (schedules.length : Int) < INT_MAX) :
    ((plugDeleteScheduleBody name schedules ⟨ws ++ (showInt i ++ rest), false, false⟩ file
        index0).device,
     (plugDeleteScheduleBody name schedules ⟨ws ++ (showInt i ++ rest), false, false⟩ file
        index0).file)
      = if 1 ≤ i ∧ i ≤ schedules.length then
          (schedules.eraseIdx (i - 1).toNat,
           saveScheduleToFile file name (schedules.eraseIdx (i - 1).toNat))
        else (schedules, file) := by
  unfold plugDeleteScheduleBody
  rw [extractInt_text i ws rest index0 hws hr, castInt_of_lt _ hlen]
  by_cases hv : 1 ≤ i ∧ i ≤ schedules.length
  · have hc : saturate i > 0 ∧ saturate i ≤ schedules.length := by
      have := (saturate_index i _ hlen).mpr hv
      exact ⟨by omega, this.2⟩
    rw [if_pos hc, if_pos hv, saturate_of_index i _ hlen hv.1 hv.2]
  · have hc : ¬ (saturate i > 0 ∧ saturate i ≤ schedules.length) := by
      intro h
      exact hv ((saturate_index i _ hlen).mp ⟨by omega, h.2⟩)
    rw [if_neg hc, if_neg hv]

theorem eraseIdx_index (l : List Schedule) (i : Int) (h1 : 1 ≤ i) (h2 : i ≤ l.length) :
    l.eraseIdx (i - 1).toNat = l.take (i - 1).toNat ++ l.drop i.toNat ∧
    (l.eraseIdx (i - 1).toNat).length = l.length - 1 := by
  have hk : (i - 1).toNat + 1 = i.toNat := by omega
  have hlt : (i - 1).toNat < l.length := by omega
  refine ⟨?_, List.length_eraseIdx_of_lt hlt⟩
  rw [List.eraseIdx_eq_take_drop_succ, hk]

/-- C12: for `SmartPlug`, `Thermostat` and `RadiatorValve` with a schedule list of
`n` entries (`n` below the largest `int`), when `deleteSchedule` is given the
decimal text of any integer `i`: if `1 ≤ i ≤ n` the `i`-th entry is removed, that
is, the list becomes its first `i - 1` entries followed by those after the
`i`-th, of length `n - 1`, and nothing else in the device changes; if `i < 1` or
`i > n` the device is unchanged. -/
theorem deleteSchedule_removes_entry (i : Int) (ws rest file : Text) (index0 : Int)
    (hws : ∀ c ∈ ws, isSpace c = true) (hr : ∀ c ∈ rest.head?, c.isDigit = false) :
    (∀ d : SmartPlug, (d.schedules.length : Int) < INT_MAX →
      (1 ≤ i ∧ i ≤ d.schedules.length →
        (d.deleteSchedule ⟨ws ++ (showInt i ++ rest), false, false⟩ file index0).device
          = { d with schedules := d.schedules.take (i - 1).toNat ++ d.schedules.drop i.toNat } ∧
        (d.deleteSchedule ⟨ws ++ (showInt i ++ rest), false, false⟩ file
          index0).device.schedules.length = d.schedules.length - 1) ∧
      (i < 1 ∨ (d.schedules.length : Int) < i →
        (d.deleteSchedule ⟨ws ++ (showInt i ++ rest), false, false⟩ file index0).device = d)) ∧
    (∀ d : Thermostat, (d.schedules.length : Int) < INT_MAX →
      (1 ≤ i ∧ i ≤ d.schedules.length →
        (d.deleteSchedule ⟨ws ++ (showInt i ++ rest), false, false⟩ file index0).device
          = { d with schedules := d.schedules.take (i - 1).toNat ++ d.schedules.drop i.toNat } ∧
        (d.deleteSchedule ⟨ws ++ (showInt i ++ rest), false, false⟩ file
          index0).device.schedules.length = d.schedules.length - 1) ∧
      (i < 1 ∨ (d.schedules.length : Int) < i →
        (d.deleteSchedule ⟨ws ++ (showInt i ++ rest), false, false⟩ file index0).device = d)) ∧
    (∀ d : RadiatorValve, (d.schedules.length : Int) < INT_MAX →
      (1 ≤ i ∧ i ≤ d.schedules.length →
        (d.deleteSchedule ⟨ws ++ (showInt i ++ rest), false, false⟩ file index0).device
          = { d with schedules := d.schedules.take (i - 1).toNat ++ d.schedules.drop i.toNat } ∧
        (d.deleteSchedule ⟨ws ++ (showInt i ++ rest), false, false⟩ file
          index0).device.schedules.length = d.schedules.length - 1) ∧
      (i < 1 ∨ (d.schedules.length : Int) < i →
        (d.deleteSchedule ⟨ws ++ (showInt i ++ rest), false, false⟩ file index0).device = d)) := by
  refine ⟨fun d hlen => ?_, fun d hlen => ?_, fun d hlen => ?_⟩
  · have h := congrArg Prod.fst (plugDeleteScheduleBody_text d.name d.schedules file index0 i
      ws rest hws hr hlen)
    simp only at h
    constructor
    · intro hv
      rw [if_pos hv] at h
      obtain ⟨e1, e2⟩ := eraseIdx_index d.schedules i hv.1 hv.2
      rw [e1] at e2
      simp only [SmartPlug.deleteSchedule, h, e1]
      exact ⟨trivial, e2⟩
    · intro hv
      rw [if_neg (by omega)] at h
      simp only [SmartPlug.deleteSchedule, h]
  · have h := congrArg Prod.fst (deleteScheduleBody_text d.name d.schedules file index0 i
      ws rest hws hr hlen)
    simp only at h
    constructor
    · intro hv
      rw [if_pos hv] at h
      obtain ⟨e1, e2⟩ := eraseIdx_index d.schedules i hv.1 hv.2
      rw [e1] at e2
      simp only [Thermostat.deleteSchedule, h, e1]
      exact ⟨trivial, e2⟩
    · intro hv
      rw [if_neg (by omega)] at h
      simp only [Thermostat.deleteSchedule, h]
  · have h := congrArg Prod.fst (deleteScheduleBody_text d.name d.schedules file index0 i
      ws rest hws hr hlen)
    simp only at h
    constructor
    · intro hv
      rw [if_pos hv] at h
      obtain ⟨e1, e2⟩ := eraseIdx_index d.schedules i hv.1 hv.2
      rw [e1] at e2
      simp only [RadiatorValve.deleteSchedule, h, e1]
      exact ⟨trivial, e2⟩
    · intro hv
      rw [if_neg (by omega)] at h
      simp only [RadiatorValve.deleteSchedule, h]

/-- C12 (witness): the second of the three entries of the thermostat "Hall". -/
theorem deleteSchedule_removes_entry_witness :
    (hallThree.deleteSchedule ⟨[] ++ (showInt 2 ++ ['\n']), false, false⟩ [] 0).device
      = { hallThree with
          schedules := hallThree.schedules.take (2 - 1 : Int).toNat
            ++ hallThree.schedules.drop (2 : Int).toNat } ∧
    (hallThree.deleteSchedule ⟨[] ++ (showInt 2 ++ ['\n']), false, false⟩ [] 0).device
      = ⟨⟨"Hall".toList, false, 0, false, false⟩, [⟨6, 0, "ON".toList⟩, ⟨17, 45, "ON".toList⟩]⟩ :=
  ⟨(((deleteSchedule_removes_entry 2 [] ['\n'] [] 0 (by decide) (by decide)).2.1 hallThree
      (by decide)).1 (by decide)).1, by decide⟩

/-! ## C13: schedule records in the file after a mutation -/

theorem scheduleLoop_append (name : Text) (front back : List Text) (v : SchedLocals)
    (acc : List Schedule) :
    ∃ v', scheduleLoop name (front ++ back) v acc
      = scheduleLoop name back v' (scheduleLoop name front v acc) := by
  induction front generalizing v acc with
  | nil => exact ⟨v, rfl⟩
  | cons line rest ih =>
    simp only [List.cons_append, scheduleLoop]
    split
    · exact ih _ _
    · exact ih _ _

/-- The record of a storable entry, without its line end. -/
theorem scheduleLine_split (name : Text) (s : Schedule) :
    scheduleLine name s
      = (name ++ '|' :: (showInt s.hour ++ '|' :: (showInt s.minute ++ '|' :: s.state)))
          ++ ['\n'] := by
  simp [scheduleLine]

theorem readSchedule_record (s : Schedule) (v : SchedLocals) (hs : s.storable) :
    readSchedule ⟨showInt s.hour ++ '|' :: (showInt s.minute ++ '|' :: s.state), false, false⟩ v
      = ⟨s.hour, s.minute, s.state⟩ := by
  obtain ⟨h1, h2, h3, h4, h5⟩ := hs
  have e1 := extractInt_text_good s.hour [] ('|' :: (showInt s.minute ++ '|' :: s.state)) v.hour
    (by simp) (by simp) (by simp) h1 h2
  have e2 := extractInt_text_good s.minute [] ('|' :: s.state) v.minute
    (by simp) (by simp) (by simp) h3 h4
  simp only [List.nil_append] at e1 e2
  simp only [readSchedule, e1, IStream.ignore, IStream.good, Bool.not_false, Bool.and_self,
    if_true, e2, getline_last _ _ _ h5]

theorem scheduleLoop_records (name : Text) (l : List Schedule) (v : SchedLocals)
    (acc : List Schedule) (hn : '|' ∉ name) (hl : ∀ s ∈ l, s.storable) :
    scheduleLoop name (l.map (fun s => name ++ '|' :: (showInt s.hour ++ '|' ::
      (showInt s.minute ++ '|' :: s.state)))) v acc = acc ++ l := by
  induction l generalizing v acc with
  | nil => simp [scheduleLoop]
  | cons s rest ih =>
    simp only [List.map_cons, scheduleLoop, IStream.ofText, getline_split _ _ _ _ hn, if_true]
    rw [readSchedule_record s v (hl s (List.mem_cons_self _ _))]
    rw [ih _ _ (fun x hx => hl x (List.mem_cons_of_mem _ hx))]
    simp

theorem fileLines_records (name : Text) (l : List Schedule) (hn : '\n' ∉ name)
    (hl : ∀ s ∈ l, s.storable) :
    fileLines (l.map (scheduleLine name)).flatten
      = l.map (fun s => name ++ '|' :: (showInt s.hour ++ '|' ::
          (showInt s.minute ++ '|' :: s.state))) := by
  induction l with
  | nil => exact fileLines_nil
  | cons s rest ih =>
    have hline : '\n' ∉ name ++ '|' :: (showInt s.hour ++ '|' :: (showInt s.minute ++ '|' ::
        s.state)) := by
      simp only [List.mem_append, List.mem_cons, not_or]
      exact ⟨hn, by decide, showInt_no_newline _, by decide, showInt_no_newline _, by decide,
        (hl s (List.mem_cons_self _ _)).2.2.2.2⟩
    simp only [List.map_cons, List.flatten_cons]
    rw [scheduleLine_split, List.append_assoc, List.singleton_append, fileLines_cons _ _ hline,
      ih (fun x hx => hl x (List.mem_cons_of_mem _ hx))]

/-- Reading back after `saveScheduleToFile`: the records found before, followed
by the list that was appended. -/
theorem loadSchedule_saveSchedule (file name : Text) (l : List Schedule) (hour0 minute0 : Int)
    (hfile : Terminated file) (hname : PlainName name) (hl : ∀ s ∈ l, s.storable) :
    loadScheduleFromFile (saveScheduleToFile file name l) name hour0 minute0
      = loadScheduleFromFile file name hour0 minute0 ++ l := by
  unfold loadScheduleFromFile saveScheduleToFile
  rw [fileLines_append _ _ hfile, fileLines_records name l hname.2 hl]
  obtain ⟨v', hv⟩ := scheduleLoop_append name (fileLines file) (l.map (fun s => name ++ '|' ::
    (showInt s.hour ++ '|' :: (showInt s.minute ++ '|' :: s.state)))) ⟨hour0, minute0, []⟩ []
  rw [hv, scheduleLoop_records name l v' _ hname.1 hl]

theorem manageScheduleBody_changed (name : Text) (schedules : List Schedule) (cin : IStream)
    (file : Text) (choice0 hour0 minute0 : Int)
    (hch : (manageScheduleBody name schedules cin file choice0 hour0 minute0).device ≠ schedules)
    (hl : ∀ s ∈ schedules, s.storable) :
    (manageScheduleBody name schedules cin file choice0 hour0 minute0).file
      = saveScheduleToFile file name
          (manageScheduleBody name schedules cin file choice0 hour0 minute0).device ∧
    ∀ s ∈ (manageScheduleBody name schedules cin file choice0 hour0 minute0).device,
      s.storable := by
  simp only [manageScheduleBody] at hch ⊢
  by_cases hc : (extractInt cin choice0).2 = 1 ∨ (extractInt cin choice0).2 = 2
  · rw [if_pos hc] at hch ⊢
    by_cases hv : (extractInt (extractInt cin choice0).1 hour0).2 ≥ 0 ∧
        (extractInt (extractInt cin choice0).1 hour0).2 < 24 ∧
        (extractInt (extractInt (extractInt cin choice0).1 hour0).1 minute0).2 ≥ 0 ∧
        (extractInt (extractInt (extractInt cin choice0).1 hour0).1 minute0).2 < 60
    · rw [if_pos hv]
      refine ⟨rfl, ?_⟩
      intro s hs
      rcases List.mem_append.mp hs with h | h
      · exact hl s h
      · simp only [List.mem_singleton] at h
        subst h
        refine ⟨?_, ?_, ?_, ?_, ?_⟩
        · exact le_trans (by decide) hv.1
        · exact le_trans (le_of_lt hv.2.1) (by decide)
        · exact le_trans (by decide) hv.2.2.1
        · exact le_trans (le_of_lt hv.2.2.2) (by decide)
        · show '\n' ∉ (if _ then "ON".toList else "OFF".toList)
          split <;> decide
    · rw [if_neg hv] at hch
      exact absurd rfl hch
  · rw [if_neg hc] at hch
    exact absurd rfl hch

theorem deleteScheduleBody_changed (name : Text) (schedules : List Schedule) (cin : IStream)
    (file : Text) (index0 : Int)
    (hch : (deleteScheduleBody name schedules cin file index0).device ≠ schedules)
    (hl : ∀ s ∈ schedules, s.storable) :
    (deleteScheduleBody name schedules cin file index0).file
      = saveScheduleToFile file name (deleteScheduleBody name schedules cin file index0).device ∧
    ∀ s ∈ (deleteScheduleBody name schedules cin file index0).device, s.storable := by
  unfold deleteScheduleBody at hch ⊢
  simp only at hch ⊢
  split_ifs at hch ⊢ with hc hv
  · exact absurd rfl hch
  · exact ⟨rfl, fun s hs => hl s ((List.eraseIdx_sublist _ _).subset hs)⟩
  · exact absurd rfl hch

theorem plugDeleteScheduleBody_changed (name : Text) (schedules : List Schedule)
    (cin : IStream) (file : Text) (index0 : Int)
    (hch : (plugDeleteScheduleBody name schedules cin file index0).device ≠ schedules)
    (hl : ∀ s ∈ schedules, s.storable) :
    (plugDeleteScheduleBody name schedules cin file index0).file
      = saveScheduleToFile file name
          (plugDeleteScheduleBody name schedules cin file index0).device ∧
    ∀ s ∈ (plugDeleteScheduleBody name schedules cin file index0).device, s.storable := by
  unfold plugDeleteScheduleBody at hch ⊢
  simp only at hch ⊢
  split_ifs at hch ⊢ with hv
  · exact ⟨rfl, fun s hs => hl s ((List.eraseIdx_sublist _ _).subset hs)⟩
  · exact absurd rfl hch

/-- What the file holds for a device after a schedule operation that changed the
list: the records found before, followed by the whole new list. -/
theorem readback_after_change (file name : Text) (new : List Schedule) (file1 : Text)
    (hour0 minute0 : Int) (hfile : Terminated file) (hname : PlainName name)
    (h : file1 = saveScheduleToFile file name new ∧ ∀ s ∈ new, s.storable) :
    loadScheduleFromFile file1 name hour0 minute0
      = loadScheduleFromFile file name hour0 minute0 ++ new := by
  rw [h.1]
  exact loadSchedule_saveSchedule file name new hour0 minute0 hfile hname h.2

/-- C13 (as amended): for `SmartPlug`, `Thermostat` and `RadiatorValve`, with a
name that has no `|` and no line end and a file that is empty or ends with a line
end: after every call of `manageSchedule` or `deleteSchedule` that changed the
schedule list (a successful add or removal), reading the file as
`loadScheduleFromFile` does for that name yields the records that were found
before the call, followed by the device's whole current schedule list (same
entries, same order). -/
theorem schedule_mutation_appends_list (file : Text) (cin : IStream)
    (choice0 hour0 minute0 index0 h0 m0 : Int) (hfile : Terminated file) :
    (∀ d : SmartPlug, PlainName d.name → (∀ s ∈ d.schedules, s.storable) →
      ((d.manageSchedule cin file choice0 hour0 minute0).device.schedules ≠ d.schedules →
        loadScheduleFromFile (d.manageSchedule cin file choice0 hour0 minute0).file d.name h0 m0
          = loadScheduleFromFile file d.name h0 m0
            ++ (d.manageSchedule cin file choice0 hour0 minute0).device.schedules) ∧
      ((d.deleteSchedule cin file index0).device.schedules ≠ d.schedules →
        loadScheduleFromFile (d.deleteSchedule cin file index0).file d.name h0 m0
          = loadScheduleFromFile file d.name h0 m0
            ++ (d.deleteSchedule cin file index0).device.schedules)) ∧
    (∀ d : Thermostat, PlainName d.name → (∀ s ∈ d.schedules, s.storable) →
      ((d.manageSchedule cin file choice0 hour0 minute0).device.schedules ≠ d.schedules →
        loadScheduleFromFile (d.manageSchedule cin file choice0 hour0 minute0).file d.name h0 m0
          = loadScheduleFromFile file d.name h0 m0
            ++ (d.manageSchedule cin file choice0 hour0 minute0).device.schedules) ∧
      ((d.deleteSchedule cin file index0).device.schedules ≠ d.schedules →
        loadScheduleFromFile (d.deleteSchedule cin file index0).file d.name h0 m0
          = loadScheduleFromFile file d.name h0 m0
            ++ (d.deleteSchedule cin file index0).device.schedules)) ∧
    (∀ d : RadiatorValve, PlainName d.name → (∀ s ∈ d.schedules, s.storable) →
      ((d.manageSchedule cin file choice0 hour0 minute0).device.schedules ≠ d.schedules →
        loadScheduleFromFile (d.manageSchedule cin file choice0 hour0 minute0).file d.name h0 m0
          = loadScheduleFromFile file d.name h0 m0
            ++ (d.manageSchedule cin file choice0 hour0 minute0).device.schedules) ∧
      ((d.deleteSchedule cin file index0).device.schedules ≠ d.schedules →
        loadScheduleFromFile (d.deleteSchedule cin file index0).file d.name h0 m0
          = loadScheduleFromFile file d.name h0 m0
            ++ (d.deleteSchedule cin file index0).device.schedules)) := by
  refine ⟨fun d hn hl => ⟨fun hch => ?_, fun hch => ?_⟩,
    fun d hn hl => ⟨fun hch => ?_, fun hch => ?_⟩,
    fun d hn hl => ⟨fun hch => ?_, fun hch => ?_⟩⟩
  · exact readback_after_change file d.name _ _ h0 m0 hfile hn
      (manageScheduleBody_changed d.name d.schedules cin file choice0 hour0 minute0 hch hl)
  · exact readback_after_change file d.name _ _ h0 m0 hfile hn
      (plugDeleteScheduleBody_changed d.name d.schedules cin file index0 hch hl)
  · exact readback_after_change file d.name _ _ h0 m0 hfile hn
      (manageScheduleBody_changed d.name d.schedules cin file choice0 hour0 minute0 hch hl)
  · exact readback_after_change file d.name _ _ h0 m0 hfile hn
      (deleteScheduleBody_changed d.name d.schedules cin file index0 hch hl)
  · exact readback_after_change file d.name _ _ h0 m0 hfile hn
      (manageScheduleBody_changed d.name d.schedules cin file choice0 hour0 minute0 hch hl)
  · exact readback_after_change file d.name _ _ h0 m0 hfile hn
      (deleteScheduleBody_changed d.name d.schedules cin file index0 hch hl)

/-- C13 (witness): the thermostat "Hall" with an empty list and an empty file,
given the input `1 7 30`: the file then holds exactly its one entry. -/
theorem schedule_mutation_appends_list_witness :
    Terminated [] ∧ PlainName hall.name ∧
    loadScheduleFromFile (hall.manageSchedule (IStream.ofText "1 7 30\n".toList) [] 0 0 0).file
        hall.name 0 0
      = loadScheduleFromFile [] hall.name 0 0
        ++ (hall.manageSchedule (IStream.ofText "1 7 30\n".toList) [] 0 0 0).device.schedules :=
  ⟨Or.inl rfl, ⟨by decide, by decide⟩,
   ((schedule_mutation_appends_list [] (IStream.ofText "1 7 30\n".toList) 0 0 0 0 0 0
      (Or.inl rfl)).2.1 hall ⟨by decide, by decide⟩ (fun s hs => by cases hs)).1 (by decide)⟩

/-- C13 (counterexample): the thermostat "Hall" starts with an empty list and an
empty file and gets the inputs `1 7 30` and `2 8 0`. Its list is then
(7, 30, ON), (8, 0, OFF), but the file holds `Hall|7|30|ON` twice, and reading
it back for "Hall" yields three entries. -/
theorem schedule_file_repeats_entries :
    hallTwice.device.schedules = [⟨7, 30, "ON".toList⟩, ⟨8, 0, "OFF".toList⟩]
    ∧ hallTwice.file = "Hall|7|30|ON\nHall|7|30|ON\nHall|8|0|OFF\n".toList
    ∧ loadScheduleFromFile hallTwice.file "Hall".toList 0 0
      = [⟨7, 30, "ON".toList⟩, ⟨7, 30, "ON".toList⟩, ⟨8, 0, "OFF".toList⟩]
    ∧ loadScheduleFromFile hallTwice.file "Hall".toList 0 0 ≠ hallTwice.device.schedules := by
  decide

/-! ## C14: looking a device up by name -/

theorem get?_length_append (pre : List Device) (d : Device) (post : List Device) :
    (pre ++ d :: post).get? pre.length = some d := by
  induction pre with
  | nil => rfl
  | cons x xs ih => simpa using ih

theorem set_length_append (pre : List Device) (d e : Device) (post : List Device) :
    (pre ++ d :: post).set pre.length e = pre ++ e :: post := by
  induction pre with
  | nil => rfl
  | cons x xs ih => simp

theorem compareLoop_iff (a b : Text) (h : a.length = b.length) :
    compareLoop a b = true ↔ lowerText a = lowerText b := by
  induction a generalizing b with
  | nil =>
    cases b with
    | nil => simp [compareLoop, lowerText]
    | cons y ys => simp at h
  | cons x xs ih =>
    cases b with
    | nil => simp at h
    | cons y ys =>
      have h' : xs.length = ys.length := by simpa using h
      have ih' := ih ys h'
      simp only [lowerText] at ih' ⊢
      simp only [compareLoop, List.map_cons, List.cons.injEq]
      by_cases hxy : tolower x = tolower y
      · simp [hxy, ih']
      · simp [hxy]

/-- The helper `caseInsensitiveCompare` answers `true` exactly for two names of
the same length that are equal after lowercasing. -/
theorem caseInsensitiveCompare_iff (a b : Text) :
    caseInsensitiveCompare a b = true ↔ NameMatch a b := by
  unfold caseInsensitiveCompare NameMatch
  by_cases h : a.length = b.length
  · simp only [h, ne_eq, not_true_eq_false, if_false, true_and]
    exact compareLoop_iff a b h
  · simp [h]

theorem find_if_eq_none (p : Device → Bool) (l : List Device) :
    find_if p l = none ↔ ∀ x ∈ l, p x = false := by
  induction l with
  | nil => simp [find_if]
  | cons d ds ih =>
    simp only [find_if, List.mem_cons, forall_eq_or_imp]
    by_cases hp : p d = true
    · simp [hp]
    · have hp' : p d = false := by simpa using hp
      simp [hp', ih]

theorem find_if_eq_some (p : Device → Bool) (l : List Device) (i : Nat) :
    find_if p l = some i ↔
      ∃ pre d post, l = pre ++ d :: post ∧ pre.length = i ∧ p d = true ∧
        ∀ x ∈ pre, p x = false := by
  induction l generalizing i with
  | nil => simp [find_if]
  | cons d ds ih =>
    simp only [find_if]
    by_cases hp : p d = true
    · simp only [hp, if_true, Option.some.injEq]
      constructor
      · intro h
        exact ⟨[], d, ds, rfl, by simpa using h, hp, by simp⟩
      · rintro ⟨pre, e, post, hl, hlen, _, hpre⟩
        cases pre with
        | nil => simpa using hlen
        | cons x xs =>
          simp only [List.cons_append, List.cons.injEq] at hl
          have := hpre x (by simp)
          rw [← hl.1, hp] at this
          simp at this
    · have hp' : p d = false := by simpa using hp
      simp only [hp', Bool.false_eq_true, if_false]
      constructor
      · intro h
        cases hj : find_if p ds with
        | none => rw [hj] at h; simp at h
        | some j =>
          rw [hj] at h
          simp only [Option.map_some', Option.some.injEq] at h
          obtain ⟨pre, e, post, hl, hlen, he, hpre⟩ := (ih j).1 hj
          refine ⟨d :: pre, e, post, by simp [hl], by simp [hlen, h], he, ?_⟩
          intro x hx
          rcases List.mem_cons.1 hx with rfl | hx
          · exact hp'
          · exact hpre x hx
      · rintro ⟨pre, e, post, hl, hlen, he, hpre⟩
        cases pre with
        | nil =>
          simp only [List.nil_append, List.cons.injEq] at hl
          rw [hl.1] at hp
          exact absurd he hp
        | cons x xs =>
          simp only [List.cons_append, List.cons.injEq] at hl
          rw [(ih xs.length).2 ⟨xs, e, post, hl.2, rfl, he, fun y hy => hpre y (by simp [hy])⟩]
          simpa using hlen

/-- The lookup finds position `i` exactly when the device there is the first one
whose name matches. -/
theorem findDevice_eq_some (devices : List Device) (name : Text) (i : Nat) :
    findDevice devices name = some i ↔
      ∃ pre d post, devices = pre ++ d :: post ∧ pre.length = i ∧
        NameMatch d.getName name ∧ ∀ x ∈ pre, ¬ NameMatch x.getName name := by
  unfold findDevice
  rw [find_if_eq_some]
  simp only [← caseInsensitiveCompare_iff, Bool.not_eq_true]

/-- The lookup finds nothing exactly when no name matches. -/
theorem findDevice_eq_none (devices : List Device) (name : Text) :
    findDevice devices name = none ↔ ∀ x ∈ devices, ¬ NameMatch x.getName name := by
  unfold findDevice
  rw [find_if_eq_none]
  simp only [← caseInsensitiveCompare_iff, Bool.not_eq_true]

/-- Two queries that agree in length and after lowercasing find the same device. -/
theorem findDevice_congr (devices : List Device) (q1 q2 : Text) (h : NameMatch q1 q2) :
    findDevice devices q1 = findDevice devices q2 := by
  have hm : ∀ n, NameMatch n q1 ↔ NameMatch n q2 := by
    intro n
    unfold NameMatch at *
    rw [h.1, h.2]
  cases h2 : findDevice devices q2 with
  | none =>
    rw [findDevice_eq_none] at h2 ⊢
    intro x hx
    rw [hm]
    exact h2 x hx
  | some i =>
    rw [findDevice_eq_some] at h2 ⊢
    obtain ⟨pre, d, post, hl, hlen, hd, hpre⟩ := h2
    exact ⟨pre, d, post, hl, hlen, (hm _).2 hd, fun x hx => by rw [hm]; exact hpre x hx⟩

/-- C14: the name lookup shared by `handleOneClickAction`, `interactWithDevice`
and `removeDevice` answers position `i` exactly when the device there is the
first in registry order whose name has the length of the query and equals it
character by character after lowercasing, and answers not-found exactly when no
device has such a name; `handleOneClickAction` acts on that device alone. The
queries "LIVING ROOM" and "living room" always find the same position, and if
the first device that matches is named "Living Room", they find that device. -/
theorem lookup_selects_first_match (devices : List Device) (name : Text) (now : Int) :
    (∀ i, findDevice devices name = some i ↔
      ∃ pre d post, devices = pre ++ d :: post ∧ pre.length = i ∧
        NameMatch d.getName name ∧ ∀ x ∈ pre, ¬ NameMatch x.getName name) ∧
    (findDevice devices name = none ↔ ∀ x ∈ devices, ¬ NameMatch x.getName name) ∧
    (∀ pre d post, devices = pre ++ d :: post → NameMatch d.getName name →
      (∀ x ∈ pre, ¬ NameMatch x.getName name) →
      handleOneClickAction devices name now = pre ++ d.oneClickAction now :: post) ∧
    ((∀ x ∈ devices, ¬ NameMatch x.getName name) →
      handleOneClickAction devices name now = devices) ∧
    findDevice devices "LIVING ROOM".toList = findDevice devices "living room".toList ∧
    (∀ pre d post, devices = pre ++ d :: post → d.getName = "Living Room".toList →
      (∀ x ∈ pre, ¬ NameMatch x.getName "Living Room".toList) →
      findDevice devices "LIVING ROOM".toList = some pre.length ∧
      findDevice devices "living room".toList = some pre.length ∧
      devices.get? pre.length = some d) := by
  refine ⟨findDevice_eq_some devices name, findDevice_eq_none devices name, ?_, ?_, ?_, ?_⟩
  · intro pre d post hl hd hpre
    have hf : findDevice devices name = some pre.length :=
      (findDevice_eq_some devices name _).2 ⟨pre, d, post, hl, rfl, hd, hpre⟩
    unfold handleOneClickAction
    rw [hf]
    subst hl
    simp only [get?_length_append]
    exact set_length_append pre d _ post
  · intro hno
    have hf := (findDevice_eq_none devices name).2 hno
    unfold handleOneClickAction
    rw [hf]
  · exact findDevice_congr devices _ _ (by decide)
  · intro pre d post hl hd hpre
    have hf : findDevice devices "Living Room".toList = some pre.length :=
      (findDevice_eq_some devices _ _).2
        ⟨pre, d, post, hl, rfl, by rw [hd]; exact ⟨rfl, rfl⟩, hpre⟩
    refine ⟨?_, ?_, ?_⟩
    · rw [findDevice_congr devices "LIVING ROOM".toList "Living Room".toList (by decide)]
      exact hf
    · rw [findDevice_congr devices "living room".toList "Living Room".toList (by decide)]
      exact hf
    · subst hl
      exact get?_length_append pre d post

/-- C14 (witness): in the registry `house` both queries find the speaker
"Living Room" in the second place, although a later device matches as well. -/
theorem lookup_selects_first_match_witness :
    findDevice house "LIVING ROOM".toList = some 1 ∧
    findDevice house "living room".toList = some 1 ∧
    house.get? 1 = some livingRoom :=
  (lookup_selects_first_match house [] 0).2.2.2.2.2 [lamp] livingRoom [fridge, livingRoomLight]
    rfl rfl (by decide)

/-! ## C15: removing a device -/

theorem eraseIdx_length_append (pre : List Device) (d : Device) (post : List Device) :
    (pre ++ d :: post).eraseIdx pre.length = pre ++ post := by
  induction pre with
  | nil => rfl
  | cons x xs ih => simpa using ih

/-- C15: `removeDevice(name)` either finds the first device in registry order
whose name matches `name` up to case and leaves the registry without that one
device, the devices before and after it unchanged and in their order (the
destructor of the removed device runs on the file), or no device matches and
registry and file are unchanged. -/
theorem removeDevice_removes_first_match (devices : List Device) (file name : Text) :
    (∃ pre d post, devices = pre ++ d :: post ∧ NameMatch d.getName name ∧
        (∀ x ∈ pre, ¬ NameMatch x.getName name) ∧
        removeDevice devices file name = (pre ++ post, d.destroy file) ∧
        (removeDevice devices file name).1.length + 1 = devices.length) ∨
    ((∀ x ∈ devices, ¬ NameMatch x.getName name) ∧
        removeDevice devices file name = (devices, file)) := by
  cases hf : findDevice devices name with
  | none =>
    right
    refine ⟨(findDevice_eq_none devices name).1 hf, ?_⟩
    unfold removeDevice
    rw [hf]
  | some i =>
    left
    obtain ⟨pre, d, post, hl, hlen, hd, hpre⟩ := (findDevice_eq_some devices name i).1 hf
    have hr : removeDevice devices file name = (pre ++ post, d.destroy file) := by
      unfold removeDevice
      rw [hf]
      subst hl
      subst hlen
      simp only [get?_length_append, eraseIdx_length_append]
    refine ⟨pre, d, post, hl, hd, hpre, hr, ?_⟩
    rw [hr, hl]
    simp
    omega

/-! ## C16 and C17: the orders of `sortByName` and `sortByType` -/

theorem char_eq_of_toNat (a b : Char) (h : a.toNat = b.toNat) : a = b := by
  rw [← Char.ofNat_toNat a, ← Char.ofNat_toNat b, h]

theorem stringLt_irrefl (a : Text) : stringLt a a = false := by
  induction a with
  | nil => rfl
  | cons x xs ih => simp [stringLt, ih]

theorem stringLt_trans (a b c : Text) (h1 : stringLt a b = true) (h2 : stringLt b c = true) :
    stringLt a c = true := by
  induction a generalizing b c with
  | nil =>
    cases b with
    | nil => simp [stringLt] at h1
    | cons y ys =>
      cases c with
      | nil => simp [stringLt] at h2
      | cons z zs => rfl
  | cons x xs ih =>
    cases b with
    | nil => simp [stringLt] at h1
    | cons y ys =>
      cases c with
      | nil => simp [stringLt] at h2
      | cons z zs =>
        simp only [stringLt] at h1 h2 ⊢
        by_cases hxy : x.toNat < y.toNat
        · by_cases hyz : y.toNat < z.toNat
          · rw [if_pos (by omega)]
          · rw [if_neg hyz] at h2
            by_cases hzy : z.toNat < y.toNat
            · rw [if_pos hzy] at h2
              simp at h2
            · rw [if_pos (by omega)]
        · rw [if_neg hxy] at h1
          by_cases hyx : y.toNat < x.toNat
          · rw [if_pos hyx] at h1
            simp at h1
          · rw [if_neg hyx] at h1
            by_cases hyz : y.toNat < z.toNat
            · rw [if_pos (by omega)]
            · rw [if_neg hyz] at h2
              by_cases hzy : z.toNat < y.toNat
              · rw [if_pos hzy] at h2
                simp at h2
              · rw [if_neg hzy] at h2
                rw [if_neg (by omega), if_neg (by omega)]
                exact ih ys zs h1 h2

theorem stringLt_connected (a b : Text) (h1 : stringLt a b = false)
    (h2 : stringLt b a = false) : a = b := by
  induction a generalizing b with
  | nil =>
    cases b with
    | nil => rfl
    | cons y ys => simp [stringLt] at h1
  | cons x xs ih =>
    cases b with
    | nil => simp [stringLt] at h2
    | cons y ys =>
      simp only [stringLt] at h1 h2
      by_cases hxy : x.toNat < y.toNat
      · rw [if_pos hxy] at h1
        simp at h1
      · rw [if_neg hxy] at h1 h2
        by_cases hyx : y.toNat < x.toNat
        · rw [if_pos hyx] at h2
          simp at h2
        · rw [if_neg hyx] at h1 h2
          rw [char_eq_of_toNat x y (by omega), ih ys h1 h2]

theorem stringLt_asymm (a b : Text) (h : stringLt a b = true) : stringLt b a = false := by
  cases hba : stringLt b a with
  | false => rfl
  | true =>
    have := stringLt_trans a b a h hba
    rw [stringLt_irrefl] at this
    simp at this

/-- Not `b < a` is `a ≤ b`. -/
theorem stringLe_of_not_lt (a b : Text) (h : stringLt b a = false) : stringLe a b := by
  cases hab : stringLt a b with
  | true => exact Or.inl hab
  | false => exact Or.inr (stringLt_connected a b hab h)

theorem stringLe_iff (a b : Text) : stringLe a b ↔ stringLt b a = false := by
  constructor
  · rintro (h | rfl)
    · exact stringLt_asymm a b h
    · exact stringLt_irrefl a
  · exact stringLe_of_not_lt a b

/-- The comparison of `sortByName` is a strict weak ordering. -/
theorem nameCompare_strictWeakOrder : StrictWeakOrder nameCompare where
  irrefl a := stringLt_irrefl _
  trans a b c h1 h2 := stringLt_trans _ _ _ h1 h2
  incomp a b c h1 h2 h3 h4 := by
    unfold nameCompare caseInsensitiveSortCompare at *
    rw [stringLt_connected _ _ h1 h2, stringLt_connected _ _ h3 h4]
    exact ⟨stringLt_irrefl _, stringLt_irrefl _⟩

theorem typeCompare_iff (a b : Device) :
    typeCompare a b = true ↔
      stringLt (lowerText a.getDeviceType) (lowerText b.getDeviceType) = true ∨
      (lowerText a.getDeviceType = lowerText b.getDeviceType ∧
        stringLt (lowerText a.getName) (lowerText b.getName) = true) := by
  unfold typeCompare caseInsensitiveSortCompare
  by_cases h1 : stringLt (lowerText a.getDeviceType) (lowerText b.getDeviceType) = true
  · simp [h1]
  · by_cases h2 : stringLt (lowerText b.getDeviceType) (lowerText a.getDeviceType) = true
    · rw [if_neg h1, if_pos h2]
      constructor
      · intro h
        simp at h
      · rintro (h | ⟨e, _⟩)
        · exact absurd h h1
        · rw [e, stringLt_irrefl] at h2
          simp at h2
    · rw [if_neg h1, if_neg h2]
      have e := stringLt_connected _ _ (by simpa using h1) (by simpa using h2)
      constructor
      · intro h
        exact Or.inr ⟨e, h⟩
      · rintro (h | ⟨_, h⟩)
        · exact absurd h h1
        · exact h

theorem typeCompare_false_iff (a b : Device) :
    typeCompare b a = false ↔
      stringLt (lowerText a.getDeviceType) (lowerText b.getDeviceType) = true ∨
      (lowerText a.getDeviceType = lowerText b.getDeviceType ∧
        stringLe (lowerText a.getName) (lowerText b.getName)) := by
  rw [← Bool.not_eq_true, typeCompare_iff, stringLe_iff]
  constructor
  · intro h
    rw [not_or, not_and] at h
    by_cases h1 : stringLt (lowerText a.getDeviceType) (lowerText b.getDeviceType) = true
    · exact Or.inl h1
    · have e := stringLt_connected _ _ (by simpa using h1) (by simpa using h.1)
      exact Or.inr ⟨e, by simpa using h.2 e.symm⟩
  · rintro (h | ⟨e, h⟩)
    · rw [not_or, not_and]
      refine ⟨?_, ?_⟩
      · rw [stringLt_asymm _ _ h]
        simp
      · intro e
        rw [e, stringLt_irrefl] at h
        simp at h
    · rw [not_or, not_and]
      refine ⟨?_, ?_⟩
      · rw [e, stringLt_irrefl]
        simp
      · intro _
        rw [h]
        simp

/-- The comparison of `sortByType` is a strict weak ordering. -/
theorem typeCompare_strictWeakOrder : StrictWeakOrder typeCompare where
  irrefl a := by
    rw [← Bool.not_eq_true, typeCompare_iff]
    simp [stringLt_irrefl]
  trans a b c h1 h2 := by
    rw [typeCompare_iff] at *
    rcases h1 with h1 | ⟨e1, h1⟩
    · rcases h2 with h2 | ⟨e2, h2⟩
      · exact Or.inl (stringLt_trans _ _ _ h1 h2)
      · rw [← e2]
        exact Or.inl h1
    · rcases h2 with h2 | ⟨e2, h2⟩
      · rw [e1]
        exact Or.inl h2
      · exact Or.inr ⟨e1.trans e2, stringLt_trans _ _ _ h1 h2⟩
  incomp a b c h1 h2 h3 h4 := by
    have key : ∀ x y : Device, typeCompare x y = false → typeCompare y x = false →
        lowerText x.getDeviceType = lowerText y.getDeviceType ∧
        lowerText x.getName = lowerText y.getName := by
      intro x y hxy hyx
      rw [typeCompare_false_iff] at hxy hyx
      rcases hxy with hxy | ⟨e, hxy⟩
      · rcases hyx with hyx | ⟨e2, _⟩
        · rw [stringLt_asymm _ _ hxy] at hyx
          simp at hyx
        · rw [e2, stringLt_irrefl] at hxy
          simp at hxy
      · rcases hyx with hyx | ⟨_, hyx⟩
        · rw [e, stringLt_irrefl] at hyx
          simp at hyx
        · refine ⟨e.symm, ?_⟩
          rw [stringLe_iff] at hxy hyx
          exact stringLt_connected _ _ hxy hyx
    obtain ⟨t1, n1⟩ := key a b h1 h2
    obtain ⟨t2, n2⟩ := key b c h3 h4
    constructor
    · rw [typeCompare_false_iff]
      exact Or.inr ⟨(t1.trans t2).symm, Or.inr (n1.trans n2).symm⟩
    · rw [typeCompare_false_iff]
      exact Or.inr ⟨t1.trans t2, Or.inr (n1.trans n2)⟩

/-- Insertion sort meets the contract of `std::sort`. -/
theorem insertionSortBy_stdSort : StdSort insertionSortBy := by
  intro comp h l
  have asymm : ∀ a b, comp a b = true → comp b a = false := by
    intro a b hab
    cases hba : comp b a with
    | false => rfl
    | true =>
      have := h.trans a b a hab hba
      rw [h.irrefl] at this
      simp at this
  haveI : IsTotal Device (fun a b => comp b a = false) := ⟨fun a b => by
    cases hba : comp b a with
    | false => exact Or.inl rfl
    | true => exact Or.inr (asymm b a hba)⟩
  haveI : IsTrans Device (fun a b => comp b a = false) := ⟨fun a b c hab hbc => by
    show comp c a = false
    cases hca : comp c a with
    | false => rfl
    | true =>
      exfalso
      have hab' : comp a b = false := by
        cases e : comp a b with
        | false => rfl
        | true =>
          have := h.trans c a b hca e
          rw [hbc] at this
          simp at this
      have hbc' : comp b c = false := by
        cases e : comp b c with
        | false => rfl
        | true =>
          have := h.trans b c a e hca
          rw [hab] at this
          simp at this
      have := (h.incomp a b c hab' hab hbc' hbc).2
      rw [hca] at this
      simp at this⟩
  exact ⟨List.perm_insertionSort _ l, List.sorted_insertionSort _ l⟩

theorem labelRank_lt (a b : Device) :
    stringLt (lowerText a.getDeviceType) (lowerText b.getDeviceType)
      = decide (labelRank a < labelRank b) := by
  cases a <;> cases b <;> rfl

theorem labelRank_eq (a b : Device) :
    lowerText a.getDeviceType = lowerText b.getDeviceType ↔ labelRank a = labelRank b := by
  cases a <;> cases b <;> simp [labelRank, Device.getDeviceType] <;> decide

/-- C16: with any `std::sort` that meets the library's contract, `sortByName`
leaves a permutation of the registry in which the lowercased name of each device
is lexicographically less than or equal to that of the next one, and indeed to
that of every later one. -/
theorem sortByName_sorted (sort : (Device → Device → Bool) → List Device → List Device)
    (hs : StdSort sort) (devices : List Device) :
    (sortByName sort devices).Perm devices ∧
    (sortByName sort devices).Chain'
      (fun a b => stringLe (lowerText a.getName) (lowerText b.getName)) ∧
    (sortByName sort devices).Pairwise
      (fun a b => stringLe (lowerText a.getName) (lowerText b.getName)) := by
  obtain ⟨hp, hw⟩ := hs nameCompare nameCompare_strictWeakOrder devices
  have hpw : (sortByName sort devices).Pairwise
      (fun a b => stringLe (lowerText a.getName) (lowerText b.getName)) :=
    hw.imp (fun {a b} h => stringLe_of_not_lt _ _ h)
  exact ⟨hp, List.Pairwise.chain' hpw, hpw⟩

/-- C16 (witness): insertion sort in the place of `std::sort` on the registry
`house`, whose names are "Lamp", "Living Room", "Fridge" and "living room". -/
theorem sortByName_sorted_witness :
    StdSort insertionSortBy ∧
    sortByName insertionSortBy house = [fridge, lamp, livingRoom, livingRoomLight] ∧
    (sortByName insertionSortBy house).Perm house ∧
    (sortByName insertionSortBy house).Chain'
      (fun a b => stringLe (lowerText a.getName) (lowerText b.getName)) :=
  ⟨insertionSortBy_stdSort, by decide,
    (sortByName_sorted insertionSortBy insertionSortBy_stdSort house).1,
    (sortByName_sorted insertionSortBy insertionSortBy_stdSort house).2.1⟩

/-- C17: with any `std::sort` that meets the library's contract, `sortByType`
leaves a permutation of the registry in which every device stands before every
device that comes later in the order of the pair (lowercased display label,
lowercased name): the label of the earlier one is smaller, or the labels are
equal and its name is less than or equal. In terms of the classes: Radiator
Valves first, then Smart Lights, Smart Plugs, Speakers, TempHumidity Sensors and
Thermostats, each group by lowercased name. -/
theorem sortByType_sorted (sort : (Device → Device → Bool) → List Device → List Device)
    (hs : StdSort sort) (devices : List Device) :
    (sortByType sort devices).Perm devices ∧
    (sortByType sort devices).Pairwise (fun a b =>
      stringLt (lowerText a.getDeviceType) (lowerText b.getDeviceType) = true ∨
      (lowerText a.getDeviceType = lowerText b.getDeviceType ∧
        stringLe (lowerText a.getName) (lowerText b.getName))) ∧
    (sortByType sort devices).Pairwise (fun a b =>
      labelRank a < labelRank b ∨
      (labelRank a = labelRank b ∧ stringLe (lowerText a.getName) (lowerText b.getName))) := by
  obtain ⟨hp, hw⟩ := hs typeCompare typeCompare_strictWeakOrder devices
  have hpw : (sortByType sort devices).Pairwise (fun a b =>
      stringLt (lowerText a.getDeviceType) (lowerText b.getDeviceType) = true ∨
      (lowerText a.getDeviceType = lowerText b.getDeviceType ∧
        stringLe (lowerText a.getName) (lowerText b.getName))) :=
    hw.imp (fun {a b} h => (typeCompare_false_iff a b).1 h)
  refine ⟨hp, hpw, hpw.imp ?_⟩
  intro a b h
  rcases h with h | ⟨e, h⟩
  · rw [labelRank_lt] at h
    exact Or.inl (by simpa using h)
  · exact Or.inr ⟨(labelRank_eq a b).1 e, h⟩

/-- C17 (witness): insertion sort in the place of `std::sort` on the registry
`house`: the two lights "Lamp" and "living room", the plug "Fridge", the speaker
"Living Room". -/
theorem sortByType_sorted_witness :
    StdSort insertionSortBy ∧
    sortByType insertionSortBy house = [lamp, livingRoomLight, fridge, livingRoom] ∧
    (sortByType insertionSortBy house).Perm house :=
  ⟨insertionSortBy_stdSort, by decide,
    (sortByType_sorted insertionSortBy insertionSortBy_stdSort house).1⟩

/-! ## C18: a timer that runs to its end -/

theorem timerTask_invariant (d : SmartDevice) (h : 0 ≤ d.timer) :
    0 ≤ d.timerTask.dev.timer ∧ (d.timerTask.sleeping = true → 0 < d.timerTask.dev.timer) := by
  unfold SmartDevice.timerTask
  by_cases h1 : d.timer > 0 ∧ d.timerRunning = true ∧ d.isOn = true
  · rw [if_pos h1]
    exact ⟨h, fun _ => h1.1⟩
  · rw [if_neg h1]
    by_cases h2 : d.timer = 0 ∧ d.timerRunning = true ∧ d.isOn = true
    · rw [if_pos h2]
      exact ⟨h, fun hs => by simp at hs⟩
    · rw [if_neg h2]
      by_cases h3 : (!d.isOn) = true
      · rw [if_pos h3]
        exact ⟨h, fun hs => by simp at hs⟩
      · rw [if_neg h3]
        exact ⟨h, fun hs => by simp at hs⟩

/-- With durations that are not negative, `timer` is never negative, and it is
positive while the thread sleeps in its loop. -/
theorem reachable_timer_nonneg (s : Timed) (h : Timed.Reachable s) :
    0 ≤ s.dev.timer ∧ (s.sleeping = true → 0 < s.dev.timer) := by
  induction h with
  | new name => exact ⟨le_refl _, fun hs => by simp at hs⟩
  | set name isOn _ ih => exact ih
  | stop _ ih => exact ih
  | @start s s' seconds _ hsec hstart ih =>
    unfold Timed.startTimer SmartDevice.startTimer at hstart
    by_cases hon : s.dev.isOn = true
    · by_cases hth : s.dev.timerThread = true
      · simp [hon, hth] at hstart
      · simp only [hon, hth, Bool.not_true, Bool.false_eq_true, if_false, if_true,
          Option.some.injEq] at hstart
        rw [← hstart]
        exact timerTask_invariant _ hsec
    · simp only [hon, Bool.not_eq_true] at hstart
      have hoff : s.dev.isOn = false := by simpa using hon
      simp only [hoff, Bool.not_false, if_true, Bool.false_eq_true, if_false,
        Option.some.injEq] at hstart
      rw [← hstart]
      exact ih
  | @tick s _ ih =>
    unfold Timed.tick
    by_cases hs : s.sleeping = true
    · rw [if_pos hs]
      have := ih.2 hs
      exact timerTask_invariant _ (by show 0 ≤ s.dev.timer - 1; omega)
    · rw [if_neg hs]
      exact ih

/-- C19 (as amended): on a device that is on and has no timer thread yet,
`startTimer(seconds)` sets `timer = seconds` and marks the timer running for
every integer `seconds`, positive or not; on a device that is off it changes
nothing. In every state reached from construction by changes of name and on/off
state, `stopTimer`, ticks and calls of `startTimer` with `seconds ≥ 0`, `timer`
is not negative. -/
theorem startTimer_sets_timer_when_on (d : SmartDevice) (seconds : Int) :
    (d.isOn = true → d.timerThread = false →
      d.startTimer seconds
        = some { d with timer := seconds, timerRunning := true, timerThread := true }) ∧
    (d.isOn = false → d.startTimer seconds = some d) ∧
    (∀ s, Timed.Reachable s → 0 ≤ s.dev.timer ∧ (s.sleeping = true → 0 < s.dev.timer)) := by
  refine ⟨?_, ?_, reachable_timer_nonneg⟩
  · intro hon hth
    simp [SmartDevice.startTimer, hon, hth]
  · intro hoff
    simp [SmartDevice.startTimer, hoff]

/-- C19 (witness): `startTimer(30)` on the light "Lamp" that is on, and on the
same light when off. -/
theorem startTimer_sets_timer_when_on_witness :
    lampOn.toSmartDevice.startTimer 30 = some ⟨"Lamp".toList, true, 30, true, true⟩ ∧
    (SmartDevice.new "Lamp".toList).startTimer 30 = some (SmartDevice.new "Lamp".toList) :=
  ⟨(startTimer_sets_timer_when_on lampOn.toSmartDevice 30).1 rfl rfl,
   (startTimer_sets_timer_when_on (SmartDevice.new "Lamp".toList) 30).2.1 rfl⟩

/-- C19 (counterexample): a light is constructed and switched on, and menu choice
3 reads the duration `-5`: although `seconds` is not positive, `startTimer` sets
`timer` to -5 and marks the timer running; the thread ends at once without
clearing the flag, and ticks leave the state as it is. -/
theorem startTimer_accepts_negative_duration :
    SmartLight.Reachable lampOn ∧
    lampOn.handleMenuChoice 3 (IStream.ofText "-5\n".toList) 0
      = some ⟨⟨⟨"Lamp".toList, true, -5, true, true⟩, 100⟩, ⟨['\n'], false, false⟩, none⟩ ∧
    lampOn.toSmartDevice.startTimer (-5) = some ⟨"Lamp".toList, true, -5, true, true⟩ ∧
    Timed.startTimer ⟨lampOn.toSmartDevice, false⟩ (-5)
      = some ⟨⟨"Lamp".toList, true, -5, true, true⟩, false⟩ ∧
    Timed.tick ⟨⟨"Lamp".toList, true, -5, true, true⟩, false⟩
      = ⟨⟨"Lamp".toList, true, -5, true, true⟩, false⟩ :=
  ⟨SmartLight.Reachable.toggle (SmartLight.Reachable.new _), by decide, by decide, by decide,
    by decide⟩

/-! ## C20: a second `startTimer` -/

/-- C20: on a device that is on, after `startTimer(D1)` has started its thread,
a call `startTimer(D2)` does not return: the new thread is assigned to a
`timerThread` that is still joinable, and `std::terminate` ends the process. This
holds at once, after any number of ticks while the timer runs, and also when the
timer was stopped in between. -/
theorem second_startTimer_terminates (name : Text) (D1 D2 : Int) :
    ∃ d1, ({ SmartDevice.new name with isOn := true } : SmartDevice).startTimer D1 = some d1 ∧
      d1.isOn = true ∧ d1.timer = D1 ∧ d1.timerRunning = true ∧
      d1.startTimer D2 = none ∧ d1.stopTimer.startTimer D2 = none ∧
      Timed.startTimer ⟨d1, true⟩ D2 = none := by
  refine ⟨⟨name, true, D1, true, true⟩, rfl, rfl, rfl, rfl, rfl, rfl, rfl⟩

/-- C20 (failing input): the light "Lamp", on, with `startTimer(5)` and then
`startTimer(3)`, by calls and by menu choice 3 twice. -/
theorem second_startTimer_terminates_on_lamp :
    (lampOn.toSmartDevice.startTimer 5).bind (fun d => d.startTimer 3) = none ∧
    ((lampOn.handleMenuChoice 3 (IStream.ofText "5\n3\n".toList) 0).bind
      (fun r => r.device.handleMenuChoice 3 r.cin 0)) = none := by
  decide

/-! ## C21: the timer task and the foreground -/

theorem timerTask_isOn (d : SmartDevice) :
    d.timerTask.dev.isOn = d.isOn ∨ (d.isOn = true ∧ d.timerTask.dev.isOn = false) := by
  unfold SmartDevice.timerTask
  by_cases h1 : d.timer > 0 ∧ d.timerRunning = true ∧ d.isOn = true
  · rw [if_pos h1]
    exact Or.inl rfl
  · rw [if_neg h1]
    by_cases h2 : d.timer = 0 ∧ d.timerRunning = true ∧ d.isOn = true
    · rw [if_pos h2]
      exact Or.inr ⟨h2.2.2, rfl⟩
    · rw [if_neg h2]
      by_cases h3 : (!d.isOn) = true
      · rw [if_pos h3]
        exact Or.inl rfl
      · rw [if_neg h3]
        exact Or.inl rfl

theorem timerTask_cancelled (d : SmartDevice) (h : d.timerRunning = false ∨ d.isOn = false) :
    d.timerTask = ⟨{ d with timerRunning := false }, false⟩ := by
  unfold SmartDevice.timerTask
  have h1 : ¬ (d.timer > 0 ∧ d.timerRunning = true ∧ d.isOn = true) := by
    rintro ⟨_, h2, h3⟩
    rcases h with h | h
    · rw [h] at h2; exact absurd h2 (by decide)
    · rw [h] at h3; exact absurd h3 (by decide)
  have h2 : ¬ (d.timer = 0 ∧ d.timerRunning = true ∧ d.isOn = true) := by
    rintro ⟨_, h2, h3⟩
    rcases h with h | h
    · rw [h] at h2; exact absurd h2 (by decide)
    · rw [h] at h3; exact absurd h3 (by decide)
  rw [if_neg h1, if_neg h2]
  by_cases h3 : (!d.isOn) = true
  · rw [if_pos h3]
  · rw [if_neg h3]
    have hon : d.isOn = true := by simpa using h3
    rcases h with h | h
    · obtain ⟨name, isOn, timer, running, thread⟩ := d
      simp only at h
      subst h
      rfl
    · rw [h] at hon; exact absurd hon (by decide)

theorem tick_isOn (s : Timed) :
    s.tick.dev.isOn = s.dev.isOn ∨ (s.dev.isOn = true ∧ s.tick.dev.isOn = false) := by
  unfold Timed.tick
  by_cases hs : s.sleeping = true
  · rw [if_pos hs]
    exact timerTask_isOn { s.dev with timer := s.dev.timer - 1 }
  · rw [if_neg hs]
    exact Or.inl rfl

theorem tick_cancelled (s : Timed) (h : s.dev.timerRunning = false ∨ s.dev.isOn = false) :
    s.tick.sleeping = false ∧ s.tick.dev.isOn = s.dev.isOn ∧
      s.tick.dev.timerRunning = false ∨ s.tick = s := by
  unfold Timed.tick
  by_cases hs : s.sleeping = true
  · rw [if_pos hs, timerTask_cancelled { s.dev with timer := s.dev.timer - 1 } h]
    exact Or.inl ⟨rfl, rfl, rfl⟩
  · rw [if_neg hs]
    exact Or.inr rfl

theorem step_foreground_running (s : Timed) (op : TimerOp) (h : s.dev.timerRunning = false) :
    (s.step op).dev.timerRunning = false := by
  cases op with
  | toggle =>
    simp only [Timed.step, SmartDevice.toggle, SmartDevice.stopTimer]
    split <;> simp [h]
  | stopTimer => rfl
  | tick =>
    simp only [Timed.step]
    rcases tick_cancelled s (Or.inl h) with h' | h'
    · exact h'.2.2
    · rw [h']; exact h

theorem run_running (s : Timed) (ops : List TimerOp) (h : s.dev.timerRunning = false) :
    (s.run ops).dev.timerRunning = false := by
  induction ops generalizing s with
  | nil => exact h
  | cons op rest ih => exact ih (s.step op) (step_foreground_running s op h)

theorem step_sleeping (s : Timed) (op : TimerOp) (h : s.sleeping = false) :
    (s.step op).sleeping = false := by
  cases op with
  | toggle => exact h
  | stopTimer => exact h
  | tick =>
    simp only [Timed.step, Timed.tick, h]
    exact h

theorem run_sleeping (s : Timed) (ops : List TimerOp) (h : s.sleeping = false) :
    (s.run ops).sleeping = false := by
  induction ops generalizing s with
  | nil => exact h
  | cons op rest ih => exact ih (s.step op) (step_sleeping s op h)

theorem run_foreground_sleeping (s : Timed) (fg : List TimerOp)
    (hfg : ∀ op ∈ fg, op ≠ TimerOp.tick) : (s.run fg).sleeping = s.sleeping := by
  induction fg generalizing s with
  | nil => rfl
  | cons op rest ih =>
    have h := ih (s.step op) (fun o ho => hfg o (List.mem_cons_of_mem _ ho))
    have h2 : (s.step op).sleeping = s.sleeping := by
      cases op with
      | toggle => rfl
      | stopTimer => rfl
      | tick => exact absurd rfl (hfg _ (List.mem_cons_self _ _))
    exact h.trans h2

theorem run_stays_off (s : Timed) (ops : List TimerOp) (hops : ∀ op ∈ ops, op ≠ TimerOp.toggle)
    (h : s.dev.isOn = false) : (s.run ops).dev.isOn = false := by
  induction ops generalizing s with
  | nil => exact h
  | cons op rest ih =>
    refine ih (s.step op) (fun o ho => hops o (List.mem_cons_of_mem _ ho)) ?_
    cases op with
    | toggle => exact absurd rfl (hops _ (List.mem_cons_self _ _))
    | stopTimer => exact h
    | tick =>
      simp only [Timed.step]
      rcases tick_isOn s with h' | h'
      · rw [h', h]
      · exact h'.2

/-- C21: in the tick model, in any state `s` (so after any interleaving of
toggles, `stopTimer` calls and ticks): a tick leaves `isOn` unchanged or changes
it from true to false; ticks and `stopTimer` calls alone never turn an off device
on; and once `stopTimer` was called or a toggle turned the device off while the
thread was asleep, then, whatever foreground operations follow, the running flag
is false, the next tick ends the thread with `isOn` exactly as the foreground
left it, and no later operation wakes the thread again. -/
theorem timer_task_never_switches_on (s : Timed) :
    (s.tick.dev.isOn = s.dev.isOn ∨ (s.dev.isOn = true ∧ s.tick.dev.isOn = false)) ∧
    (∀ ops, (∀ op ∈ ops, op ≠ TimerOp.toggle) → s.dev.isOn = false →
      (s.run ops).dev.isOn = false) ∧
    (∀ (c : TimerOp) (fg : List TimerOp), s.sleeping = true →
      (c = TimerOp.stopTimer ∨ (c = TimerOp.toggle ∧ s.dev.isOn = true)) →
      (∀ op ∈ fg, op ≠ TimerOp.tick) →
      ((s.step c).run fg).sleeping = true ∧
      ((s.step c).run fg).dev.timerRunning = false ∧
      ((s.step c).run fg).tick.sleeping = false ∧
      ((s.step c).run fg).tick.dev.isOn = ((s.step c).run fg).dev.isOn ∧
      ∀ later, (((s.step c).run fg).tick.run later).sleeping = false) := by
  refine ⟨tick_isOn s, fun ops hops h => run_stays_off s ops hops h, ?_⟩
  intro c fg hs hc hfg
  have hstop : (s.step c).dev.timerRunning = false := by
    rcases hc with rfl | ⟨rfl, hon⟩
    · rfl
    · simp [Timed.step, SmartDevice.toggle, SmartDevice.stopTimer, hon]
  have hsl : (s.step c).sleeping = true := by
    rcases hc with rfl | ⟨rfl, _⟩
    · exact hs
    · exact hs
  have hrun := run_running (s.step c) fg hstop
  have hsleep : ((s.step c).run fg).sleeping = true := by
    rw [run_foreground_sleeping _ fg hfg]
    exact hsl
  have htick : ((s.step c).run fg).tick
      = ⟨{ ((s.step c).run fg).dev with timer := ((s.step c).run fg).dev.timer - 1,
                                        timerRunning := false }, false⟩ := by
    unfold Timed.tick
    rw [if_pos hsleep]
    exact timerTask_cancelled _ (Or.inl hrun)
  refine ⟨hsleep, hrun, ?_, ?_, ?_⟩
  · rw [htick]
  · rw [htick]
  · intro later
    exact run_sleeping _ later (by rw [htick])

/-- C21 (witness): a timer of 5 seconds on an on device; after one tick the
device is toggled off and on again, and the next tick ends the thread with the
device on; `stopTimer` instead of the toggles does the same. -/
theorem timer_task_never_switches_on_witness :
    Timed.run ⟨⟨"Lamp".toList, true, 4, true, true⟩, true⟩
        [TimerOp.toggle, TimerOp.toggle, TimerOp.tick]
      = ⟨⟨"Lamp".toList, true, 3, false, true⟩, false⟩ ∧
    (((Timed.step ⟨⟨"Lamp".toList, true, 4, true, true⟩, true⟩ TimerOp.toggle).run
        [TimerOp.toggle]).tick.sleeping = false ∧
      ((Timed.step ⟨⟨"Lamp".toList, true, 4, true, true⟩, true⟩ TimerOp.toggle).run
        [TimerOp.toggle]).tick.dev.isOn
      = ((Timed.step ⟨⟨"Lamp".toList, true, 4, true, true⟩, true⟩ TimerOp.toggle).run
        [TimerOp.toggle]).dev.isOn) :=
  ⟨by decide,
   ((timer_task_never_switches_on ⟨⟨"Lamp".toList, true, 4, true, true⟩, true⟩).2.2
      TimerOp.toggle [TimerOp.toggle] rfl (Or.inr ⟨rfl, rfl⟩) (by decide)).2.2.1,
   ((timer_task_never_switches_on ⟨⟨"Lamp".toList, true, 4, true, true⟩, true⟩).2.2
      TimerOp.toggle [TimerOp.toggle] rfl (Or.inr ⟨rfl, rfl⟩) (by decide)).2.2.2.1⟩

/-! ## C22: the toggle of lights and plugs -/

theorem light_toggle_base (d : SmartLight) :
    d.oneClickAction.toSmartDevice = d.toSmartDevice.toggle := by
  obtain ⟨⟨name, isOn, timer, running, thread⟩, brightness⟩ := d
  cases isOn <;> rfl

theorem plug_toggle_base (d : SmartPlug) (now : Int) :
    (d.oneClickAction now).toSmartDevice = d.toSmartDevice.toggle := by
  obtain ⟨⟨name, isOn, timer, running, thread⟩, sl, hu, sch, te, lu⟩ := d
  cases isOn
  · rfl
  · simp [SmartPlug.oneClickAction, SmartPlug.updateHistoricData, SmartDevice.toggle,
      SmartDevice.stopTimer]

/-- C22: `oneClickAction` of a light and of a plug negates `isOn`. When the
device was on, it is off afterwards with the running flag false and everything
else as before (the plug records no energy, its `isOn` being false already when
`updateHistoricData` runs). When it was off, it is on afterwards with the timer
state (`timer`, running flag, thread) as before; the brightness of the light and
the `totalEnergy` of the plug are unchanged, the plug takes `now` as
`lastUpdateTime`. -/
theorem toggle_negates_and_stops_timer :
    (∀ d : SmartLight,
      d.oneClickAction.isOn = (!d.isOn) ∧ d.oneClickAction.brightness = d.brightness ∧
      (d.isOn = true → d.oneClickAction.timerRunning = false ∧
        d.oneClickAction = { d with isOn := false, timerRunning := false }) ∧
      (d.isOn = false → d.oneClickAction.timer = d.timer ∧
        d.oneClickAction.timerRunning = d.timerRunning ∧
        d.oneClickAction.timerThread = d.timerThread ∧
        d.oneClickAction = { d with isOn := true })) ∧
    (∀ (d : SmartPlug) (now : Int),
      (d.oneClickAction now).isOn = (!d.isOn) ∧
      (d.isOn = true → (d.oneClickAction now).timerRunning = false ∧
        d.oneClickAction now = { d with isOn := false, timerRunning := false }) ∧
      (d.isOn = false → (d.oneClickAction now).timer = d.timer ∧
        (d.oneClickAction now).timerRunning = d.timerRunning ∧
        (d.oneClickAction now).timerThread = d.timerThread ∧
        (d.oneClickAction now).totalEnergy = d.totalEnergy ∧
        d.oneClickAction now = { d with isOn := true, lastUpdateTime := now })) := by
  constructor
  · intro d
    obtain ⟨⟨name, isOn, timer, running, thread⟩, brightness⟩ := d
    cases isOn
    · exact ⟨rfl, rfl, fun h => by simp at h, fun _ => ⟨rfl, rfl, rfl, rfl⟩⟩
    · exact ⟨rfl, rfl, fun _ => ⟨rfl, rfl⟩, fun h => by simp at h⟩
  · intro d now
    obtain ⟨⟨name, isOn, timer, running, thread⟩, sl, hu, sch, te, lu⟩ := d
    cases isOn
    · exact ⟨rfl, fun h => by simp at h, fun _ => ⟨rfl, rfl, rfl, rfl, rfl⟩⟩
    · have h : SmartPlug.oneClickAction ⟨⟨name, true, timer, running, thread⟩, sl, hu, sch, te, lu⟩
          now = ⟨⟨name, false, timer, false, thread⟩, sl, hu, sch, te, lu⟩ := by
        simp [SmartPlug.oneClickAction, SmartPlug.updateHistoricData, SmartDevice.stopTimer]
      rw [h]
      exact ⟨rfl, fun _ => ⟨rfl, rfl⟩, fun h => by simp at h⟩

/-- C22 (witness): the light "Lamp", on with a running timer, is toggled off; the
plug "Kettle", off with energy 3 and 7 seconds left on a stopped timer, is
toggled on at time 50. -/
theorem toggle_negates_and_stops_timer_witness :
    SmartLight.oneClickAction ⟨⟨"Lamp".toList, true, 9, true, true⟩, 80⟩
      = ⟨⟨"Lamp".toList, false, 9, false, true⟩, 80⟩ ∧
    kettleOff.oneClickAction 50 = ⟨⟨"Kettle".toList, true, 7, false, true⟩, 7, [], [], 3, 50⟩ :=
  ⟨((toggle_negates_and_stops_timer.1 ⟨⟨"Lamp".toList, true, 9, true, true⟩, 80⟩).2.2.1 rfl).2,
   ((toggle_negates_and_stops_timer.2 kettleOff 50).2.2 rfl).2.2.2.2⟩

/-! ## C23: the speaker's play/stop toggle -/

/-- C23: `oneClickAction` of a speaker negates `isPlaying` and leaves `isOn`,
`volume` and `name` (and the timer members) unchanged, so that two calls restore
the state; `handleMenuChoice` returns for every choice and every input, and the
device it leaves has the `isOn` it had before. -/
theorem speaker_toggle_independent_of_power (d : SmartSpeaker) :
    d.oneClickAction.isPlaying = (!d.isPlaying) ∧
    d.oneClickAction.isOn = d.isOn ∧ d.oneClickAction.volume = d.volume ∧
    d.oneClickAction.name = d.name ∧
    d.oneClickAction.toSmartDevice = d.toSmartDevice ∧
    d.oneClickAction.oneClickAction = d ∧
    (∀ (choice : Int) (cin : IStream) (uninit : Int),
      ∃ r, d.handleMenuChoice choice cin uninit = some r ∧ r.device.isOn = d.isOn) := by
  refine ⟨rfl, rfl, rfl, rfl, rfl, ?_, ?_⟩
  · obtain ⟨base, volume, playing⟩ := d
    cases playing <;> rfl
  · intro choice cin uninit
    unfold SmartSpeaker.handleMenuChoice
    by_cases h1 : choice = 1
    · rw [if_pos h1]; exact ⟨_, rfl, rfl⟩
    rw [if_neg h1]
    by_cases h2 : choice = 2
    · rw [if_pos h2]; exact ⟨_, rfl, rfl⟩
    rw [if_neg h2]
    by_cases h3 : choice = 3
    · rw [if_pos h3]
      by_cases hc : (extractInt cin uninit).2 = 1
      · simp only [hc, if_true]; exact ⟨_, rfl, rfl⟩
      · simp only [hc, if_false]; exact ⟨_, rfl, rfl⟩
    rw [if_neg h3]
    by_cases h5 : choice = 5
    · rw [if_pos h5]; exact ⟨_, rfl, rfl⟩
    rw [if_neg h5]
    exact ⟨_, rfl, rfl⟩

/-! ## C24: menu choices that are not handled -/

/-- C24: for each of the six classes and every integer `choice` outside the
option ids that its `handleMenuChoice` handles (light 1, 2, 3, 5, 6; speaker 1,
2, 3, 5; plug 0 to 8; thermostat 1 to 6; radiator valve 1 to 7; sensor 1 to 6),
`handleMenuChoice(choice)` returns with the device, the input stream and the
file exactly as they were and without a call of `removeDevice`. -/
theorem unhandled_choice_changes_nothing (choice : Int) (cin : IStream) (file : Text)
    (now uninit index0 choice0 hour0 minute0 stamp : Int) (temperature humidity : ℚ)
    (extractFloat : IStream → IStream) :
    (∀ d : SmartLight, choice ∉ ([1, 2, 3, 5, 6] : List Int) →
      d.handleMenuChoice choice cin uninit = some ⟨d, cin, none⟩) ∧
    (∀ d : SmartSpeaker, choice ∉ ([1, 2, 3, 5] : List Int) →
      d.handleMenuChoice choice cin uninit = some ⟨d, cin, none⟩) ∧
    (∀ d : SmartPlug, ¬ (0 ≤ choice ∧ choice ≤ 8) →
      d.handleMenuChoice choice cin file now uninit index0 choice0 hour0 minute0
        = some ⟨d, cin, file, none⟩) ∧
    (∀ d : Thermostat, ¬ (1 ≤ choice ∧ choice ≤ 6) →
      d.handleMenuChoice choice cin file uninit index0 choice0 hour0 minute0
        = ⟨d, cin, file, none⟩) ∧
    (∀ d : RadiatorValve, ¬ (1 ≤ choice ∧ choice ≤ 7) →
      d.handleMenuChoice extractFloat choice cin file uninit index0 choice0 hour0 minute0
        = ⟨d, cin, file, none⟩) ∧
    (∀ d : TempHumiditySensor, ¬ (1 ≤ choice ∧ choice ≤ 6) →
      d.handleMenuChoice choice cin temperature humidity stamp now uninit = ⟨d, cin, none⟩) := by
  refine ⟨fun d h => ?_, fun d h => ?_, fun d h => ?_, fun d h => ?_, fun d h => ?_,
    fun d h => ?_⟩
  · simp only [List.mem_cons, List.mem_singleton, List.not_mem_nil, or_false, not_or] at h
    obtain ⟨h1, h2, h3, h5, h6⟩ := h
    simp only [SmartLight.handleMenuChoice, h1, h2, h3, h5, h6, if_false]
  · simp only [List.mem_cons, List.mem_singleton, List.not_mem_nil, or_false, not_or] at h
    obtain ⟨h1, h2, h3, h5⟩ := h
    simp only [SmartSpeaker.handleMenuChoice, h1, h2, h3, h5, if_false]
  · have h0 : choice ≠ 0 := by omega
    have h1 : choice ≠ 1 := by omega
    have h2 : choice ≠ 2 := by omega
    have h3 : choice ≠ 3 := by omega
    have h4 : choice ≠ 4 := by omega
    have h5 : choice ≠ 5 := by omega
    have h6 : choice ≠ 6 := by omega
    have h7 : choice ≠ 7 := by omega
    have h8 : choice ≠ 8 := by omega
    simp only [SmartPlug.handleMenuChoice, h0, h1, h2, h3, h4, h5, h6, h7, h8, if_false]
  · have h1 : choice ≠ 1 := by omega
    have h2 : choice ≠ 2 := by omega
    have h3 : choice ≠ 3 := by omega
    have h4 : choice ≠ 4 := by omega
    have h5 : choice ≠ 5 := by omega
    have h6 : choice ≠ 6 := by omega
    simp only [Thermostat.handleMenuChoice, h1, h2, h3, h4, h5, h6, if_false]
  · have h1 : choice ≠ 1 := by omega
    have h2 : choice ≠ 2 := by omega
    have h3 : choice ≠ 3 := by omega
    have h4 : choice ≠ 4 := by omega
    have h5 : choice ≠ 5 := by omega
    have h6 : choice ≠ 6 := by omega
    have h7 : choice ≠ 7 := by omega
    simp only [RadiatorValve.handleMenuChoice, h1, h2, h3, h4, h5, h6, h7, if_false]
  · have h1 : choice ≠ 1 := by omega
    have h2 : choice ≠ 2 := by omega
    have h3 : choice ≠ 3 := by omega
    have h4 : choice ≠ 4 := by omega
    have h5 : choice ≠ 5 := by omega
    have h6 : choice ≠ 6 := by omega
    simp only [TempHumiditySensor.handleMenuChoice, h1, h2, h3, h4, h5, h6, if_false]

/-- C24 (witness): choice 4 on the light "Lamp", choice 9 on the plug "Kettle"
and choice -1 on the thermostat "Hall" with three schedule entries. -/
theorem unhandled_choice_changes_nothing_witness :
    lampOn.handleMenuChoice 4 (IStream.ofText "7\n".toList) 0
      = some ⟨lampOn, IStream.ofText "7\n".toList, none⟩ ∧
    kettle.handleMenuChoice 9 (IStream.ofText "7\n".toList) hallFile 50 0 0 0 0 0
      = some ⟨kettle, IStream.ofText "7\n".toList, hallFile, none⟩ ∧
    hallThree.handleMenuChoice (-1) (IStream.ofText "7\n".toList) hallFile 0 0 0 0 0
      = ⟨hallThree, IStream.ofText "7\n".toList, hallFile, none⟩ :=
  ⟨(unhandled_choice_changes_nothing 4 (IStream.ofText "7\n".toList) hallFile 50 0 0 0 0 0 0 0 0
      id).1 lampOn (by decide),
   (unhandled_choice_changes_nothing 9 (IStream.ofText "7\n".toList) hallFile 50 0 0 0 0 0 0 0 0
      id).2.2.1 kettle (by decide),
   (unhandled_choice_changes_nothing (-1) (IStream.ofText "7\n".toList) hallFile 50 0 0 0 0 0 0
      0 0 id).2.2.2.1 hallThree (by decide)⟩

/-! ## C25: the fields of a record -/

theorem splitFields_of_no_pipe (a : Text) (h : '|' ∉ a) : splitFields a = [a] := by
  induction a with
  | nil => rfl
  | cons c cs ih =>
    have hc : c ≠ '|' := fun e => h (e ▸ List.mem_cons_self _ _)
    have hcs : '|' ∉ cs := fun e => h (List.mem_cons_of_mem _ e)
    simp only [splitFields, hc, if_false, ih hcs]

theorem splitFields_field (a b : Text) (h : '|' ∉ a) :
    splitFields (a ++ '|' :: b) = a :: splitFields b := by
  induction a with
  | nil => simp [splitFields]
  | cons c cs ih =>
    have hc : c ≠ '|' := fun e => h (e ▸ List.mem_cons_self _ _)
    have hcs : '|' ∉ cs := fun e => h (List.mem_cons_of_mem _ e)
    have e := ih hcs
    simp only [List.cons_append, splitFields, hc, if_false]
    show (match splitFields (cs ++ '|' :: b) with
      | f :: fs => (c :: f) :: fs
      | [] => [[c]]) = (c :: cs) :: splitFields b
    rw [e]

theorem showBool_eq (b : Bool) : showBool b = if b = true then "1".toList else "0".toList := by
  cases b <;> rfl

theorem fracText_no_pipe (ds : Text) (h : '|' ∉ ds) : '|' ∉ fracText ds := by
  unfold fracText
  have hs : '|' ∉ stripZeros ds := by
    unfold stripZeros
    intro hm
    rw [List.mem_reverse] at hm
    exact h (List.mem_reverse.1 ((List.dropWhile_sublist _).subset hm))
  cases hz : stripZeros ds with
  | nil => simp
  | cons x xs =>
    rw [hz] at hs
    simp only [List.mem_cons, not_or] at hs ⊢
    exact ⟨by decide, hs.1, hs.2⟩

theorem natDigits_no_pipe (fuel n : Nat) : '|' ∉ natDigits fuel n :=
  fun h => (natDigits_isDigitChar fuel n _ h).ne_pipe rfl

theorem showNat_no_pipe (n : Nat) : '|' ∉ showNat n :=
  fun h => (showNat_isDigitChar n _ h).ne_pipe rfl

theorem putPos_no_pipe (n d : Nat) : '|' ∉ putPos n d := by
  unfold putPos
  have hd := natDigits_no_pipe 7 (sixDigits n d).1
  have htake : ∀ k, '|' ∉ (natDigits 7 (sixDigits n d).1).take k :=
    fun k hm => hd (List.mem_of_mem_take hm)
  have hdrop : ∀ k, '|' ∉ (natDigits 7 (sixDigits n d).1).drop k :=
    fun k hm => hd (List.mem_of_mem_drop hm)
  simp only
  split
  · split
    · simp only [List.mem_append, not_or]
      exact ⟨htake _, fracText_no_pipe _ (hdrop _)⟩
    · simp only [List.mem_cons, not_or]
      refine ⟨by decide, fracText_no_pipe _ ?_⟩
      simp only [List.mem_append, List.mem_replicate, not_or, not_and]
      exact ⟨fun _ => by decide, hd⟩
  · simp only [List.mem_append, List.mem_cons, not_or]
    refine ⟨⟨htake _, fracText_no_pipe _ (hdrop _)⟩, by decide, ?_, ?_⟩
    · split <;> decide
    · split
      · simp only [List.mem_cons, not_or]
        exact ⟨by decide, showNat_no_pipe _⟩
      · exact showNat_no_pipe _

/-- The float text written by the model of the library never contains `|`. -/
theorem putFloat_no_pipe (q : ℚ) : '|' ∉ cxxFloatText.put q := by
  show '|' ∉ putFloat q
  unfold putFloat
  split
  · decide
  · split
    · simp only [List.mem_cons, not_or]
      exact ⟨by decide, putPos_no_pipe _ _⟩
    · exact putPos_no_pipe _ _

/-- C25: the text returned by `serialize` is the tag, `|`, the name, `|`, `1` or
`0` for `isOn`, and then for a light `|` and the decimal brightness, for a
speaker `|`, the decimal volume, `|` and `1` or `0` for `isPlaying`, for a plug
and a sensor `|` and the text of `totalEnergy`, for a thermostat and a radiator
valve nothing; the tags are LIGHT, SPEAKER, PLUG, TEMPHUMIDITY, THERMOSTAT and
RADIATOR. For a name without `|` (and a float text without `|`, as that of the
library model always is) the fields between the `|` characters are exactly
these: 4 for a light, 5 for a speaker, 4 for a plug and a sensor, 3 for a
thermostat and a radiator valve. -/
theorem serialize_fields (ft : FloatText) :
    (∀ d : SmartLight,
      d.serialize = "LIGHT".toList ++ '|' :: (d.name ++ '|' ::
        ((if d.isOn = true then "1".toList else "0".toList) ++ '|' :: showInt d.brightness)) ∧
      ('|' ∉ d.name → splitFields d.serialize
        = ["LIGHT".toList, d.name, if d.isOn = true then "1".toList else "0".toList,
           showInt d.brightness])) ∧
    (∀ d : SmartSpeaker,
      d.serialize = "SPEAKER".toList ++ '|' :: (d.name ++ '|' ::
        ((if d.isOn = true then "1".toList else "0".toList) ++ '|' :: (showInt d.volume ++
          '|' :: (if d.isPlaying = true then "1".toList else "0".toList)))) ∧
      ('|' ∉ d.name → splitFields d.serialize
        = ["SPEAKER".toList, d.name, if d.isOn = true then "1".toList else "0".toList,
           showInt d.volume, if d.isPlaying = true then "1".toList else "0".toList])) ∧
    (∀ d : SmartPlug,
      d.serialize ft = "PLUG".toList ++ '|' :: (d.name ++ '|' ::
        ((if d.isOn = true then "1".toList else "0".toList) ++ '|' :: ft.put d.totalEnergy)) ∧
      ('|' ∉ d.name → '|' ∉ ft.put d.totalEnergy → splitFields (d.serialize ft)
        = ["PLUG".toList, d.name, if d.isOn = true then "1".toList else "0".toList,
           ft.put d.totalEnergy])) ∧
    (∀ d : TempHumiditySensor,
      d.serialize ft = "TEMPHUMIDITY".toList ++ '|' :: (d.name ++ '|' ::
        ((if d.isOn = true then "1".toList else "0".toList) ++ '|' :: ft.put d.totalEnergy)) ∧
      ('|' ∉ d.name → '|' ∉ ft.put d.totalEnergy → splitFields (d.serialize ft)
        = ["TEMPHUMIDITY".toList, d.name, if d.isOn = true then "1".toList else "0".toList,
           ft.put d.totalEnergy])) ∧
    (∀ d : Thermostat,
      d.serialize = "THERMOSTAT".toList ++ '|' :: (d.name ++ '|' ::
        (if d.isOn = true then "1".toList else "0".toList)) ∧
      ('|' ∉ d.name → splitFields d.serialize
        = ["THERMOSTAT".toList, d.name, if d.isOn = true then "1".toList else "0".toList])) ∧
    (∀ d : RadiatorValve,
      d.serialize = "RADIATOR".toList ++ '|' :: (d.name ++ '|' ::
        (if d.isOn = true then "1".toList else "0".toList)) ∧
      ('|' ∉ d.name → splitFields d.serialize
        = ["RADIATOR".toList, d.name, if d.isOn = true then "1".toList else "0".toList])) := by
  have hb : ∀ b : Bool, '|' ∉ (if b = true then "1".toList else "0".toList) := by
    intro b; cases b <;> decide
  refine ⟨fun d => ?_, fun d => ?_, fun d => ?_, fun d => ?_, fun d => ?_, fun d => ?_⟩
  · have e := light_serialize_eq d
    rw [showBool_eq] at e
    refine ⟨e, fun hn => ?_⟩
    rw [e, splitFields_field _ _ (by decide), splitFields_field _ _ hn,
      splitFields_field _ _ (hb _), splitFields_of_no_pipe _ (showInt_no_pipe _)]
  · have e := speaker_serialize_eq d
    rw [showBool_eq, showBool_eq] at e
    refine ⟨e, fun hn => ?_⟩
    rw [e, splitFields_field _ _ (by decide), splitFields_field _ _ hn,
      splitFields_field _ _ (hb _), splitFields_field _ _ (showInt_no_pipe _),
      splitFields_of_no_pipe _ (hb _)]
  · have e := plug_serialize_eq ft d
    rw [showBool_eq] at e
    refine ⟨e, fun hn hf => ?_⟩
    rw [e, splitFields_field _ _ (by decide), splitFields_field _ _ hn,
      splitFields_field _ _ (hb _), splitFields_of_no_pipe _ hf]
  · have e := sensor_serialize_eq ft d
    rw [showBool_eq] at e
    refine ⟨e, fun hn hf => ?_⟩
    rw [e, splitFields_field _ _ (by decide), splitFields_field _ _ hn,
      splitFields_field _ _ (hb _), splitFields_of_no_pipe _ hf]
  · have e := thermostat_serialize_eq d
    rw [showBool_eq] at e
    refine ⟨e, fun hn => ?_⟩
    rw [e, splitFields_field _ _ (by decide), splitFields_field _ _ hn,
      splitFields_of_no_pipe _ (hb _)]
  · have e := radiator_serialize_eq d
    rw [showBool_eq] at e
    refine ⟨e, fun hn => ?_⟩
    rw [e, splitFields_field _ _ (by decide), splitFields_field _ _ hn,
      splitFields_of_no_pipe _ (hb _)]

/-- C25 (witness): the light "Lamp" (on, brightness 80) and the plug "Fridge"
(off, energy 12.5) with the float text of the library model. -/
theorem serialize_fields_witness :
    splitFields (Device.serialize cxxFloatText lamp)
      = ["LIGHT".toList, "Lamp".toList, "1".toList, "80".toList] ∧
    splitFields (Device.serialize cxxFloatText fridge)
      = ["PLUG".toList, "Fridge".toList, "0".toList, "12.5".toList] :=
  ⟨(((serialize_fields cxxFloatText).1 ⟨⟨"Lamp".toList, true, 0, false, false⟩, 80⟩).2
      (by decide)).trans (by decide),
   (((serialize_fields cxxFloatText).2.2.1
      ⟨⟨"Fridge".toList, false, 0, false, false⟩, 0, [], [], mkRat 25 2, 0⟩).2
      (by decide) (putFloat_no_pipe _)).trans (by decide)⟩

/-! ## C26: what a record does not hold -/

theorem light_deserialize_frame (d d' : SmartLight) (data : Text)
    (h : d.deserialize data = .ok d') :
    d'.timer = d.timer ∧ d'.timerRunning = d.timerRunning ∧ d'.timerThread = d.timerThread := by
  simp only [SmartLight.deserialize] at h
  split at h
  · exact absurd h (by simp)
  · simp only [Except.ok.injEq] at h
    subst h
    exact ⟨rfl, rfl, rfl⟩

theorem speaker_deserialize_frame (d d' : SmartSpeaker) (data : Text)
    (h : d.deserialize data = .ok d') :
    d'.timer = d.timer ∧ d'.timerRunning = d.timerRunning ∧ d'.timerThread = d.timerThread := by
  simp only [SmartSpeaker.deserialize] at h
  split at h
  · exact absurd h (by simp)
  · simp only [Except.ok.injEq] at h
    subst h
    exact ⟨rfl, rfl, rfl⟩

theorem plug_deserialize_frame (ft : FloatText) (d d' : SmartPlug) (data : Text)
    (h : d.deserialize ft data = .ok d') :
    d'.timer = d.timer ∧ d'.timerRunning = d.timerRunning ∧ d'.timerThread = d.timerThread ∧
    d'.sleepTimer = d.sleepTimer ∧ d'.historicUsage = d.historicUsage ∧
    d'.schedules = d.schedules ∧ d'.lastUpdateTime = d.lastUpdateTime := by
  simp only [SmartPlug.deserialize] at h
  split at h
  · exact absurd h (by simp)
  · simp only [Except.ok.injEq] at h
    subst h
    exact ⟨rfl, rfl, rfl, rfl, rfl, rfl, rfl⟩

theorem sensor_deserialize_frame (ft : FloatText) (d d' : TempHumiditySensor) (data : Text)
    (h : d.deserialize ft data = .ok d') :
    d'.timer = d.timer ∧ d'.timerRunning = d.timerRunning ∧ d'.timerThread = d.timerThread ∧
    d'.historicData = d.historicData ∧ d'.historicUsage = d.historicUsage ∧
    d'.lastUpdateTime = d.lastUpdateTime := by
  simp only [TempHumiditySensor.deserialize] at h
  split at h
  · exact absurd h (by simp)
  · simp only [Except.ok.injEq] at h
    subst h
    exact ⟨rfl, rfl, rfl, rfl, rfl, rfl⟩

theorem thermostat_deserialize_frame (d d' : Thermostat) (data : Text)
    (h : d.deserialize data = .ok d') :
    d'.timer = d.timer ∧ d'.timerRunning = d.timerRunning ∧ d'.timerThread = d.timerThread ∧
    d'.schedules = d.schedules := by
  simp only [Thermostat.deserialize, Except.ok.injEq] at h
  subst h
  exact ⟨rfl, rfl, rfl, rfl⟩

theorem radiator_deserialize_frame (d d' : RadiatorValve) (data : Text)
    (h : d.deserialize data = .ok d') :
    d'.timer = d.timer ∧ d'.timerRunning = d.timerRunning ∧ d'.timerThread = d.timerThread ∧
    d'.schedules = d.schedules := by
  simp only [RadiatorValve.deserialize, Except.ok.injEq] at h
  subst h
  exact ⟨rfl, rfl, rfl, rfl⟩

/-- C26: two devices of the same class that agree on `name`, `isOn` and the
extra fields that `serialize` writes (brightness; volume and `isPlaying`;
`totalEnergy`) have the same `serialize` text, whatever their timer members,
`lastUpdateTime`, logs and schedule lists are; and every device that
`deserialize` yields on a freshly constructed device, for any text, has the
timer not running and at 0 with no thread, and for a plug an empty energy log,
for a sensor empty energy and reading logs. -/
theorem transient_state_not_persisted (ft : FloatText) :
    (∀ a b : Device, a.persistedEq b → a.serialize ft = b.serialize ft) ∧
    (∀ (name0 data : Text) (d : SmartLight), (SmartLight.new name0).deserialize data = .ok d →
      d.timerRunning = false ∧ d.timer = 0 ∧ d.timerThread = false) ∧
    (∀ (name0 data : Text) (d : SmartSpeaker),
      (SmartSpeaker.new name0).deserialize data = .ok d →
      d.timerRunning = false ∧ d.timer = 0 ∧ d.timerThread = false) ∧
    (∀ (file : Text) (now hour0 minute0 : Int) (name0 data : Text) (d : SmartPlug),
      (SmartPlug.new file now hour0 minute0 name0).deserialize ft data = .ok d →
      d.timerRunning = false ∧ d.timer = 0 ∧ d.timerThread = false ∧ d.historicUsage = []) ∧
    (∀ (now : Int) (name0 data : Text) (d : TempHumiditySensor),
      (TempHumiditySensor.new now name0).deserialize ft data = .ok d →
      d.timerRunning = false ∧ d.timer = 0 ∧ d.timerThread = false ∧ d.historicUsage = [] ∧
      d.historicData = []) ∧
    (∀ (file : Text) (hour0 minute0 : Int) (name0 data : Text) (d : Thermostat),
      (Thermostat.new file hour0 minute0 name0).deserialize data = .ok d →
      d.timerRunning = false ∧ d.timer = 0 ∧ d.timerThread = false) ∧
    (∀ (file : Text) (hour0 minute0 : Int) (name0 data : Text) (d : RadiatorValve),
      (RadiatorValve.new file hour0 minute0 name0).deserialize data = .ok d →
      d.timerRunning = false ∧ d.timer = 0 ∧ d.timerThread = false) := by
  refine ⟨?_, ?_, ?_, ?_, ?_, ?_, ?_⟩
  · intro a b h
    cases a <;> cases b <;> simp only [Device.persistedEq] at h
    · rename_i a b
      simp only [Device.serialize, SmartLight.serialize, h.1, h.2.1, h.2.2]
    · rename_i a b
      simp only [Device.serialize, TempHumiditySensor.serialize, h.1, h.2.1, h.2.2]
    · rename_i a b
      simp only [Device.serialize, SmartSpeaker.serialize, h.1, h.2.1, h.2.2.1, h.2.2.2]
    · rename_i a b
      simp only [Device.serialize, Thermostat.serialize, h.1, h.2]
    · rename_i a b
      simp only [Device.serialize, SmartPlug.serialize, h.1, h.2.1, h.2.2]
    · rename_i a b
      simp only [Device.serialize, RadiatorValve.serialize, h.1, h.2]
  · intro name0 data d h
    obtain ⟨h1, h2, h3⟩ := light_deserialize_frame _ _ _ h
    exact ⟨h2, h1, h3⟩
  · intro name0 data d h
    obtain ⟨h1, h2, h3⟩ := speaker_deserialize_frame _ _ _ h
    exact ⟨h2, h1, h3⟩
  · intro file now hour0 minute0 name0 data d h
    obtain ⟨h1, h2, h3, _, h5, _, _⟩ := plug_deserialize_frame ft _ _ _ h
    exact ⟨h2, h1, h3, h5⟩
  · intro now name0 data d h
    obtain ⟨h1, h2, h3, h4, h5, _⟩ := sensor_deserialize_frame ft _ _ _ h
    exact ⟨h2, h1, h3, h5, h4⟩
  · intro file hour0 minute0 name0 data d h
    obtain ⟨h1, h2, h3, _⟩ := thermostat_deserialize_frame _ _ _ h
    exact ⟨h2, h1, h3⟩
  · intro file hour0 minute0 name0 data d h
    obtain ⟨h1, h2, h3, _⟩ := radiator_deserialize_frame _ _ _ h
    exact ⟨h2, h1, h3⟩

/-- C26 (witness): the light "Lamp" with and without a running timer, the plug
"Fridge" with and without log, schedule and timer; and the record of "Fridge"
read on a fresh plug at time 99. -/
theorem transient_state_not_persisted_witness :
    Device.serialize cxxFloatText lampTimed = Device.serialize cxxFloatText lamp ∧
    Device.serialize cxxFloatText fridgeUsed = Device.serialize cxxFloatText fridge ∧
    (SmartPlug.new [] 99 0 0 []).deserialize cxxFloatText "PLUG|Fridge|0|12.5".toList
      = .ok ⟨⟨"Fridge".toList, false, 0, false, false⟩, 0, [], [], mkRat 25 2, 99⟩ ∧
    (⟨⟨"Fridge".toList, false, 0, false, false⟩, 0, [], [], mkRat 25 2, 99⟩ :
      SmartPlug).historicUsage = [] :=
  ⟨(transient_state_not_persisted cxxFloatText).1 lampTimed lamp ⟨rfl, rfl, rfl⟩,
   (transient_state_not_persisted cxxFloatText).1 fridgeUsed fridge ⟨rfl, rfl, rfl⟩,
   by decide,
   ((transient_state_not_persisted cxxFloatText).2.2.2.1 [] 99 0 0 [] "PLUG|Fridge|0|12.5".toList
      ⟨⟨"Fridge".toList, false, 0, false, false⟩, 0, [], [], mkRat 25 2, 99⟩
      (by decide)).2.2.2⟩

/-! ## C28: records of lights, speakers, thermostats and radiator valves -/

/-- C28: for a light, a speaker, a thermostat or a radiator valve `d` whose name
has no `|`, with any `isOn` and `isPlaying` and any value of type `int` as
brightness or volume (negative or above 100 as well), `deserialize` with the text
`serialize(d)`, on a fresh device of the class as on any other, throws nothing
and yields the name, `isOn`, brightness, volume and `isPlaying` of `d`. -/
theorem record_roundtrip_without_energy :
    (∀ x d : SmartLight, '|' ∉ d.name → INT_MIN ≤ d.brightness → d.brightness ≤ INT_MAX →
      ∃ d', x.deserialize d.serialize = .ok d' ∧ d'.name = d.name ∧ d'.isOn = d.isOn ∧
        d'.brightness = d.brightness) ∧
    (∀ x d : SmartSpeaker, '|' ∉ d.name → INT_MIN ≤ d.volume → d.volume ≤ INT_MAX →
      ∃ d', x.deserialize d.serialize = .ok d' ∧ d'.name = d.name ∧ d'.isOn = d.isOn ∧
        d'.volume = d.volume ∧ d'.isPlaying = d.isPlaying) ∧
    (∀ x d : Thermostat, '|' ∉ d.name →
      ∃ d', x.deserialize d.serialize = .ok d' ∧ d'.name = d.name ∧ d'.isOn = d.isOn) ∧
    (∀ x d : RadiatorValve, '|' ∉ d.name →
      ∃ d', x.deserialize d.serialize = .ok d' ∧ d'.name = d.name ∧ d'.isOn = d.isOn) :=
  ⟨fun x d hn h1 h2 => ⟨_, light_deserialize_serialize x d hn h1 h2, rfl, rfl, rfl⟩,
   fun x d hn h1 h2 => ⟨_, speaker_deserialize_serialize x d hn h1 h2, rfl, rfl, rfl, rfl⟩,
   fun x d hn => ⟨_, thermostat_deserialize_serialize x d hn, rfl, rfl⟩,
   fun x d hn => ⟨_, radiator_deserialize_serialize x d hn, rfl, rfl⟩⟩

/-- C28 (witness): a light with brightness 500 and a speaker with volume -5 and
the empty name, each read on a freshly constructed device. -/
theorem record_roundtrip_without_energy_witness :
    (∃ d', (SmartLight.new []).deserialize
        (SmartLight.serialize ⟨⟨"Lamp".toList, true, 3, true, true⟩, 500⟩) = .ok d' ∧
      d'.name = "Lamp".toList ∧ d'.isOn = true ∧ d'.brightness = 500) ∧
    (∃ d', (SmartSpeaker.new "x".toList).deserialize
        (SmartSpeaker.serialize ⟨⟨[], false, 0, false, false⟩, -5, true⟩) = .ok d' ∧
      d'.name = [] ∧ d'.isOn = false ∧ d'.volume = -5 ∧ d'.isPlaying = true) :=
  ⟨record_roundtrip_without_energy.1 (SmartLight.new [])
      ⟨⟨"Lamp".toList, true, 3, true, true⟩, 500⟩ (by decide) (by decide) (by decide),
   record_roundtrip_without_energy.2.1 (SmartSpeaker.new "x".toList)
      ⟨⟨[], false, 0, false, false⟩, -5, true⟩ (by decide) (by decide) (by decide)⟩

/-! ## C29: the comparators of the two sorts -/

theorem nameCompare_incomparable (a b : Device) :
    (nameCompare a b = false ∧ nameCompare b a = false) ↔
      lowerText a.getName = lowerText b.getName := by
  unfold nameCompare caseInsensitiveSortCompare
  constructor
  · rintro ⟨h1, h2⟩
    exact stringLt_connected _ _ h1 h2
  · intro e
    rw [e]
    exact ⟨stringLt_irrefl _, stringLt_irrefl _⟩

theorem typeCompare_incomparable (a b : Device) :
    (typeCompare a b = false ∧ typeCompare b a = false) ↔
      (lowerText a.getDeviceType = lowerText b.getDeviceType ∧
        lowerText a.getName = lowerText b.getName) := by
  constructor
  · rintro ⟨hab, hba⟩
    rw [typeCompare_false_iff] at hab hba
    rcases hab with hab | ⟨e, hab⟩
    · rcases hba with hba | ⟨e2, _⟩
      · rw [stringLt_asymm _ _ hab] at hba
        simp at hba
      · rw [e2, stringLt_irrefl] at hab
        simp at hab
    · rcases hba with hba | ⟨_, hba⟩
      · rw [e, stringLt_irrefl] at hba
        simp at hba
      · refine ⟨e.symm, ?_⟩
        rw [stringLe_iff] at hab hba
        exact stringLt_connected _ _ hab hba
  · rintro ⟨e1, e2⟩
    constructor
    · rw [typeCompare_false_iff]
      exact Or.inr ⟨e1.symm, Or.inr e2.symm⟩
    · rw [typeCompare_false_iff]
      exact Or.inr ⟨e1, Or.inr e2⟩

/-- C29: the comparison that `sortByName` passes to `std::sort` and the one that
`sortByType` passes are strict weak orderings on devices (irreflexive,
transitive, with a transitive incomparability relation); two devices are
incomparable for `sortByName` exactly when their lowercased names are equal, and
for `sortByType` exactly when their lowercased display labels and their
lowercased names are equal. -/
theorem sort_comparators_strict_weak :
    StrictWeakOrder nameCompare ∧ StrictWeakOrder typeCompare ∧
    (∀ a b : Device, (nameCompare a b = false ∧ nameCompare b a = false) ↔
      lowerText a.getName = lowerText b.getName) ∧
    (∀ a b : Device, (typeCompare a b = false ∧ typeCompare b a = false) ↔
      (lowerText a.getDeviceType = lowerText b.getDeviceType ∧
        lowerText a.getName = lowerText b.getName)) :=
  ⟨nameCompare_strictWeakOrder, typeCompare_strictWeakOrder, nameCompare_incomparable,
    typeCompare_incomparable⟩

/-! ## C27: names of added and renamed devices -/

theorem addDevice_line (choice0 choice : Int) (name rest : Text) (h1 : INT_MIN ≤ choice) (h2 : choice ≤ INT_MAX)
    (hn : '\n' ∉ name) :
    extractInt (addInput choice name rest) choice0
      = (⟨'\n' :: (name ++ '\n' :: rest), false, false⟩, choice) ∧
    getline (extractInt (addInput choice name rest) choice0).1.ignore [] '\n'
      = (⟨rest, false, false⟩, name) := by
  have e := extractInt_text_good choice [] ('\n' :: (name ++ '\n' :: rest)) choice0
    (by simp) (by simp) (by simp) h1 h2
  simp only [List.nil_append] at e
  refine ⟨e, ?_⟩
  unfold addInput
  rw [e]
  simp only [IStream.ignore, IStream.good, Bool.not_false, Bool.and_self, if_true]
  exact getline_split name rest [] '\n' hn

/-- C27 (as amended): `addDevice` with a device type from 1 to 6 and a name line
`name` appends one device, and its name is `name`; `editName` with the line
`name` and `setName(name)` leave the device with the name `name`. So the name is
non-empty exactly when the input name is, and the empty input gives a device
with the empty name. -/
theorem added_device_takes_input_name (devices : List Device) (file : Text)
    (now hour0 minute0 choice0 choice : Int) (name rest : Text)
    (hc1 : 1 ≤ choice) (hc2 : choice ≤ 6) (hn : '\n' ∉ name) (sd : SmartDevice) :
    (∃ d, (addDevice devices (addInput choice name rest) file now hour0 minute0 choice0).1
        = devices ++ [d] ∧ d.getName = name ∧ (d.getName = [] ↔ name = [])) ∧
    (sd.editName ⟨name ++ '\n' :: rest, false, false⟩).1.name = name ∧
    (sd.setName name).name = name ∧
    ((sd.editName ⟨name ++ '\n' :: rest, false, false⟩).1.name = [] ↔ name = []) := by
  obtain ⟨e1, e2⟩ := addDevice_line choice0 choice name rest
    (le_trans (by decide) hc1) (le_trans hc2 (by decide)) hn
  have hedit : (sd.editName ⟨name ++ '\n' :: rest, false, false⟩).1.name = name := by
    simp only [SmartDevice.editName, getline_split name rest [] '\n' hn]
  refine ⟨?_, hedit, rfl, by rw [hedit]⟩
  have hcases : choice = 1 ∨ choice = 2 ∨ choice = 3 ∨ choice = 4 ∨ choice = 5 ∨ choice = 6 := by
    omega
  unfold addDevice
  simp only [e2]
  rw [e1]
  rcases hcases with h | h | h | h | h | h <;> subst h
  · exact ⟨_, rfl, rfl, Iff.rfl⟩
  · exact ⟨_, rfl, rfl, Iff.rfl⟩
  · exact ⟨_, rfl, rfl, Iff.rfl⟩
  · exact ⟨_, rfl, rfl, Iff.rfl⟩
  · exact ⟨_, rfl, rfl, Iff.rfl⟩
  · exact ⟨_, rfl, rfl, Iff.rfl⟩

/-- C27 (witness): a thermostat "Hall" is added to an empty registry; the light
"Lamp" is renamed "Desk". -/
theorem added_device_takes_input_name_witness :
    (∃ d, (addDevice [] (addInput 4 "Hall".toList []) [] 0 0 0 0).1 = [] ++ [d] ∧
      d.getName = "Hall".toList ∧ (d.getName = [] ↔ "Hall".toList = [])) ∧
    (lampOn.toSmartDevice.editName ⟨"Desk".toList ++ '\n' :: [], false, false⟩).1.name
      = "Desk".toList :=
  ⟨(added_device_takes_input_name [] [] 0 0 0 0 4 "Hall".toList [] (by decide) (by decide)
      (by decide) lampOn.toSmartDevice).1,
   (added_device_takes_input_name [] [] 0 0 0 0 4 "Desk".toList [] (by decide) (by decide)
      (by decide) lampOn.toSmartDevice).2.1⟩

/-- C27 (counterexample): with the empty line as name, `addDevice` appends a
light whose name is empty; `editName` with an empty line and `setName("")` leave
the light "Lamp" with the empty name. -/
theorem addDevice_accepts_empty_name :
    (addDevice [] (addInput 1 [] []) [] 0 0 0 0).1 = [Device.light (SmartLight.new [])] ∧
    (Device.light (SmartLight.new [])).getName = [] ∧
    (lampOn.toSmartDevice.editName (IStream.ofText "\n".toList)).1.name = [] ∧
    (lampOn.toSmartDevice.setName []).name = [] := by
  decide

/-! ## C30: the file after repeated adds -/

theorem manageScheduleBody_added (name : Text) (schedules : List Schedule) (cin : IStream)
    (file : Text) (choice0 hour0 minute0 : Int)
    (hch : (manageScheduleBody name schedules cin file choice0 hour0 minute0).device
      ≠ schedules) :
    ∃ e, (manageScheduleBody name schedules cin file choice0 hour0 minute0).device
        = schedules ++ [e] ∧
      (manageScheduleBody name schedules cin file choice0 hour0 minute0).file
        = saveScheduleToFile file name (schedules ++ [e]) ∧ e.storable := by
  simp only [manageScheduleBody] at hch ⊢
  by_cases hc : (extractInt cin choice0).2 = 1 ∨ (extractInt cin choice0).2 = 2
  · rw [if_pos hc] at hch ⊢
    by_cases hv : (extractInt (extractInt cin choice0).1 hour0).2 ≥ 0 ∧
        (extractInt (extractInt cin choice0).1 hour0).2 < 24 ∧
        (extractInt (extractInt (extractInt cin choice0).1 hour0).1 minute0).2 ≥ 0 ∧
        (extractInt (extractInt (extractInt cin choice0).1 hour0).1 minute0).2 < 60
    · rw [if_pos hv]
      refine ⟨_, rfl, rfl, ?_, ?_, ?_, ?_, ?_⟩
      · exact le_trans (by decide) hv.1
      · exact le_trans (le_of_lt hv.2.1) (by decide)
      · exact le_trans (by decide) hv.2.2.1
      · exact le_trans (le_of_lt hv.2.2.2) (by decide)
      · show '\n' ∉ (if _ then "ON".toList else "OFF".toList)
        split <;> decide
    · rw [if_neg hv] at hch
      exact absurd rfl hch
  · rw [if_neg hc] at hch
    exact absurd rfl hch

theorem writtenEntries_succ (entries : List Schedule) (n : Nat) :
    writtenEntries entries (n + 1) = writtenEntries entries n ++ entries.take (n + 1) := by
  simp [writtenEntries, List.range_succ]

theorem writtenIndices_succ (n : Nat) :
    writtenIndices (n + 1) = writtenIndices n ++ List.range (n + 1) := by
  simp [writtenIndices, List.range_succ]

theorem writtenEntries_mem (entries : List Schedule) (n : Nat) :
    ∀ s ∈ writtenEntries entries n, s ∈ entries := by
  induction n with
  | zero => intro s hs; simp [writtenEntries] at hs
  | succ n ih =>
    intro s hs
    rw [writtenEntries_succ, List.mem_append] at hs
    rcases hs with hs | hs
    · exact ih s hs
    · exact List.mem_of_mem_take hs

theorem writtenEntries_length (entries : List Schedule) (n : Nat) (h : n ≤ entries.length) :
    (writtenEntries entries n).length * 2 = n * (n + 1) := by
  induction n with
  | zero => simp [writtenEntries]
  | succ n ih =>
    rw [writtenEntries_succ, List.length_append, List.length_take, Nat.min_eq_left h,
      Nat.add_mul, ih (by omega)]
    ring

theorem writtenIndices_count (n i : Nat) : (writtenIndices n).count i = n - i := by
  induction n with
  | zero => simp [writtenIndices]
  | succ n ih =>
    rw [writtenIndices_succ, List.count_append, ih]
    by_cases hi : i < n + 1
    · rw [List.count_eq_one_of_mem (List.nodup_range _) (List.mem_range.2 hi)]
      omega
    · rw [List.count_eq_zero_of_not_mem (fun hm => hi (List.mem_range.1 hm))]
      omega

theorem take_eq_filterMap_range (entries : List Schedule) (m : Nat) (h : m ≤ entries.length) :
    entries.take m = (List.range m).filterMap (fun i => entries.get? i) := by
  induction m with
  | zero => simp
  | succ m ih =>
    have hm : m < entries.length := by omega
    rw [List.range_succ, List.filterMap_append, ← ih (by omega), List.take_succ]
    simp [List.getElem?_eq_getElem hm]

theorem writtenEntries_eq_indices (entries : List Schedule) (n : Nat) (h : n ≤ entries.length) :
    writtenEntries entries n = (writtenIndices n).filterMap (fun i => entries.get? i) := by
  induction n with
  | zero => simp [writtenEntries, writtenIndices]
  | succ n ih =>
    rw [writtenEntries_succ, writtenIndices_succ, List.filterMap_append, ← ih (by omega),
      take_eq_filterMap_range entries (n + 1) h]

/-- Successive successful adds on a schedule list and a file: the list grows by
one entry each time, and the file grows by the whole list each time. -/
theorem adds_accumulate (name : Text) (seq : Nat → List Schedule × Text) (n : Nat)
    (h0 : (seq 0).1 = [])
    (hstep : ∀ i, i < n → ∃ e, (seq (i + 1)).1 = (seq i).1 ++ [e] ∧
      (seq (i + 1)).2 = saveScheduleToFile (seq i).2 name ((seq i).1 ++ [e]) ∧ e.storable) :
    (seq n).1.length = n ∧ (∀ s ∈ (seq n).1, s.storable) ∧
    (seq n).2 = (seq 0).2 ++ ((writtenEntries (seq n).1 n).map (scheduleLine name)).flatten := by
  have hA : ∀ i, i ≤ n → (seq i).1.length = i ∧ ∀ s ∈ (seq i).1, s.storable := by
    intro i
    induction i with
    | zero => intro _; rw [h0]; exact ⟨rfl, fun s hs => by simp at hs⟩
    | succ i ih =>
      intro hi
      obtain ⟨e, he, _, hs⟩ := hstep i (by omega)
      obtain ⟨hl, hst⟩ := ih (by omega)
      rw [he]
      refine ⟨by simp [hl], ?_⟩
      intro s hs'
      rcases List.mem_append.1 hs' with h | h
      · exact hst s h
      · simp only [List.mem_singleton] at h
        rw [h]; exact hs
  have hB : ∀ j, j ≤ n → ∀ i, i ≤ j → (seq i).1 = (seq j).1.take i := by
    intro j
    induction j with
    | zero =>
      intro _ i hi
      have : i = 0 := by omega
      subst this
      rw [h0]; rfl
    | succ j ih =>
      intro hj i hi
      obtain ⟨e, he, _, _⟩ := hstep j (by omega)
      by_cases hij : i = j + 1
      · subst hij
        have := (hA (j + 1) hj).1
        rw [List.take_of_length_le (by omega)]
      · rw [he, List.take_append_of_le_length (by rw [(hA j (by omega)).1]; omega)]
        exact ih (by omega) i (by omega)
  have hC : ∀ i, i ≤ n → (seq i).2
      = (seq 0).2 ++ ((writtenEntries (seq n).1 i).map (scheduleLine name)).flatten := by
    intro i
    induction i with
    | zero => intro _; simp [writtenEntries]
    | succ i ih =>
      intro hi
      obtain ⟨e, he, hf, _⟩ := hstep i (by omega)
      rw [hf, ← he, hB n (le_refl n) (i + 1) hi, ih (by omega), writtenEntries_succ]
      simp [saveScheduleToFile]
  exact ⟨(hA n (le_refl n)).1, (hA n (le_refl n)).2, hC n (le_refl n)⟩

/-- The same for a class with the members `name` and `schedules` whose
`manageSchedule` runs `manageScheduleBody` on them, read back from the file. -/
theorem class_adds_accumulate {α : Type} (nm : α → Text) (sch : α → List Schedule)
    (manage : α → IStream → Text → Int → Int → Int → ScheduleResult α)
    (hmanage : ∀ d cin file c h m, nm (manage d cin file c h m).device = nm d ∧
      sch (manage d cin file c h m).device = (manageScheduleBody (nm d) (sch d) cin file c h m).device ∧
      (manage d cin file c h m).file = (manageScheduleBody (nm d) (sch d) cin file c h m).file)
    (seq : Nat → ScheduleResult α) (n : Nat) (h0 : sch (seq 0).device = [])
    (hstep : ∀ i, i < n → ∃ cin c h m, seq (i + 1) = manage (seq i).device cin (seq i).file c h m ∧
      sch (seq (i + 1)).device ≠ sch (seq i).device) :
    (sch (seq n).device).length = n ∧
    (seq n).file = (seq 0).file ++
      ((writtenEntries (sch (seq n).device) n).map (scheduleLine (nm (seq 0).device))).flatten ∧
    (PlainName (nm (seq 0).device) → Terminated (seq 0).file → ∀ hour0 minute0,
      loadScheduleFromFile (seq n).file (nm (seq 0).device) hour0 minute0
        = loadScheduleFromFile (seq 0).file (nm (seq 0).device) hour0 minute0
          ++ writtenEntries (sch (seq n).device) n) := by
  have hname : ∀ i, i ≤ n → nm (seq i).device = nm (seq 0).device := by
    intro i
    induction i with
    | zero => intro _; rfl
    | succ i ih =>
      intro hi
      obtain ⟨cin, c, h, m, he, _⟩ := hstep i (by omega)
      rw [he, (hmanage _ _ _ _ _ _).1]
      exact ih (by omega)
  obtain ⟨h1, h2, h3⟩ := adds_accumulate (nm (seq 0).device)
    (fun i => (sch (seq i).device, (seq i).file)) n h0 (by
      intro i hi
      obtain ⟨cin, c, h, m, he, hne⟩ := hstep i hi
      have hb := hmanage (seq i).device cin (seq i).file c h m
      rw [← he, hname i (by omega)] at hb
      rw [hb.2.1] at hne
      obtain ⟨e, e1, e2, e3⟩ := manageScheduleBody_added _ _ _ _ _ _ _ hne
      exact ⟨e, hb.2.1.trans e1, hb.2.2.trans e2, e3⟩)
  simp only at h1 h2 h3
  refine ⟨h1, h3, ?_⟩
  intro hp ht hour0 minute0
  rw [h3]
  exact loadSchedule_saveSchedule (seq 0).file (nm (seq 0).device) _ hour0 minute0 ht hp
    (fun s hs => h2 s (writtenEntries_mem _ _ s hs))

/-- C30: for `SmartPlug`, `Thermostat` and `RadiatorValve`: let a device start
with an empty schedule list and let `n` calls of `manageSchedule` follow, each of
which adds an entry (any input). Then the list has `n` entries, and the file is
the file from before followed, for `j` from 1 to `n`, by the records of the
first `j` entries: nothing is removed, every add appends the whole list. Read as
`loadScheduleFromFile` does (name without `|` and line end, file of complete
lines) the file gives what it gave before followed by these entries. Their
number is `n(n+1)/2`, and the `k`-th entry added is written `n - k + 1` times. -/
theorem repeated_adds_append_whole_list :
    (∀ (seq : Nat → ScheduleResult SmartPlug) (n : Nat), (seq 0).device.schedules = [] →
      (∀ i, i < n → ∃ cin c h m,
        seq (i + 1) = (seq i).device.manageSchedule cin (seq i).file c h m ∧
        (seq (i + 1)).device.schedules ≠ (seq i).device.schedules) →
      (seq n).device.schedules.length = n ∧
      (seq n).file = (seq 0).file ++ ((writtenEntries (seq n).device.schedules n).map
        (scheduleLine (seq 0).device.name)).flatten ∧
      (PlainName (seq 0).device.name → Terminated (seq 0).file → ∀ hour0 minute0,
        loadScheduleFromFile (seq n).file (seq 0).device.name hour0 minute0
          = loadScheduleFromFile (seq 0).file (seq 0).device.name hour0 minute0
            ++ writtenEntries (seq n).device.schedules n)) ∧
    (∀ (seq : Nat → ScheduleResult Thermostat) (n : Nat), (seq 0).device.schedules = [] →
      (∀ i, i < n → ∃ cin c h m,
        seq (i + 1) = (seq i).device.manageSchedule cin (seq i).file c h m ∧
        (seq (i + 1)).device.schedules ≠ (seq i).device.schedules) →
      (seq n).device.schedules.length = n ∧
      (seq n).file = (seq 0).file ++ ((writtenEntries (seq n).device.schedules n).map
        (scheduleLine (seq 0).device.name)).flatten ∧
      (PlainName (seq 0).device.name → Terminated (seq 0).file → ∀ hour0 minute0,
        loadScheduleFromFile (seq n).file (seq 0).device.name hour0 minute0
          = loadScheduleFromFile (seq 0).file (seq 0).device.name hour0 minute0
            ++ writtenEntries (seq n).device.schedules n)) ∧
    (∀ (seq : Nat → ScheduleResult RadiatorValve) (n : Nat), (seq 0).device.schedules = [] →
      (∀ i, i < n → ∃ cin c h m,
        seq (i + 1) = (seq i).device.manageSchedule cin (seq i).file c h m ∧
        (seq (i + 1)).device.schedules ≠ (seq i).device.schedules) →
      (seq n).device.schedules.length = n ∧
      (seq n).file = (seq 0).file ++ ((writtenEntries (seq n).device.schedules n).map
        (scheduleLine (seq 0).device.name)).flatten ∧
      (PlainName (seq 0).device.name → Terminated (seq 0).file → ∀ hour0 minute0,
        loadScheduleFromFile (seq n).file (seq 0).device.name hour0 minute0
          = loadScheduleFromFile (seq 0).file (seq 0).device.name hour0 minute0
            ++ writtenEntries (seq n).device.schedules n)) ∧
    (∀ (entries : List Schedule) (n : Nat), entries.length = n →
      (writtenEntries entries n).length = n * (n + 1) / 2 ∧
      writtenEntries entries n = (writtenIndices n).filterMap (fun i => entries.get? i) ∧
      ∀ k, 1 ≤ k → k ≤ n → (writtenIndices n).count (k - 1) = n - k + 1) := by
  refine ⟨?_, ?_, ?_, ?_⟩
  · intro seq n h0 hstep
    exact class_adds_accumulate (fun d : SmartPlug => d.name) (fun d => d.schedules)
      SmartPlug.manageSchedule (fun _ _ _ _ _ _ => ⟨rfl, rfl, rfl⟩) seq n h0 hstep
  · intro seq n h0 hstep
    exact class_adds_accumulate (fun d : Thermostat => d.name) (fun d => d.schedules)
      Thermostat.manageSchedule (fun _ _ _ _ _ _ => ⟨rfl, rfl, rfl⟩) seq n h0 hstep
  · intro seq n h0 hstep
    exact class_adds_accumulate (fun d : RadiatorValve => d.name) (fun d => d.schedules)
      RadiatorValve.manageSchedule (fun _ _ _ _ _ _ => ⟨rfl, rfl, rfl⟩) seq n h0 hstep
  · intro entries n hn
    refine ⟨?_, writtenEntries_eq_indices entries n (by omega), ?_⟩
    · have h := writtenEntries_length entries n (by omega)
      exact (Nat.div_eq_of_eq_mul_left (by decide) h.symm).symm
    · intro k h1 h2
      rw [writtenIndices_count]
      omega

/-- C30 (witness): three times the input `1 7 30` on the thermostat "Hall",
starting with an empty file: six records in the file. -/
theorem repeated_adds_append_whole_list_witness :
    (hallRun 3).device.schedules.length = 3 ∧
    (hallRun 3).file = (hallRun 0).file ++ ((writtenEntries (hallRun 3).device.schedules 3).map
      (scheduleLine (hallRun 0).device.name)).flatten ∧
    (loadScheduleFromFile (hallRun 3).file "Hall".toList 0 0).length = 6 :=
  ⟨(repeated_adds_append_whole_list.2.1 hallRun 3 rfl (fun i hi =>
      ⟨IStream.ofText "1 7 30\n".toList, 0, 0, 0, rfl, by
        have hc : i = 0 ∨ i = 1 ∨ i = 2 := by omega
        rcases hc with h | h | h <;> subst h <;> decide⟩)).1,
   (repeated_adds_append_whole_list.2.1 hallRun 3 rfl (fun i hi =>
      ⟨IStream.ofText "1 7 30\n".toList, 0, 0, 0, rfl, by
        have hc : i = 0 ∨ i = 1 ∨ i = 2 := by omega
        rcases hc with h | h | h <;> subst h <;> decide⟩)).2.1,
   by decide⟩

end SmartHome
